import Mathlib

/-!
TerminalChess: a shallow embedding of `src/TerminalChess.c`.

Characters are modelled by their ASCII codes (`Nat`), board coordinates by `Int`
(the C `short int`), the board by the row-major list of its 64 bytes, and every
function that writes through a pointer returns the new value of what it wrote.

Three things the C standard leaves undefined are fixed by the model and named:
* a read outside the 8x8 array yields `OUT`, a write outside it is dropped;
* an uninitialised byte reads as `UNINIT`;
* the fixed capacity of the local `Position` arrays is not modelled (they are lists).
-/

namespace TerminalChess

/-! ## Characters -/

/-- The blank square `' '`. -/
abbrev SPACE : Nat := 32
/-- `ROOK = 'R'`. -/
abbrev ROOK : Nat := 82
/-- `KNIGHT = 'N'`. -/
abbrev KNIGHT : Nat := 78
/-- `BISHOP = 'B'`. -/
abbrev BISHOP : Nat := 66
/-- `QUEEN = 'Q'`. -/
abbrev QUEEN : Nat := 81
/-- `KING = 'K'`. -/
abbrev KING : Nat := 75
/-- `PAWN = 'P'`. -/
abbrev PAWN : Nat := 80
/-- What a read outside the board array yields in the model. -/
abbrev OUT : Nat := 0
/-- What an uninitialised byte reads as in the model. -/
abbrev UNINIT : Nat := 0

/-- `toupper` in the C locale. -/
def toupper (c : Nat) : Nat := if 97 ≤ c ∧ c ≤ 122 then c - 32 else c

/-- `tolower` in the C locale. -/
def tolower (c : Nat) : Nat := if 65 ≤ c ∧ c ≤ 90 then c + 32 else c

/-- `isdigit`. -/
def isdigit (c : Nat) : Bool := decide (48 ≤ c ∧ c ≤ 57)

/-- `isalnum` in the C locale. -/
def isalnum (c : Nat) : Bool :=
  decide ((48 ≤ c ∧ c ≤ 57) ∨ (65 ≤ c ∧ c ≤ 90) ∨ (97 ≤ c ∧ c ≤ 122))

/-- `strchr(s, c) != NULL`: the terminating NUL of `s` is found too. -/
def strchr (s : List Nat) (c : Nat) : Bool := decide (c = 0 ∨ c ∈ s)

/-- The macro `hasSameColor(piece, isWhite)`:
`strchr((isWhite) ? "PRNBQK" : "prnbqk", (piece))`. -/
def hasSameColor (piece : Nat) (isWhite : Bool) : Bool :=
  strchr (if isWhite then [80, 82, 78, 66, 81, 75] else [112, 114, 110, 98, 113, 107]) piece

/-- A C `bool` used as an integer. -/
def b2i (b : Bool) : Int := if b then 1 else 0

/-- A C `bool` used as a character offset. -/
def b2n (b : Bool) : Nat := if b then 1 else 0

/-- `isRow(c)`. -/
def isRow (c : Int) : Bool := decide ((0 ≤ c ∧ c < 8) ∨ (49 ≤ c ∧ c < 57))

/-- `isCol(c)`. -/
def isCol (c : Int) : Bool := decide ((0 ≤ c ∧ c < 8) ∨ (97 ≤ c ∧ c < 105))

/-! ## Data model -/

/-- `Position`: two `short int`s. -/
structure Position where
  row : Int
  col : Int
deriving DecidableEq

/-- `KingPosition`: two one-bit flags and two three-bit coordinates. -/
structure KingPosition where
  canCastleShort : Bool
  canCastleLong : Bool
  row : Fin 8
  col : Fin 8
deriving DecidableEq

/-- `GameStatus`. -/
inductive GameStatus where
  | WHITE | BLACK | WHITE_WON | DRAWBYPLAYER | DRAWBYREPETITION
  | DRAWBY50MOVERULE | DRAWBYMATERIAL | STALEMATE | BLACK_WON
deriving DecidableEq

/-- `SearchType`. -/
inductive SearchType where
  | FINDPIECES | ISLEGALMOVE
deriving DecidableEq

/-- `MoveType`. -/
inductive MoveType where
  | NORMALMOVE | DOUBLEPAWNMOVE | ENPEASANT | PROMOTION
  | CASTLESHORT | CASTLELONG | PLAYERDRAW | RESIGN
deriving DecidableEq

/-- `Move`. -/
structure Move where
  type : MoveType
  origin : Position
  destination : Position
  pieceMoved : Nat
  captures : Bool
  promotionPiece : Nat
deriving DecidableEq

/-- `Board`: the 64 bytes behind the `char (*)[8]`, row after row. -/
abbrev Board := List Nat

/-- `BoardPosition`: the 64 four-bit codes of the 32 `PieceCouple`s, `p1` then `p2`. -/
abbrev BoardPosition := List Nat

/-- `GameState`. -/
structure GameState where
  board : Board
  whiteKing : KingPosition
  blackKing : KingPosition
  status : GameStatus
  move : Move
  positions : List BoardPosition
  movesWithoutCaptures : Nat
  moveCounter : Nat
deriving DecidableEq

/-- Truncation of an integer to a three-bit unsigned bit-field. -/
def bits3 (x : Int) : Fin 8 := ⟨(x % 8).toNat, by omega⟩

/-- The macro `getRegPos(kingPos)`. -/
def getRegPos (k : KingPosition) : Position := ⟨(k.row.val : Int), (k.col.val : Int)⟩

/-- The macro `comparePositions(pos1, pos2)`. -/
def comparePositions (p q : Position) : Bool := decide (p.col = q.col ∧ p.row = q.row)

/-- The macro `isKnightMove(pos1, pos2)`. -/
def isKnightMove (p q : Position) : Bool :=
  decide (((p.row - q.row).natAbs = 2 * (p.col - q.col).natAbs)
    ∨ ((p.col - q.col).natAbs = 2 * (p.row - q.row).natAbs))

/-! ## The board -/

/-- Whether `board[r][c]` lies inside the array. -/
def inBoard (r c : Int) : Bool := decide (0 ≤ r ∧ r < 8 ∧ 0 ≤ c ∧ c < 8)

/-- The offset of `board[r][c]` in the array. -/
def boardIdx (r c : Int) : Nat := (r * 8 + c).toNat

/-- The read `board[r][c]`. -/
def boardGet (b : Board) (r c : Int) : Nat :=
  if inBoard r c then b.getD (boardIdx r c) OUT else OUT

/-- The write `board[r][c] = v`. -/
def boardSet (b : Board) (r c : Int) (v : Nat) : Board :=
  if inBoard r c then b.set (boardIdx r c) v else b

/-- The macro `boardAt(pos)`, read. -/
def boardAt (b : Board) (p : Position) : Nat := boardGet b p.row p.col

/-- The macro `boardAt(pos) = v`, write. -/
def setAt (b : Board) (p : Position) (v : Nat) : Board := boardSet b p.row p.col v

/-- `initializeBoard`. -/
def initializeBoard : Board :=
  [114, 110, 98, 113, 107, 98, 110, 114,
   112, 112, 112, 112, 112, 112, 112, 112,
   32, 32, 32, 32, 32, 32, 32, 32,
   32, 32, 32, 32, 32, 32, 32, 32,
   32, 32, 32, 32, 32, 32, 32, 32,
   32, 32, 32, 32, 32, 32, 32, 32,
   80, 80, 80, 80, 80, 80, 80, 80,
   82, 78, 66, 81, 75, 66, 78, 82]

/-! ## Line of sight -/

/-- The values `start + 1, ..., stop - 1` of a loop `for (++start; start < stop; ++start)`. -/
def between (start stop : Int) : List Int :=
  (List.range (stop - start - 1).toNat).map (fun (k : Nat) => start + 1 + (k : Int))

/-- `getLineOfSight`: the result and the list after the appends. -/
def getLineOfSight (pos1 pos2 : Position) (list : List Position) : Bool × List Position :=
  let start := if pos1.row < pos2.row then pos1.row else pos2.row
  let stop := if pos1.row < pos2.row then pos2.row else pos1.row
  if (pos1.row - pos2.row).natAbs = (pos1.col - pos2.col).natAbs then
    (true, list ++ (between start stop).map (fun s =>
      ⟨s, pos1.col + (Int.tdiv (pos1.row - pos2.row) (pos1.col - pos2.col)) * (s - pos1.row)⟩))
  else if pos1.row = pos2.row then
    let start := if pos1.col < pos2.col then pos1.col else pos2.col
    let stop := if pos1.col < pos2.col then pos2.col else pos1.col
    (true, list ++ (between start stop).map (fun s => ⟨pos1.row, s⟩))
  else if pos1.col = pos2.col then
    (true, list ++ (between start stop).map (fun s => ⟨s, pos1.col⟩))
  else (false, list)

/-- `hasClearSight`. -/
def hasClearSight (board : Board) (pos1 pos2 : Position) : Bool :=
  match getLineOfSight pos1 pos2 [] with
  | (false, _) => false
  | (true, list) => list.all (fun p => decide (boardAt board p = SPACE))

/-! ## Applying a move -/

/-- `makeMove`. -/
def makeMove (board : Board) (move : Move) : Board :=
  let b1 := setAt board move.origin SPACE
  let b2 := setAt b1 move.destination
    (if move.type = MoveType.PROMOTION then move.promotionPiece else move.pieceMoved)
  match move.type with
  | MoveType.ENPEASANT =>
      boardSet b2 (move.destination.row - 1 + b2i (decide (move.pieceMoved = 80)) * 2)
        move.destination.col SPACE
  | MoveType.CASTLELONG =>
      boardSet (boardSet b2 move.destination.row 0 SPACE) move.destination.row 3
        (if move.pieceMoved = 75 then 82 else 114)
  | MoveType.CASTLESHORT =>
      boardSet (boardSet b2 move.destination.row 7 SPACE) move.destination.row 5
        (if move.pieceMoved = 75 then 82 else 114)
  | _ => b2

/-! ## Reachability search -/

/-- A loop whose body may `return true`: the bodies run in order on the
threaded state until one of them reports `true`. -/
def scan {α σ : Type} (body : α → σ → Bool × σ) : List α → σ → Bool × σ
  | [], s => (false, s)
  | x :: xs, s =>
    match body x s with
    | (true, s1) => (true, s1)
    | (false, s1) => scan body xs s1

/-- What `search` reads and writes through its pointers: the board and the
`candidates` array (its `count` is the length of the list). -/
abbrev SearchState := Board × List Position

/-- The type of `isPossibleMove`, through which `search` is tied to it. -/
abbrev Probe := Board → Move → KingPosition → Bool × Board

/-- `search`, with the legality probe it calls in `ISLEGALMOVE` mode as a parameter. -/
def searchWith (probe : Probe) (pieceType : Nat) (searchType : SearchType)
    (pos dest : Position) (piece : Nat) (st : SearchState) (kingPos : KingPosition) :
    Bool × SearchState :=
  if comparePositions pos dest then (false, st) else
  let isWhite := hasSameColor piece true
  let board := st.1
  let sight : Bool :=
    if pieceType = KNIGHT ∨ pieceType = KING then true else hasClearSight board pos dest
  match searchType with
  | SearchType.FINDPIECES =>
      if boardAt board dest = piece ∧ sight = true then (false, (board, st.2 ++ [dest]))
      else (false, st)
  | SearchType.ISLEGALMOVE =>
      if sight = true ∧ hasSameColor (boardAt board dest) isWhite = false then
        let captures : Bool :=
          hasSameColor (boardAt board dest) (!isWhite)
            || decide (pieceType = PAWN ∧ (pos.col - dest.col).natAbs = 1)
        let type : MoveType :=
          if pieceType = PAWN ∧ (pos.row - dest.row).natAbs = 2 then MoveType.DOUBLEPAWNMOVE
          else MoveType.NORMALMOVE
        let r := probe board ⟨type, pos, dest, piece, captures, SPACE⟩ kingPos
        (r.1, (r.2, st.2))
      else (false, st)

/-- The destinations of the `ROOK` case of `searchBoard`, in loop order. -/
def rookDests (pos : Position) : List Position :=
  (List.range 8).map (fun (j : Nat) => (⟨pos.row, (j : Int)⟩ : Position))
    ++ (List.range 8).map (fun (j : Nat) => (⟨(j : Int), pos.col⟩ : Position))

/-- The destinations of the `KNIGHT` case of `searchBoard` that reach `search`. -/
def knightDests (pos : Position) : List Position :=
  ((List.range 5).flatMap (fun (di : Nat) => (List.range 5).map (fun (dj : Nat) =>
      (⟨pos.row - 2 + (di : Int), pos.col - 2 + (dj : Int)⟩ : Position)))).filter
    (fun d => isRow d.row && isCol d.col && isKnightMove d pos)

/-- The destinations of the `BISHOP` case of `searchBoard`. -/
def bishopDests (pos : Position) : List Position :=
  (([-1, 1] : List Int).flatMap (fun (i : Int) => (List.range 8).map (fun (r : Nat) =>
      (⟨(r : Int), pos.col + i * ((r : Int) - pos.row)⟩ : Position)))).filter
    (fun d => isCol d.col)

/-- The destinations of the `KING` case of `searchBoard`. -/
def kingDests (pos : Position) : List Position :=
  ((List.range 3).flatMap (fun (di : Nat) => (List.range 3).map (fun (dj : Nat) =>
      (⟨pos.row - 1 + (di : Int), pos.col - 1 + (dj : Int)⟩ : Position)))).filter
    (fun d => isRow d.row && isCol d.col)

/-- The destinations of the `PAWN` case of `searchBoard`: the loop over `i` runs from
`pos.row + 2 - isWhite * 4` towards `pos.row` in steps of `1 - isWhite * 2`. -/
def pawnDests (pos : Position) (isWhite : Bool) : List Position :=
  (([2, 1] : List Int).flatMap (fun k => ([-1, 0, 1] : List Int).map (fun dj =>
      (⟨pos.row + k * (1 - b2i isWhite * 2), pos.col + dj⟩ : Position)))).filter
    (fun d => isRow d.row && isCol d.col && !isKnightMove d pos)

/-- `searchBoard`, with the legality probe as a parameter. A `pieceType` outside
the enumeration reaches the end of the C function; the model answers `false`. -/
def searchBoardWith (probe : Probe) (pieceType : Nat) (searchType : SearchType)
    (pos : Position) (piece : Nat) (st : SearchState) (kingPos : KingPosition) :
    Bool × SearchState :=
  let go (pt : Nat) (ty : SearchType) (dests : List Position) (s : SearchState) :=
    scan (fun d s1 => searchWith probe pt ty pos d piece s1 kingPos) dests s
  if pieceType = ROOK then go ROOK searchType (rookDests pos) st
  else if pieceType = KNIGHT then go KNIGHT searchType (knightDests pos) st
  else if pieceType = BISHOP then go BISHOP searchType (bishopDests pos) st
  else if pieceType = QUEEN then
    match go ROOK searchType (rookDests pos) st with
    | (true, s1) => (true, s1)
    | (false, s1) => go BISHOP searchType (bishopDests pos) s1
  else if pieceType = KING then go KING searchType (kingDests pos) st
  else if pieceType = PAWN then
    go PAWN SearchType.ISLEGALMOVE (pawnDests pos (hasSameColor piece true)) st
  else (false, st)

/-- A probe for the searches in `FINDPIECES` mode, which never call one. -/
def noProbe : Probe := fun b _ _ => (false, b)

/-- The `NULL` passed as `kingPos` in `FINDPIECES` mode, where it is never read. -/
def nullKing : KingPosition := ⟨false, false, 0, 0⟩

/-! ## Check detection and move legality -/

/-- The inner loop of the pawn scan of `isInCheck` for one value of `i`. -/
def pawnAttackers (board : Board) (pos : Position) (isWhite : Bool) (i : Int) :
    List Position :=
  (([-1, 1] : List Int).filter (fun j =>
      !(decide (pos.col + j < 0 ∨ pos.col + j ≥ 8))
        && decide (boardGet board (pos.row - i * (2 * b2i isWhite - 1)) (pos.col + j)
            = 80 + b2n isWhite * 32))).map
    (fun j => (⟨pos.row - i * (2 * b2i isWhite - 1), pos.col + j⟩ : Position))

/-- `isInCheck`: the result and the `attackers` list after the appends. The five
searches run in `FINDPIECES` mode, which neither writes the board nor probes. -/
def isInCheck (board : Board) (pos : Position) (isWhite : Bool) (previousMove : Move)
    (attackers : List Position) : Bool × List Position :=
  let a1 := attackers ++ pawnAttackers board pos isWhite 1
  let a2 :=
    if previousMove.destination.row ≠ pos.row ∨ previousMove.destination.col ≠ pos.col
        ∨ previousMove.type ≠ MoveType.DOUBLEPAWNMOVE then a1
    else a1 ++ pawnAttackers board pos isWhite 0
  let a3 := ([ROOK, KNIGHT, BISHOP, QUEEN, KING] : List Nat).foldl (fun acc pt =>
    (searchBoardWith noProbe pt SearchType.FINDPIECES pos (pt + b2n isWhite * 32)
      (board, acc) nullKing).2.2) a2
  (decide (a3.length > 0), a3)

/-- The squares `isPossibleMove` restores and what it writes there, in the order of
its final loop. For castling only `pieces[1]` is ever assigned (its last value is
`pList[3]`); the other three entries are uninitialised. -/
def restoreList (board : Board) (move : Move) (isWhite : Bool) : List (Position × Nat) :=
  if move.type = MoveType.CASTLELONG ∨ move.type = MoveType.CASTLESHORT then
    let r : Int := if isWhite then 7 else 0
    let s : Int := b2i (decide (move.type = MoveType.CASTLESHORT))
    [(⟨r, 4⟩, UNINIT), (⟨r, 2 + 4 * s⟩, SPACE), (⟨r, 0 + 7 * s⟩, UNINIT),
     (⟨r, 3 + 2 * s⟩, UNINIT)]
  else
    [(move.origin, move.pieceMoved), (move.destination, boardAt board move.destination)]
      ++ (if move.type = MoveType.ENPEASANT then
            [(⟨move.destination.row - 1 + b2i isWhite * 2, move.destination.col⟩,
              80 + b2n isWhite * 32)]
          else [])

/-- The loop `for (i < locationCount) boardAt(positions[i]) = pieces[i]`. -/
def restore (board : Board) (l : List (Position × Nat)) : Board :=
  l.foldl (fun b pv => setAt b pv.1 pv.2) board

/-- `isPossibleMove`: the result and the board it leaves behind. -/
def isPossibleMove (board : Board) (move : Move) (ownKingPos : KingPosition) :
    Bool × Board :=
  if move.destination.row = move.origin.row ∧ move.destination.col = move.origin.col then
    (false, board)
  else
    let destSquare := boardAt board move.destination
    let isWhite := hasSameColor move.pieceMoved true
    if hasSameColor destSquare isWhite = true then (false, board)
    else if destSquare ≠ SPACE ∧ move.captures = false then (false, board)
    else if destSquare = SPACE ∧ move.captures = true ∧ move.type ≠ MoveType.ENPEASANT then
      (false, board)
    else if toupper move.pieceMoved = PAWN ∧ move.captures = true
        ∧ move.origin.col = move.destination.col then (false, board)
    else if tolower move.pieceMoved ≠ 110
        ∧ hasClearSight board move.origin move.destination = false then (false, board)
    else
      let saved := restoreList board move isWhite
      let board1 := makeMove board move
      let problems := isInCheck board1
        (if tolower move.pieceMoved = 107 then move.destination else getRegPos ownKingPos)
        isWhite move []
      (decide (problems.2.length = 0), restore board1 saved)

/-- `search`. -/
def search (pieceType : Nat) (searchType : SearchType) (pos dest : Position) (piece : Nat)
    (st : SearchState) (kingPos : KingPosition) : Bool × SearchState :=
  searchWith isPossibleMove pieceType searchType pos dest piece st kingPos

/-- `searchBoard`. -/
def searchBoard (pieceType : Nat) (searchType : SearchType) (pos : Position) (piece : Nat)
    (st : SearchState) (kingPos : KingPosition) : Bool × SearchState :=
  searchBoardWith isPossibleMove pieceType searchType pos piece st kingPos

/-! ## Checkmate, stalemate, material -/

/-- `canMoveTo`: the result and the board it leaves behind. -/
def canMoveTo (board : Board) (target : Position) (isWhite : Bool) (kingPos : KingPosition)
    (previousMove : Move) : Bool × Board :=
  let pawn : Nat := 112 - b2n isWhite * 32
  match scan (fun (i : Int) (b : Board) =>
      let row := target.row + i * (2 * b2i isWhite - 1)
      let square := boardGet b row target.col
      if square = pawn then
        isPossibleMove b
          ⟨if i = 1 then MoveType.NORMALMOVE else MoveType.DOUBLEPAWNMOVE,
            ⟨row, target.col⟩, target, square, false, SPACE⟩ kingPos
      else (false, b))
    (if target.row ≠ 3 + b2i isWhite then [1] else [1, 2]) board with
  | (true, b1) => (true, b1)
  | (false, b1) =>
    match
      (if target.row = 5 - 3 * b2i isWhite
          ∧ previousMove.type = MoveType.DOUBLEPAWNMOVE
          ∧ previousMove.destination.col = target.col then
        scan (fun (i : Int) (b : Board) =>
            if isCol i = false then (false, b) else
            let row := previousMove.destination.row
            let square := boardGet b row i
            if square ≠ pawn then (false, b) else
            isPossibleMove b
              ⟨MoveType.ENPEASANT, ⟨row, target.col⟩, target, square, true, SPACE⟩ kingPos)
          [target.row - 1, target.row + 1] b1
       else (false, b1)) with
    | (true, b2) => (true, b2)
    | (false, b2) =>
      scan (fun (pt : Nat) (b : Board) =>
          let found := searchBoard pt SearchType.FINDPIECES target (pt + 32 * b2n (!isWhite))
            (b, []) nullKing
          scan (fun (c : Position) (b3 : Board) =>
              isPossibleMove b3
                ⟨MoveType.NORMALMOVE, c, target, pt + b2n (!isWhite) * 32, false, SPACE⟩
                kingPos)
            found.2.2 found.2.1)
        [ROOK, KNIGHT, BISHOP, QUEEN] b2

/-- The squares visited by the last two loops of `isCheckmate`. -/
def kingSquares (k : KingPosition) : List Position :=
  ((List.range 3).flatMap (fun (di : Nat) => (List.range 3).map (fun (dj : Nat) =>
      (⟨(k.row.val : Int) - 1 + (di : Int), (k.col.val : Int) - 1 + (dj : Int)⟩ : Position)))).filter
    (fun d => inBoard d.row d.col)

/-- `isCheckmate`: the result and the board it leaves behind; `checkerCount` is the
length of `checkers`. -/
def isCheckmate (board : Board) (oppKingPos : KingPosition) (checkers : List Position)
    (previousMove : Move) : Bool × Board :=
  let isWhite := hasSameColor (boardAt board (getRegPos oppKingPos)) true
  let kingLoop (b : Board) : Bool × Board :=
    match scan (fun (d : Position) (b1 : Board) =>
        isPossibleMove b1
          ⟨MoveType.NORMALMOVE, getRegPos oppKingPos, d, 75 + 32 * b2n (!isWhite), false, SPACE⟩
          oppKingPos)
      (kingSquares oppKingPos) b with
    | (true, b1) => (false, b1)
    | (false, b1) => (true, b1)
  if checkers.length = 0 then (false, board)
  else if checkers.length = 1 then
    let checker := checkers.headD ⟨0, 0⟩
    let saviors := isInCheck board checker (!isWhite) previousMove []
    match
      (if saviors.1 = true then
        scan (fun (s : Position) (b : Board) =>
            isPossibleMove b
              ⟨MoveType.NORMALMOVE, s, checker, boardAt b s, true, SPACE⟩ oppKingPos)
          saviors.2 board
       else (false, board)) with
    | (true, b1) => (false, b1)
    | (false, b1) =>
      if toupper (boardAt b1 checker) ≠ KNIGHT then
        match getLineOfSight checker (getRegPos oppKingPos) [] with
        | (false, _) => (false, b1)
        | (true, lineOfSight) =>
          match scan (fun (t : Position) (b : Board) =>
              canMoveTo b t isWhite oppKingPos previousMove) lineOfSight b1 with
          | (true, b2) => (false, b2)
          | (false, b2) => kingLoop b2
      else kingLoop b1
  else kingLoop board

/-- The squares of the board in the order of the double loop `for i, for j`. -/
def allSquares : List Position :=
  (List.range 8).flatMap (fun (i : Nat) => (List.range 8).map (fun (j : Nat) =>
    (⟨(i : Int), (j : Int)⟩ : Position)))

/-- `hasSufficientMaterial`. -/
def hasSufficientMaterial (board : Board) : Bool :=
  if allSquares.any (fun p =>
      decide (toupper (boardAt board p) = ROOK ∨ toupper (boardAt board p) = QUEEN
        ∨ toupper (boardAt board p) = PAWN)) then true
  else
    let knightCount := (allSquares.filter (fun p =>
      decide (toupper (boardAt board p) = KNIGHT))).length
    let bishopCount (k : Int) := (allSquares.filter (fun p =>
      decide (toupper (boardAt board p) = BISHOP ∧ (p.row + p.col) % 2 = k))).length
    decide (knightCount > 1 ∨ (bishopCount 0 > 0 ∧ bishopCount 1 > 0)
      ∨ (bishopCount 0 + bishopCount 1 > 0 ∧ knightCount > 0))

/-- `isStalemate`: the result and the board it leaves behind. -/
def isStalemate (board : Board) (kingPos : KingPosition) : Bool × Board :=
  let isWhite := hasSameColor (boardAt board (getRegPos kingPos)) true
  let pieces := allSquares.filter (fun p => hasSameColor (boardAt board p) isWhite)
  match scan (fun (p : Position) (b : Board) =>
      let piece := boardAt b p
      let r := searchBoard (toupper piece) SearchType.ISLEGALMOVE p piece (b, []) kingPos
      (r.1, r.2.1)) pieces board with
  | (true, b1) => (false, b1)
  | (false, b1) => (true, b1)

/-! ## Position encoding -/

/-- The table `options` of `convertBoardPosition`. -/
def options : List Nat :=
  [32, 112, 80, 114, 99, 82, 67, 110, 78, 98, 66, 113, 81, 107, 75, 101]

/-- The loop `for (k < 15) if (options[k] == p) p = k` on one square. -/
def encodeChar (c : Nat) : Nat :=
  (List.range 15).foldl (fun p k => if options.getD k 0 = p then k else p) c

/-- The four-bit code stored for one square before the corner adjustment. The
destination of the last move is marked 15 after a double pawn move. -/
def encodeSquare (state : GameState) (p : Position) : Nat :=
  (if comparePositions state.move.destination p = true
      ∧ state.move.type = MoveType.DOUBLEPAWNMOVE then 15
   else encodeChar (boardAt state.board p)) % 16

/-- The last loop of `convertBoardPosition` on the corner with index `i`, stored
at offset `idx` of the encoding. -/
def bumpCorner (enc : BoardPosition) (i idx : Nat) (right : Bool) : BoardPosition :=
  let offset := i % 2
  let c := enc.getD idx 0
  if (c ≠ 3 ∨ i ≠ offset ∨ right = false) ∧ (c ≠ 5 ∨ i ≠ 2 + offset ∨ right = false) then enc
  else enc.set idx ((c + 1) % 16)

/-- The encoding `convertBoardPosition` computes. -/
def encodePosition (state : GameState) : BoardPosition :=
  let e0 := allSquares.map (encodeSquare state)
  let e1 := bumpCorner e0 0 0 state.blackKing.canCastleLong
  let e2 := bumpCorner e1 1 7 state.blackKing.canCastleShort
  let e3 := bumpCorner e2 2 56 state.whiteKing.canCastleLong
  bumpCorner e3 3 63 state.whiteKing.canCastleShort

/-- `convertBoardPosition`: the state with the encoding stored at index
`movesWithoutCaptures` of the history and the counter incremented. The returned
pointer is to that entry. -/
def convertBoardPosition (state : GameState) : GameState :=
  { state with
    positions := state.positions.set state.movesWithoutCaptures (encodePosition state)
    movesWithoutCaptures := (state.movesWithoutCaptures + 1) % 65536 }

/-- `compareBoardPositions`. -/
def compareBoardPositions (old new : BoardPosition) : Bool :=
  (List.range 64).all (fun i => decide (old.getD i 0 = new.getD i 0))

/-! ## Game status -/

/-- `updateGameStatus`: the new state and the value of `*isCheck`. -/
def updateGameStatus (state : GameState) (isCheck : Bool) : GameState × Bool :=
  let status := state.status
  let oppKingPos :=
    if status = GameStatus.BLACK then state.whiteKing else state.blackKing
  let move := state.move
  let chk := isInCheck state.board (getRegPos oppKingPos) (decide (status = GameStatus.BLACK))
    move []
  let mate : Bool × Board :=
    if chk.1 = true then isCheckmate state.board oppKingPos chk.2 move
    else (false, state.board)
  let isCheck1 := isCheck || chk.1
  let st1 : GameState := { state with board := mate.2 }
  if mate.1 = true then
    ({ st1 with status :=
        if status = GameStatus.WHITE then GameStatus.WHITE_WON else GameStatus.BLACK_WON },
      isCheck1)
  else if move.type = MoveType.PLAYERDRAW then
    ({ st1 with status := GameStatus.DRAWBYPLAYER }, isCheck1)
  else if state.movesWithoutCaptures ≥ 100 then
    ({ st1 with status := GameStatus.DRAWBY50MOVERULE }, isCheck1)
  else if move.type = MoveType.RESIGN then
    ({ st1 with status :=
        if status = GameStatus.BLACK then GameStatus.WHITE_WON else GameStatus.BLACK_WON },
      isCheck1)
  else
    let own := if status = GameStatus.WHITE then st1.whiteKing else st1.blackKing
    let own1 : KingPosition :=
      if tolower move.pieceMoved = 114 then
        if move.origin.col = 7 then { own with canCastleShort := false }
        else if move.origin.col = 0 then { own with canCastleLong := false }
        else own
      else if tolower move.pieceMoved = 107 then
        ⟨false, false, bits3 move.destination.row, bits3 move.destination.col⟩
      else own
    let st2 : GameState :=
      if status = GameStatus.WHITE then { st1 with whiteKing := own1 }
      else { st1 with blackKing := own1 }
    let st3 := convertBoardPosition st2
    let current := st3.positions.getD st2.movesWithoutCaptures []
    let count := (List.range ((st3.movesWithoutCaptures : Int) - 1).toNat).foldl
      (fun cnt i =>
        if cnt < 3 ∧ compareBoardPositions (st3.positions.getD i []) current = true
        then cnt + 1 else cnt) 1
    if count = 3 then ({ st3 with status := GameStatus.DRAWBYREPETITION }, isCheck1)
    else
      let s1 := if status = GameStatus.WHITE then GameStatus.BLACK else GameStatus.WHITE
      let s2 := if hasSufficientMaterial st3.board = false then GameStatus.DRAWBYMATERIAL else s1
      let stale := isStalemate st3.board oppKingPos
      ({ st3 with board := stale.2,
                  status := if stale.1 = true then GameStatus.STALEMATE else s2 }, isCheck1)

/-! ## The notation resolver -/

/-- The byte `move[i]` of the input buffer; the bytes after the list are NUL. -/
def tokAt (move : List Nat) (i : Nat) : Nat := move.getD i 0

/-- The C string that starts the buffer, as `strcmp` sees it. -/
def cstr (move : List Nat) : List Nat := move.takeWhile (fun c => decide (c ≠ 0))

/-- `setMoveToCastle`: the result and the new `*move`. -/
def setMoveToCastle (move : Move) (type : MoveType) (kingPos : KingPosition) : Bool × Move :=
  if type ≠ MoveType.CASTLESHORT ∧ type ≠ MoveType.CASTLELONG then (false, move) else
  let isWhite := hasSameColor move.pieceMoved false
  if (kingPos.canCastleShort = false ∧ type = MoveType.CASTLESHORT)
      ∨ (kingPos.canCastleLong = false ∧ type = MoveType.CASTLELONG) then (false, move)
  else
    (true, ⟨type, ⟨if isWhite then 7 else 0, 4⟩,
      ⟨if isWhite then 7 else 0, if type = MoveType.CASTLESHORT then 6 else 2⟩,
      107 - b2n isWhite * 32, false, SPACE⟩)

/-- `findDestination`: `none` for `false`, otherwise the destination written to the
move and `*destinationIndex`. -/
def findDestination (rawMove : List Nat) : Option (Position × Nat) :=
  match ([2, 3, 4, 5, 6, 7, 8, 9] : List Nat).find? (fun i => !isalnum (tokAt rawMove i)) with
  | none => none
  | some i =>
    if isRow (tokAt rawMove (i - 1) : Nat) = false then none
    else if isCol (tokAt rawMove (i - 2) : Nat) = false then none
    else some (⟨56 - (tokAt rawMove (i - 1) : Int), (tokAt rawMove (i - 2) : Int) - 97⟩, i - 2)

/-- The capture loop of `validateMove` (lines 938-945): `none` when it returns
`false`, otherwise the capture flag and the final `captureIndex`. -/
def captureScan (move : List Nat) (dest : Position) : Option (Bool × Nat) :=
  match (List.range 10).find? (fun i => decide (tokAt move i = 120)) with
  | none => some (false, 10)
  | some ci =>
    if ci > 3 then none
    else if (tokAt move (ci + 1) : Int) - 97 ≠ dest.col then none
    else if 56 - (tokAt move (ci + 2) : Int) ≠ dest.row then none
    else some (true, ci)

/-- How a branch of `validateMove` ends before the common tail (lines 1036-1039). -/
inductive Resolved where
  /-- A `return false`. -/
  | reject
  /-- The `return 20` of line 980. -/
  | accept20
  /-- The branch falls through to the tail with this `newMove`. -/
  | candidate (newMove : Move)
deriving DecidableEq

/-- The pawn branch of `validateMove` (lines 947-980). -/
def resolvePawn (move : List Nat) (board : Board) (lastMove : Move) (isWhite : Bool)
    (dest : Position) (destSquare : Nat) (captures : Bool) (captureIndex : Nat) : Resolved :=
  let pieceMoved : Nat := 112 - b2n isWhite * 32
  let originCol : Int := (tokAt move 0 : Int) - 97
  let ogRow : Int := dest.row - 1 + b2i isWhite * 2
  if ogRow < 1 ∨ ogRow > 6 then Resolved.reject else
  let located : Option (Int × MoveType) :=
    if isRow (tokAt move 1 : Nat) = true then
      if boardGet board ogRow dest.col = pieceMoved then some (ogRow, MoveType.NORMALMOVE)
      else if dest.row - b2i isWhite ≠ 3 then none
      else if boardGet board (ogRow + (2 * b2i isWhite - 1)) dest.col = pieceMoved then
        some (ogRow + (2 * b2i isWhite - 1), MoveType.DOUBLEPAWNMOVE)
      else none
    else if captureIndex = 1 then
      if boardGet board ogRow originCol ≠ pieceMoved then none
      else if destSquare = SPACE then
        if lastMove.destination.row ≠ dest.row - 1 + b2i isWhite * 2
            ∨ lastMove.destination.col ≠ dest.col
            ∨ lastMove.type ≠ MoveType.DOUBLEPAWNMOVE then none
        else some (ogRow, MoveType.ENPEASANT)
      else some (ogRow, MoveType.NORMALMOVE)
    else none
  match located with
  | none => Resolved.reject
  | some (originRow, type) =>
    let i := 1 + b2n captures * 3
    let promo : Option (MoveType × Nat) :=
      if tokAt move i = 61 then
        if dest.row ≠ 7 - b2i isWhite * 7 then none
        else if strchr [82, 78, 66, 81] (tokAt move (i + 1)) = false then none
        else some (MoveType.PROMOTION, tokAt move (i + 1) + b2n (!isWhite) * 32)
      else some (type, UNINIT)
    match promo with
    | none => Resolved.reject
    | some (type1, promotionPiece) =>
      if (dest.row = 0 ∨ dest.row = 7) ∧ type1 ≠ MoveType.PROMOTION then Resolved.accept20
      else Resolved.candidate
        ⟨type1, ⟨originRow, originCol⟩, dest, pieceMoved, captures, promotionPiece⟩

/-- What `validateMove` hands back: its result, the state and the two flags. -/
structure VResult where
  ok : Bool
  state : GameState
  specifyRow : Bool
  specifyCol : Bool
deriving DecidableEq

/-- An array whose first entries were overwritten by `new` after its count was reset. -/
def overwrite (old new : List Position) : List Position := new ++ old.drop new.length

/-- The tail of `validateMove` (lines 1036-1039). -/
def commitMove (state : GameState) (kingPos : KingPosition) (newMove : Move)
    (shouldReturn specifyRow specifyCol : Bool) : VResult :=
  let probe : Bool × Board :=
    if shouldReturn = false then isPossibleMove state.board newMove kingPos
    else (true, state.board)
  let st1 : GameState := { state with board := probe.2 }
  if shouldReturn = false ∧ probe.1 = false then ⟨false, st1, specifyRow, specifyCol⟩
  else
    ⟨true,
      { st1 with
        movesWithoutCaptures :=
          if newMove.captures = true ∨ toupper newMove.pieceMoved = PAWN then 0
          else st1.movesWithoutCaptures
        move := newMove },
      specifyRow, specifyCol⟩

/-- The castling branch of `validateMove` (lines 914-929). -/
def validateCastle (move : List Nat) (state : GameState) (specifyRow specifyCol : Bool) :
    VResult :=
  let isWhite := decide (state.status = GameStatus.WHITE)
  let kingPos := if state.status = GameStatus.WHITE then state.whiteKing else state.blackKing
  let isShort := decide (cstr move = [79, 45, 79] ∨ cstr move = [79, 45, 79, 43]
    ∨ cstr move = [79, 45, 79, 35])
  let isLong := decide (cstr move = [79, 45, 79, 45, 79] ∨ cstr move = [79, 45, 79, 45, 79, 43]
    ∨ cstr move = [79, 45, 79, 45, 79, 35])
  let no : VResult := ⟨false, state, specifyRow, specifyCol⟩
  if isShort = false ∧ isLong = false then no
  else if (isShort = true ∧ kingPos.canCastleShort = false)
      ∨ (isLong = true ∧ kingPos.canCastleLong = false) then no
  else
    let step : Int := if isShort then 1 else -1
    let reg := getRegPos kingPos
    let c0 := isInCheck state.board reg isWhite state.move []
    let c1 := isInCheck state.board ⟨reg.row, reg.col + step⟩ isWhite state.move c0.2
    let c2 := isInCheck state.board ⟨reg.row, reg.col + 2 * step⟩ isWhite state.move c1.2
    if c0.1 = true ∨ c1.1 = true ∨ c2.1 = true then no
    else if hasClearSight state.board reg ⟨(kingPos.row.val : Int), if isShort then 7 else 0⟩
        = false then no
    else
      let r := setMoveToCastle state.move
        (if isShort then MoveType.CASTLESHORT else MoveType.CASTLELONG) kingPos
      ⟨r.1, { state with move := r.2 }, specifyRow, specifyCol⟩

/-- The branch of `validateMove` for a piece letter (lines 982-1034). -/
def validatePiece (move : List Nat) (state : GameState) (specifyRow specifyCol : Bool)
    (dest : Position) (destinationIndex : Nat) (captures : Bool) : VResult :=
  let isWhite := decide (state.status = GameStatus.WHITE)
  let kingPos := if state.status = GameStatus.WHITE then state.whiteKing else state.blackKing
  let piece : Nat := tokAt move 0 + (if isWhite = false then 32 else 0)
  let newMove (origin : Position) : Move :=
    ⟨MoveType.NORMALMOVE, origin, dest, piece, captures, UNINIT⟩
  let found := searchBoard (toupper piece) SearchType.FINDPIECES dest piece
    (state.board, []) nullKing
  let candidates := found.2.2
  let st0 : GameState := { state with board := found.2.1 }
  if candidates.length > 1 then
    let filtered := candidates.foldl (fun (acc : Board × List Position) c =>
        match isPossibleMove acc.1 ⟨MoveType.NORMALMOVE, c, dest, piece, captures, SPACE⟩
            kingPos with
        | (true, b) => (b, acc.2 ++ [c])
        | (false, b) => (b, acc.2)) (st0.board, [])
    let st1 : GameState := { st0 with board := filtered.1 }
    let newCandidates := filtered.2
    if newCandidates.length = 1 then
      commitMove { st1 with move := newMove (newCandidates.headD ⟨0, 0⟩) } kingPos
        (newMove (newCandidates.headD ⟨0, 0⟩)) true specifyRow specifyCol
    else if newCandidates.length > 1 then
      if destinationIndex ≤ 1 then ⟨false, st1, specifyRow, specifyCol⟩
      else if isCol (tokAt move 1 : Nat) = true then
        let byCol := newCandidates.filter (fun c => decide (c.col = (tokAt move 1 : Int) - 97))
        let specifyCol1 := specifyCol || decide (byCol.length > 0)
        if byCol.length > 1 then
          if isRow (tokAt move 2 : Nat) = false then ⟨false, st1, specifyRow, specifyCol1⟩
          else
            let byRow := byCol.filter (fun c => decide (c.row = (tokAt move 2 : Int) - 49))
            match byRow.getLast? with
            | none => ⟨false, st1, specifyRow, specifyCol1⟩
            | some origin => commitMove st1 kingPos (newMove origin) true true specifyCol1
        else if byCol.length = 1 then
          commitMove st1 kingPos (newMove (byCol.headD ⟨0, 0⟩)) false specifyRow specifyCol1
        else ⟨false, st1, specifyRow, specifyCol1⟩
      else if isRow (tokAt move 1 : Nat) = true then
        let byRow := newCandidates.filter (fun c => decide (c.row = (tokAt move 1 : Int) - 49))
        let specifyRow1 := specifyRow || decide (byRow.length > 0)
        if byRow.length > 1 then ⟨false, st1, specifyRow1, specifyCol⟩
        else
          commitMove st1 kingPos (newMove ((overwrite candidates byRow).headD ⟨0, 0⟩)) true
            specifyRow1 specifyCol
      else ⟨false, st1, specifyRow, specifyCol⟩
    else ⟨false, st1, specifyRow, specifyCol⟩
  else if candidates.length = 1 then
    commitMove st0 kingPos (newMove (candidates.headD ⟨0, 0⟩)) false specifyRow specifyCol
  else ⟨false, st0, specifyRow, specifyCol⟩

/-- `validateMove`. -/
def validateMove (move : List Nat) (state : GameState) (specifyRow specifyCol : Bool) :
    VResult :=
  let board := state.board
  let piece := tokAt move 0
  let isWhite := decide (state.status = GameStatus.WHITE)
  let kingPos := if state.status = GameStatus.WHITE then state.whiteKing else state.blackKing
  let no : VResult := ⟨false, state, specifyRow, specifyCol⟩
  if piece = 79 then validateCastle move state specifyRow specifyCol
  else
    match findDestination move with
    | none => no
    | some (dest, destinationIndex) =>
      let destSquare := boardAt board dest
      if tolower destSquare = 107 then no
      else if isWhite = true ∧ strchr [80, 78, 82, 66, 81] destSquare = true then no
      else if isWhite = false ∧ strchr [112, 110, 114, 98, 113] destSquare = true then no
      else
        match captureScan move dest with
        | none => no
        | some (captures, captureIndex) =>
          if isCol (piece : Nat) = true then
            match resolvePawn move board state.move isWhite dest destSquare captures
                captureIndex with
            | Resolved.reject => no
            | Resolved.accept20 => ⟨true, state, specifyRow, specifyCol⟩
            | Resolved.candidate newMove =>
                commitMove state kingPos newMove false specifyRow specifyCol
          else if strchr [75, 78, 82, 66, 81] piece = true then
            validatePiece move state specifyRow specifyCol dest destinationIndex captures
          else no

/-! ## The game loop -/

/-- The state `main` builds before it asks for the first move: the initialiser of
`state`, then the `convertBoardPosition` call that records the first position. -/
def initialState : GameState :=
  convertBoardPosition
    { board := initializeBoard
      whiteKing := ⟨true, true, 7, 4⟩
      blackKing := ⟨true, true, 0, 4⟩
      status := GameStatus.WHITE
      move := ⟨MoveType.NORMALMOVE, ⟨0, 0⟩, ⟨0, 0⟩, 107, false, 0⟩
      positions := List.replicate 100 (List.replicate 64 0)
      movesWithoutCaptures := 0
      moveCounter := 1 }

/-- One turn of the loop of `main` on a move token that is not `export`, `draw` or
`resign`: `none` when `validateMove` rejects it (and `getMove` asks again),
otherwise the state after `makeMove` and `updateGameStatus` and the check flag. -/
def playMove (state : GameState) (token : List Nat) : Option (GameState × Bool) :=
  let st0 : GameState := { state with moveCounter := (state.moveCounter + 1) % 65536 }
  let v := validateMove token st0 false false
  if v.ok = true then
    some (updateGameStatus { v.state with board := makeMove v.state.board v.state.move } false)
  else none

/-- The bytes of a token typed at the prompt. -/
def token (s : String) : List Nat := s.toList.map Char.toNat

/-- The loop of `main` fed with move tokens: `none` as soon as a token is rejected
or the game is already over. -/
def playMoves (state : GameState) : List (List Nat) → Option GameState
  | [] => some state
  | t :: ts =>
    if state.status = GameStatus.WHITE ∨ state.status = GameStatus.BLACK then
      match playMove state t with
      | none => none
      | some (s1, _) => playMoves s1 ts
    else none

/-! ## Positions used by the scenarios -/

/-- After 1. e4 e5 2. d3 Bb4+: White is in check from the bishop on b4. -/
def afterBb4 : Option GameState :=
  playMoves initialState [token "e4", token "e5", token "d3", token "Bb4+"]

/-- After 1. b4 a5 2. a3 axb4 3. e3 bxa3 4. Qh5 a2 5. Qxf7+: Black is in check from
the queen on f7 and has a pawn on a2. -/
def afterQxf7 : Option GameState :=
  playMoves initialState [token "b4", token "a5", token "a3", token "axb4", token "e3",
    token "bxa3", token "Qh5", token "a2", token "Qxf7+"]

/-- The state `main` reaches after loading `4k3/8/8/8/6n1/8/6PP/6nK b - - 5 40`:
Black to move, knights on g4 and g1, White's king on h1 behind its pawns. -/
def knightPosition : GameState :=
  convertBoardPosition
    { board :=
        [32, 32, 32, 32, 107, 32, 32, 32,
         32, 32, 32, 32, 32, 32, 32, 32,
         32, 32, 32, 32, 32, 32, 32, 32,
         32, 32, 32, 32, 32, 32, 32, 32,
         32, 32, 32, 32, 32, 32, 110, 32,
         32, 32, 32, 32, 32, 32, 32, 32,
         32, 32, 32, 32, 32, 32, 80, 80,
         32, 32, 32, 32, 32, 32, 110, 75]
      whiteKing := ⟨false, false, 7, 7⟩
      blackKing := ⟨false, false, 0, 4⟩
      status := GameStatus.BLACK
      move := ⟨MoveType.NORMALMOVE, ⟨0, 0⟩, ⟨0, 0⟩, 0, false, 0⟩
      positions := List.replicate 100 (List.replicate 64 0)
      movesWithoutCaptures := 5
      moveCounter := 80 }

/-- After 1. f3 e5 2. g4 Qh4#. -/
def afterFoolsMate : Option GameState :=
  playMoves initialState [token "f3", token "e5", token "g4", token "Qh4#"]

/-- After 1. e4 a6 2. e5 d5. -/
def afterD5 : Option GameState :=
  playMoves initialState [token "e4", token "a6", token "e5", token "d5"]

/-- After 1. e4 a6 2. e5 f5. -/
def afterF5 : Option GameState :=
  playMoves initialState [token "e4", token "a6", token "e5", token "f5"]

/-- The board after `makeMove` applies the last move recorded in the state that
`validateMove` leaves behind, as `main` does after `getMove`. -/
def boardAfter (state : GameState) (tok : List Nat) : Board :=
  makeMove (validateMove tok state false false).state.board
    (validateMove tok state false false).state.move

/-- The last move recorded in the state that `validateMove` leaves behind. -/
def moveAfter (state : GameState) (tok : List Nat) : Move :=
  (validateMove tok state false false).state.move

/-- The board after 1. f3 e5 2. g4 Qh4#. -/
def foolsMateBoard : Board :=
  [114, 110, 98, 32, 107, 98, 110, 114,
   112, 112, 112, 112, 32, 112, 112, 112,
   32, 32, 32, 32, 32, 32, 32, 32,
   32, 32, 32, 32, 112, 32, 32, 32,
   32, 32, 32, 32, 32, 32, 80, 113,
   32, 32, 32, 32, 32, 80, 32, 32,
   80, 80, 80, 80, 80, 32, 32, 80,
   82, 78, 66, 81, 75, 66, 78, 82]

/-- The board after 1. e4 a6 2. e5 f5. -/
def boardE5F5 : Board :=
  [114, 110, 98, 113, 107, 98, 110, 114,
   32, 112, 112, 112, 112, 32, 112, 112,
   112, 32, 32, 32, 32, 32, 32, 32,
   32, 32, 32, 32, 80, 112, 32, 32,
   32, 32, 32, 32, 32, 32, 32, 32,
   32, 32, 32, 32, 32, 32, 32, 32,
   80, 80, 80, 80, 32, 80, 80, 80,
   82, 78, 66, 81, 75, 66, 78, 82]

/-! ## Notions used in the statements -/

/-- What the hypothesis of the frame property says about an en-passant move: the
piece moved is a pawn and the square it passes holds the pawn of the other colour. -/
def enPassantReady (b : Board) (m : Move) : Prop :=
  (m.pieceMoved = 80
      ∧ boardAt b ⟨m.destination.row + 1, m.destination.col⟩ = 112)
    ∨ (m.pieceMoved = 112
      ∧ boardAt b ⟨m.destination.row - 1, m.destination.col⟩ = 80)

/-- Whether the scan `isStalemate` runs from square `p` finds a legal move. -/
def hasLegalMove (board : Board) (kingPos : KingPosition) (p : Position) : Bool :=
  (searchBoard (toupper (boardAt board p)) SearchType.ISLEGALMOVE p (boardAt board p)
    (board, []) kingPos).1

/-- The destination written after the `x` of a pawn capture token. -/
def captureDest (move : List Nat) : Position :=
  ⟨56 - (tokAt move 3 : Int), (tokAt move 2 : Int) - 97⟩

/-- Whether a hit is recorded by `search` in `FINDPIECES` mode. -/
def findHit (pt : Nat) (b : Board) (pos : Position) (piece : Nat) (dest : Position) : Bool :=
  !comparePositions pos dest && decide (boardAt b dest = piece)
    && (decide (pt = KNIGHT ∨ pt = KING) || hasClearSight b pos dest)

/-- The squares `searchBoard` records in `FINDPIECES` mode for the five piece kinds
`isInCheck` looks for. -/
def findList (pt : Nat) (b : Board) (pos : Position) (piece : Nat) : List Position :=
  if pt = ROOK then (rookDests pos).filter (findHit ROOK b pos piece)
  else if pt = KNIGHT then (knightDests pos).filter (findHit KNIGHT b pos piece)
  else if pt = BISHOP then (bishopDests pos).filter (findHit BISHOP b pos piece)
  else if pt = QUEEN then (rookDests pos).filter (findHit ROOK b pos piece)
    ++ (bishopDests pos).filter (findHit BISHOP b pos piece)
  else if pt = KING then (kingDests pos).filter (findHit KING b pos piece)
  else []

/-- The squares `p` and `q` share a row, a column or a diagonal. -/
def collinear (p q : Position) : Prop :=
  (p.row - q.row).natAbs = (p.col - q.col).natAbs ∨ p.row = q.row ∨ p.col = q.col

/-- The square `t` lies strictly between `p` and `q` on the row, column or diagonal
they share: `k` steps from `p` towards `q`, which is `n > k` steps away. -/
def strictlyBetween (p q t : Position) : Prop :=
  ∃ dr dc k n : Int, (dr = -1 ∨ dr = 0 ∨ dr = 1) ∧ (dc = -1 ∨ dc = 0 ∨ dc = 1)
    ∧ ¬ (dr = 0 ∧ dc = 0) ∧ 0 < k ∧ k < n
    ∧ q.row = p.row + n * dr ∧ q.col = p.col + n * dc
    ∧ t.row = p.row + k * dr ∧ t.col = p.col + k * dc

/-- The enemy piece of kind `pt` that `isInCheck` looks for: black (lower case) when
the victim is white, white when the victim is black. -/
def enemy (pt : Nat) (isWhite : Bool) : Nat := pt + b2n isWhite * 32

/-- The squares are a knight's jump apart. -/
def knightJump (p q : Position) : Prop :=
  ((p.row - q.row).natAbs = 1 ∧ (p.col - q.col).natAbs = 2)
    ∨ ((p.row - q.row).natAbs = 2 ∧ (p.col - q.col).natAbs = 1)

/-- The squares are different and touch, by a side or a corner. -/
def adjacent (p q : Position) : Prop :=
  p ≠ q ∧ (p.row - q.row).natAbs ≤ 1 ∧ (p.col - q.col).natAbs ≤ 1

/-- Every square strictly between `p` and `q` is empty. -/
def clearBetween (b : Board) (p q : Position) : Prop :=
  ∀ t, strictlyBetween p q t → boardAt b t = SPACE

/-- The square `sq` holds an enemy piece that attacks `pos`, in the words of the claim
about `isInCheck`. -/
def attacks (board : Board) (isWhite : Bool) (pos sq : Position) : Prop :=
  inBoard sq.row sq.col = true
  ∧ ((boardAt board sq = enemy PAWN isWhite
        ∧ sq.row = (if isWhite then pos.row - 1 else pos.row + 1)
        ∧ (sq.col - pos.col).natAbs = 1)
    ∨ (boardAt board sq = enemy KNIGHT isWhite ∧ knightJump sq pos)
    ∨ (boardAt board sq = enemy KING isWhite ∧ adjacent sq pos)
    ∨ ((boardAt board sq = enemy ROOK isWhite ∨ boardAt board sq = enemy QUEEN isWhite)
        ∧ sq ≠ pos ∧ (sq.row = pos.row ∨ sq.col = pos.col) ∧ clearBetween board pos sq)
    ∨ ((boardAt board sq = enemy BISHOP isWhite ∨ boardAt board sq = enemy QUEEN isWhite)
        ∧ sq ≠ pos ∧ (sq.row - pos.row).natAbs = (sq.col - pos.col).natAbs
        ∧ clearBetween board pos sq))

/-- A game state with the board after 1. e4 a6 2. e5 f5, White to move, whose last move
is the double pawn push f7-f5. -/
def stateE5F5 : GameState :=
  { board := boardE5F5
    whiteKing := ⟨true, true, 7, 4⟩
    blackKing := ⟨true, true, 0, 4⟩
    status := GameStatus.WHITE
    move := ⟨MoveType.DOUBLEPAWNMOVE, ⟨1, 5⟩, ⟨3, 5⟩, 112, false, 0⟩
    positions := List.replicate 100 (List.replicate 64 0)
    movesWithoutCaptures := 1
    moveCounter := 5 }

/-! ## The stages of `updateGameStatus` -/

/-- The opponent's king record that `updateGameStatus` reads at line 738. -/
def oppKing (state : GameState) : KingPosition :=
  if state.status = GameStatus.BLACK then state.whiteKing else state.blackKing

/-- Lines 741-747 of `updateGameStatus`: whether the opponent's king is reported
checkmated, and the board the probes of `isCheckmate` leave behind. -/
def mateTest (state : GameState) : Bool × Board :=
  let chk := isInCheck state.board (getRegPos (oppKing state))
    (decide (state.status = GameStatus.BLACK)) state.move []
  if chk.1 = true then isCheckmate state.board (oppKing state) chk.2 state.move
  else (false, state.board)

/-- Lines 758-769 of `updateGameStatus`: the mover's king record after the last move
is taken into account. -/
def ownKingAfter (state : GameState) : KingPosition :=
  let own := if state.status = GameStatus.WHITE then state.whiteKing else state.blackKing
  if tolower state.move.pieceMoved = 114 then
    if state.move.origin.col = 7 then { own with canCastleShort := false }
    else if state.move.origin.col = 0 then { own with canCastleLong := false }
    else own
  else if tolower state.move.pieceMoved = 107 then
    ⟨false, false, bits3 state.move.destination.row, bits3 state.move.destination.col⟩
  else own

/-- The state whose position `updateGameStatus` records at line 770: the board as the
mate test left it and the mover's king record updated. -/
def recorded (state : GameState) : GameState :=
  if state.status = GameStatus.WHITE then
    { state with board := (mateTest state).2, whiteKing := ownKingAfter state }
  else { state with board := (mateTest state).2, blackKing := ownKingAfter state }

/-- The loop of lines 771-773: `count` after it has run over the first `n` entries. -/
def countLoop (hist : List BoardPosition) (n : Nat) (cur : BoardPosition) : Nat :=
  (List.range n).foldl (fun cnt i =>
    if cnt < 3 ∧ compareBoardPositions (hist.getD i []) cur = true then cnt + 1 else cnt) 1

/-- How many of the first `n` entries of the history are reported equal to `cur`. -/
def repetitions (hist : List BoardPosition) (n : Nat) (cur : BoardPosition) : Nat :=
  ((List.range n).filter (fun i => compareBoardPositions (hist.getD i []) cur)).length

/-- The fields of the state that `validateMove` never writes agree in `s` and `t`, and
so does the half-move clock. -/
def sameRecords (s t : GameState) : Prop :=
  t.whiteKing = s.whiteKing ∧ t.blackKing = s.blackKing ∧ t.status = s.status
    ∧ t.positions = s.positions ∧ t.moveCounter = s.moveCounter
    ∧ t.movesWithoutCaptures = s.movesWithoutCaptures

/-- What `validateMove` may do to the state `s`: the king records, the status, the
history and the move counter stay, and the half-move clock stays unless the call
returns true with a move that captures or moves a pawn, which sets it to 0. -/
def framed (s : GameState) (v : VResult) : Prop :=
  v.state.whiteKing = s.whiteKing ∧ v.state.blackKing = s.blackKing
    ∧ v.state.status = s.status ∧ v.state.positions = s.positions
    ∧ v.state.moveCounter = s.moveCounter
    ∧ (v.state.movesWithoutCaptures = s.movesWithoutCaptures
      ∨ (v.ok = true ∧ v.state.movesWithoutCaptures = 0
        ∧ (v.state.move.captures = true ∨ toupper v.state.move.pieceMoved = PAWN)))

/-- The loop of `main` fed with move tokens each of which records a move that neither
captures nor moves a pawn: `none` as soon as a token is rejected, records another kind
of move, or the game is already over. -/
def playQuiet (state : GameState) : List (List Nat) → Option GameState
  | [] => some state
  | t :: ts =>
    if state.status = GameStatus.WHITE ∨ state.status = GameStatus.BLACK then
      match playMove state t with
      | none => none
      | some (s1, _) =>
        if s1.move.captures = false ∧ toupper s1.move.pieceMoved ≠ PAWN then playQuiet s1 ts
        else none
    else none

/-- A rook ending on entry to `updateGameStatus`: White has just played Ra1-a2, kings on
e1 and e8, no castling rights, an empty history and the half-move clock at `clock`. -/
def rookEnding (clock : Nat) : GameState :=
  { board :=
      [32, 32, 32, 32, 107, 32, 32, 32,
       32, 32, 32, 32, 32, 32, 32, 32,
       32, 32, 32, 32, 32, 32, 32, 32,
       32, 32, 32, 32, 32, 32, 32, 32,
       32, 32, 32, 32, 32, 32, 32, 32,
       32, 32, 32, 32, 32, 32, 32, 32,
       82, 32, 32, 32, 32, 32, 32, 32,
       32, 32, 32, 32, 75, 32, 32, 32]
    whiteKing := ⟨false, false, 7, 4⟩
    blackKing := ⟨false, false, 0, 4⟩
    status := GameStatus.WHITE
    move := ⟨MoveType.NORMALMOVE, ⟨7, 0⟩, ⟨6, 0⟩, 82, false, 0⟩
    positions := List.replicate 100 (List.replicate 64 0)
    movesWithoutCaptures := clock
    moveCounter := 121 }

/-- The rook ending with the clock at 2 and a history whose two entries both hold the
encoding of the position on the board. -/
def rookEndingRepeated : GameState :=
  { rookEnding 2 with
    positions := ((rookEnding 2).positions.set 0 (encodePosition (rookEnding 2))).set 1
      (encodePosition (rookEnding 2)) }

/-! ## Material, encoding and positions for the later claims -/

/-- The double loop of `hasSufficientMaterial` from the squares `ps` on, entered with
the counts `knightCount`, `bishopCount[0]` and `bishopCount[1]`. The counts are unsigned
16-bit in the source and grow by at most 64. -/
def materialLoop (board : Board) : List Position → Nat → Nat → Nat → Bool
  | [], n, b0, b1 => decide (n > 1 ∨ (b0 > 0 ∧ b1 > 0) ∨ (b0 + b1 > 0 ∧ n > 0))
  | p :: ps, n, b0, b1 =>
    if toupper (boardAt board p) = ROOK ∨ toupper (boardAt board p) = QUEEN
        ∨ toupper (boardAt board p) = PAWN then true
    else if toupper (boardAt board p) = KNIGHT then materialLoop board ps (n + 1) b0 b1
    else if toupper (boardAt board p) = BISHOP then
      if (p.row + p.col) % 2 = 0 then materialLoop board ps n (b0 + 1) b1
      else materialLoop board ps n b0 (b1 + 1)
    else materialLoop board ps n b0 b1

/-- The square is light: a1, in row 7 and column 0, is dark. -/
def lightSquare (p : Position) : Prop := (p.row + p.col) % 2 = 0

/-- The board holds exactly the two kings and one bishop. -/
def kingsAndBishop (board : Board) : Prop :=
  ∃ wk bk bp : Position, boardAt board wk = 75 ∧ boardAt board bk = 107
    ∧ toupper (boardAt board bp) = BISHOP
    ∧ ∀ p ∈ allSquares, p ≠ wk → p ≠ bk → p ≠ bp → boardAt board p = SPACE

/-- The state `main` passes to `updateGameStatus` once `getMove` has accepted the move
token `tok`: the move counter incremented, then `validateMove`, then `makeMove` with the
move left in the state. -/
def entryAfter (state : GameState) (tok : List Nat) : GameState :=
  { (validateMove tok { state with moveCounter := (state.moveCounter + 1) % 65536 }
      false false).state with
    board := boardAfter { state with moveCounter := (state.moveCounter + 1) % 65536 } tok }

/-- The state `main` reaches after loading `k7/2n5/1K6/8/5B2/8/8/8 w - - 0 60`: White to
move, bishop on f4, Black's king on a8 beside its knight on c7. -/
def beforeBxc7 : GameState :=
  convertBoardPosition
    { board :=
        [107, 32, 32, 32, 32, 32, 32, 32,
         32, 32, 110, 32, 32, 32, 32, 32,
         32, 75, 32, 32, 32, 32, 32, 32,
         32, 32, 32, 32, 32, 32, 32, 32,
         32, 32, 32, 32, 32, 66, 32, 32,
         32, 32, 32, 32, 32, 32, 32, 32,
         32, 32, 32, 32, 32, 32, 32, 32,
         32, 32, 32, 32, 32, 32, 32, 32]
      whiteKing := ⟨false, false, 2, 1⟩
      blackKing := ⟨false, false, 0, 0⟩
      status := GameStatus.WHITE
      move := ⟨MoveType.NORMALMOVE, ⟨0, 0⟩, ⟨0, 0⟩, 0, false, 0⟩
      positions := List.replicate 100 (List.replicate 64 0)
      movesWithoutCaptures := 0
      moveCounter := 120 }

/-- King on b6 and bishop on c7 against the king on a8. -/
def bishopStalemateBoard : Board :=
  [107, 32, 32, 32, 32, 32, 32, 32,
   32, 32, 66, 32, 32, 32, 32, 32,
   32, 75, 32, 32, 32, 32, 32, 32,
   32, 32, 32, 32, 32, 32, 32, 32,
   32, 32, 32, 32, 32, 32, 32, 32,
   32, 32, 32, 32, 32, 32, 32, 32,
   32, 32, 32, 32, 32, 32, 32, 32,
   32, 32, 32, 32, 32, 32, 32, 32]

/-- On entry to `updateGameStatus`: White's bishop has just captured on c7, leaving
king on b6 and bishop on c7 against the king on h8. -/
def bishopEnding : GameState :=
  { board :=
      [32, 32, 32, 32, 32, 32, 32, 107,
       32, 32, 66, 32, 32, 32, 32, 32,
       32, 75, 32, 32, 32, 32, 32, 32,
       32, 32, 32, 32, 32, 32, 32, 32,
       32, 32, 32, 32, 32, 32, 32, 32,
       32, 32, 32, 32, 32, 32, 32, 32,
       32, 32, 32, 32, 32, 32, 32, 32,
       32, 32, 32, 32, 32, 32, 32, 32]
    whiteKing := ⟨false, false, 2, 1⟩
    blackKing := ⟨false, false, 0, 7⟩
    status := GameStatus.WHITE
    move := ⟨MoveType.NORMALMOVE, ⟨4, 5⟩, ⟨1, 2⟩, 66, true, 0⟩
    positions := List.replicate 100 (List.replicate 64 0)
    movesWithoutCaptures := 0
    moveCounter := 121 }

/-- The en-passant status the encoding can show: the destination of the last move when
that move was a double pawn move. -/
def epStatus (s : GameState) : Option Position :=
  if s.move.type = MoveType.DOUBLEPAWNMOVE then some s.move.destination else none

/-- The last move agrees with the board: when it was a double pawn move, its destination
holds a pawn. -/
def doublePushOnPawn (s : GameState) : Prop :=
  s.move.type = MoveType.DOUBLEPAWNMOVE → toupper (boardAt s.board s.move.destination) = PAWN

/-- A rook ending with White to move: kings on e1 and e8, White's rook on a2, Black's
last move Ke7-e8, no castling rights, an empty history and the half-move clock at
`clock`. -/
def whiteToMoveAt (clock : Nat) : GameState :=
  { board :=
      [32, 32, 32, 32, 107, 32, 32, 32,
       32, 32, 32, 32, 32, 32, 32, 32,
       32, 32, 32, 32, 32, 32, 32, 32,
       32, 32, 32, 32, 32, 32, 32, 32,
       32, 32, 32, 32, 32, 32, 32, 32,
       32, 32, 32, 32, 32, 32, 32, 32,
       82, 32, 32, 32, 32, 32, 32, 32,
       32, 32, 32, 32, 75, 32, 32, 32]
    whiteKing := ⟨false, false, 7, 4⟩
    blackKing := ⟨false, false, 0, 4⟩
    status := GameStatus.WHITE
    move := ⟨MoveType.NORMALMOVE, ⟨1, 4⟩, ⟨0, 4⟩, 107, false, 0⟩
    positions := List.replicate 100 (List.replicate 64 0)
    movesWithoutCaptures := clock
    moveCounter := 122 }

/-- The state `main` passes to `updateGameStatus` when the line typed is `resign`: the
move counter incremented, the kind of the last move overwritten by `getMove`, and
`makeMove` run on that move. -/
def resignEntry (state : GameState) : GameState :=
  { state with
    moveCounter := (state.moveCounter + 1) % 65536
    move := { state.move with type := MoveType.RESIGN }
    board := makeMove state.board { state.move with type := MoveType.RESIGN } }

/-- The state `main` reaches after loading `r3k2r/8/8/8/8/8/8/R3K2R b KQkq - 0 1`: Black
to move, all four castling flags set, and the last move all zero as `loadPosition`
leaves it. -/
def castleLoaded : GameState :=
  convertBoardPosition
    { board :=
        [114, 32, 32, 32, 107, 32, 32, 114,
         32, 32, 32, 32, 32, 32, 32, 32,
         32, 32, 32, 32, 32, 32, 32, 32,
         32, 32, 32, 32, 32, 32, 32, 32,
         32, 32, 32, 32, 32, 32, 32, 32,
         32, 32, 32, 32, 32, 32, 32, 32,
         32, 32, 32, 32, 32, 32, 32, 32,
         82, 32, 32, 32, 75, 32, 32, 82]
      whiteKing := ⟨true, true, 7, 4⟩
      blackKing := ⟨true, true, 0, 4⟩
      status := GameStatus.BLACK
      move := ⟨MoveType.NORMALMOVE, ⟨0, 0⟩, ⟨0, 0⟩, 0, false, 0⟩
      positions := List.replicate 100 (List.replicate 64 0)
      movesWithoutCaptures := 0
      moveCounter := 2 }

/-- After 1. Nf3 b6 2. g3 Bb7 3. Nh4: the rook on h1 is attacked by the bishop on b7. -/
def beforeBxh1 : Option GameState :=
  playMoves initialState [token "Nf3", token "b6", token "g3", token "Bb7", token "Nh4"]

/-- The state after 1. Nf3 b6 2. g3 Bb7 3. Nh4 Bxh1, White to move: Black's bishop has
captured the rook on h1. -/
def rookTaken : GameState :=
  { board :=
      [114, 110, 32, 113, 107, 98, 110, 114,
       112, 32, 112, 112, 112, 112, 112, 112,
       32, 112, 32, 32, 32, 32, 32, 32,
       32, 32, 32, 32, 32, 32, 32, 32,
       32, 32, 32, 32, 32, 32, 32, 78,
       32, 32, 32, 32, 32, 32, 80, 32,
       80, 80, 80, 80, 80, 80, 32, 80,
       82, 78, 66, 81, 75, 66, 32, 98]
    whiteKing := ⟨true, true, 7, 4⟩
    blackKing := ⟨true, true, 0, 4⟩
    status := GameStatus.WHITE
    move := ⟨MoveType.NORMALMOVE, ⟨1, 1⟩, ⟨7, 7⟩, 98, true, 0⟩
    positions := List.replicate 100 (List.replicate 64 0)
    movesWithoutCaptures := 1
    moveCounter := 7 }

/-- The state with White's short castling flag cleared and nothing else changed. -/
def withoutWhiteShort (s : GameState) : GameState :=
  { s with whiteKing := { s.whiteKing with canCastleShort := false } }

/-! ## Loading a position -/

/-- `isalpha` in the C locale. -/
def isalpha (c : Nat) : Bool := decide ((65 ≤ c ∧ c ≤ 90) ∨ (97 ≤ c ∧ c ≤ 122))

/-- The write `state->board[i][j] = v` of `parseFEN`, where `j` may be 8: the byte at
offset `8 * i + j`. A write past the 64 bytes of the board is outside the array; the
model drops it. -/
def boardPut (b : Board) (i j v : Nat) : Board :=
  if 8 * i + j < 64 then b.set (8 * i + j) v else b

/-- The string `validPieces` of `parseFEN`. -/
def validPieces : List Nat :=
  [114, 110, 98, 113, 107, 112, 82, 78, 66, 81, 75, 80, 49, 50, 51, 52, 53, 54, 55, 56, 47]

/-- The loop `for (k < fenStr[iter] - 48)` of `parseFEN` that writes `n` empty squares
from column `j` on: the board and the new `j`, or `none` for its `return false`. -/
def fillSpaces : Nat → Nat → Nat → Board → Board × Option Nat
  | 0, _, j, b => (b, some j)
  | n + 1, i, j, b =>
    if j + 1 > 8 then (boardPut b i j SPACE, none)
    else fillSpaces n i (j + 1) (boardPut b i j SPACE)

/-- The first loop of `parseFEN` (lines 375-400) from the bytes `fen` on: the state it
leaves and, unless it returns false, the bytes from the first one outside
`validPieces` on with the final `i` and `j`. The bytes after the list are NUL, which
`strchr` finds in `validPieces`: there the loop only counts `i` up to its
`return false`. -/
def placement : List Nat → Nat → Nat → Bool → Bool → GameState →
    GameState × Option (List Nat × Nat × Nat)
  | [], _, _, _, _, st => (st, none)
  | c :: cs, i, j, seenWhiteKing, seenBlackKing, st =>
    if strchr validPieces c = false then (st, some (c :: cs, i, j))
    else if i ≥ 8 ∨ j > 8 then (st, none)
    else if isalpha c = true then
      if c = 75 then
        if seenWhiteKing = true then (st, none)
        else placement cs i (j + 1) true seenBlackKing
          { st with
            whiteKing := { st.whiteKing with row := bits3 (i : Int), col := bits3 (j : Int) }
            board := boardPut st.board i j c }
      else if c = 107 then
        if seenBlackKing = true then (st, none)
        else placement cs i (j + 1) seenWhiteKing true
          { st with
            blackKing := { st.blackKing with row := bits3 (i : Int), col := bits3 (j : Int) }
            board := boardPut st.board i j c }
      else placement cs i (j + 1) seenWhiteKing seenBlackKing
        { st with board := boardPut st.board i j c }
    else if isdigit c = true then
      match fillSpaces (c - 48) i j st.board with
      | (b, none) => ({ st with board := b }, none)
      | (b, some j1) => placement cs i j1 seenWhiteKing seenBlackKing { st with board := b }
    else placement cs (i + 1) 0 seenWhiteKing seenBlackKing st

/-- The loop over the castling field (lines 417-443) with `n` rounds left. -/
def castlingField : Nat → List Nat → Bool → GameState → GameState × Option (List Nat)
  | 0, cs, _, st => (st, some cs)
  | n + 1, cs, seenBlack, st =>
    if cs.headD 0 = 75 then
      if seenBlack = true then (st, none)
      else castlingField n cs.tail seenBlack
        { st with whiteKing := { st.whiteKing with canCastleShort := true } }
    else if cs.headD 0 = 81 then
      if seenBlack = true then (st, none)
      else castlingField n cs.tail seenBlack
        { st with whiteKing := { st.whiteKing with canCastleLong := true } }
    else if cs.headD 0 = 107 then
      castlingField n cs.tail true
        { st with blackKing := { st.blackKing with canCastleShort := true } }
    else if cs.headD 0 = 113 then
      castlingField n cs.tail true
        { st with blackKing := { st.blackKing with canCastleLong := true } }
    else if cs.headD 0 = 32 then (st, some cs)
    else (st, none)

/-- The en-passant field (lines 446-456). -/
def enPassantField (cs : List Nat) (st : GameState) : GameState × Option (List Nat) :=
  if cs.headD 0 ≠ 45 then
    let col := cs.headD 0
    if col < 97 ∨ 104 < col then (st, none) else
    let st1 : GameState := { st with move := { st.move with
      origin := ⟨st.move.origin.row, (col : Int) - 97⟩
      destination := ⟨st.move.destination.row, (col : Int) - 97⟩ } }
    let row := cs.tail.headD 0
    if row ≠ 54 ∧ st.status = GameStatus.WHITE then (st1, none)
    else if row ≠ 51 ∧ st.status = GameStatus.BLACK then (st1, none)
    else
      ({ st1 with move := { st1.move with
          origin := ⟨(row : Int) - 50 + b2i (decide (st.status = GameStatus.BLACK)) * 2,
            st1.move.origin.col⟩
          destination := ⟨(row : Int) - 50 + b2i (decide (st.status = GameStatus.WHITE)) * 2,
            st1.move.destination.col⟩ } },
        some cs.tail.tail)
  else (st, some cs.tail)

/-- The loop over the half-move clock (lines 458-464) with `n` rounds left; running out
of rounds is the `return false` of line 464. -/
def clockField : Nat → List Nat → GameState → GameState × Option (List Nat)
  | 0, _, st => (st, none)
  | n + 1, cs, st =>
    if isdigit (cs.headD 0) = false then (st, none)
    else
      let st1 : GameState := { st with movesWithoutCaptures :=
        (st.movesWithoutCaptures * 10 % 65536 + (cs.headD 0 - 48)) % 65536 }
      if cs.tail.headD 0 = 32 then (st1, some cs.tail.tail)
      else clockField n cs.tail.tail st1

/-- The checkmate test of line 467. -/
def mateOnLoad (st : GameState) : GameState :=
  let own := if st.status = GameStatus.WHITE then st.whiteKing else st.blackKing
  let chk := isInCheck st.board (getRegPos own) (decide (st.status = GameStatus.WHITE))
    st.move []
  if chk.1 = true then
    let mate := isCheckmate st.board own chk.2 st.move
    { st with
      board := mate.2
      status := if mate.1 = true then
          (if st.status = GameStatus.BLACK then GameStatus.WHITE_WON else GameStatus.BLACK_WON)
        else st.status }
  else st

/-- The last loop of `parseFEN` (lines 468-475). -/
def moveNumberField : List Nat → GameState → Bool × GameState
  | [], st => (false, st)
  | c :: cs, st =>
    if isdigit c = false then (false, st)
    else if cs.headD 0 ≠ 10 then
      moveNumberField cs
        { st with moveCounter := (st.moveCounter * 10 % 65536 + (c - 48)) % 65536 }
    else
      (true, { st with moveCounter :=
        (st.moveCounter * 10 % 65536 + (c - 48)) % 65536 * 2 % 65536 })

/-- `parseFEN`: the result and the state it leaves. -/
def parseFEN (fenStr : List Nat) (state : GameState) : Bool × GameState :=
  match placement fenStr 0 0 false false state with
  | (st, none) => (false, st)
  | (st, some (cs, i, j)) =>
    if i ≠ 7 ∨ j ≠ 8 then (false, st)
    else if cs.headD 0 ≠ 32 then (false, st)
    else
      let cs1 := cs.tail
      if cs1.headD 0 ≠ 119 ∧ cs1.headD 0 ≠ 98 then (false, st) else
      let side := if cs1.headD 0 = 119 then GameStatus.WHITE else GameStatus.BLACK
      let st1 : GameState := { st with status := side }
      let cs2 := cs1.tail
      if cs2.headD 0 ≠ 32 then (false, st1) else
      let cs3 := cs2.tail
      match (if cs3.headD 0 ≠ 45 then castlingField 4 cs3 false st1
             else (st1, some cs3.tail)) with
      | (st2, none) => (false, st2)
      | (st2, some cs4) =>
        if cs4.headD 0 ≠ 32 then (false, st2) else
        match enPassantField cs4.tail st2 with
        | (st3, none) => (false, st3)
        | (st3, some cs5) =>
          if cs5.headD 0 ≠ 32 then (false, st3) else
          match clockField 3 cs5.tail st3 with
          | (st4, none) => (false, st4)
          | (st4, some cs6) => moveNumberField cs6 (mateOnLoad st4)

/-- The `loadedState` of `loadPosition` before the first line is parsed. -/
def loadedState : GameState :=
  { board := initializeBoard
    whiteKing := ⟨false, false, 0, 0⟩
    blackKing := ⟨false, false, 0, 0⟩
    status := GameStatus.WHITE
    move := ⟨MoveType.NORMALMOVE, ⟨0, 0⟩, ⟨0, 0⟩, 0, false, 0⟩
    positions := List.replicate 100 (List.replicate 64 0)
    movesWithoutCaptures := 0
    moveCounter := 0 }

/-- The state with which `main` asks for the first move when the first line typed at
the prompt of `loadPosition` is `fenStr`: `none` when `parseFEN` rejects it. -/
def loadGame (fenStr : List Nat) : Option GameState :=
  if (parseFEN fenStr loadedState).1 = true then
    some (convertBoardPosition (parseFEN fenStr loadedState).2)
  else none

/-! ## Exporting a position -/

/-- The characters `printf` writes for `%d` with a value that is not negative. -/
def decimal (n : Nat) : List Nat := (Nat.toDigits 10 n).map Char.toNat

/-- The characters `printf` writes for `%d`. -/
def printInt (x : Int) : List Nat :=
  if x < 0 then 45 :: decimal x.natAbs else decimal x.natAbs

/-- The characters `exportPosition` writes for row `i` of the board (lines 505-524). -/
def exportRow (board : Board) (i : Nat) : List Nat :=
  let r := (List.range 8).foldl (fun (acc : List Nat × Nat) (j : Nat) =>
      if boardGet board (i : Int) (j : Int) = SPACE then (acc.1, acc.2 + 1)
      else (acc.1 ++ (if acc.2 > 0 then decimal acc.2 else [])
        ++ [boardGet board (i : Int) (j : Int)], 0)) ([], 0)
  r.1 ++ (if r.2 > 0 then decimal r.2 else []) ++ [if i < 7 then 47 else 32]

/-- The castling field `exportPosition` writes (lines 527-531). -/
def exportCastling (state : GameState) : List Nat :=
  (if state.whiteKing.canCastleShort = true then [75] else [])
    ++ (if state.whiteKing.canCastleShort = true then [81] else [])
    ++ (if state.blackKing.canCastleShort = true then [107] else [])
    ++ (if state.blackKing.canCastleShort = true then [113] else [])
    ++ (if state.whiteKing.canCastleShort = true ∨ state.blackKing.canCastleShort = true
        then [] else [45])

/-- The en-passant field `exportPosition` writes, with the blanks around it
(lines 532-534). -/
def exportEnPassant (state : GameState) : List Nat :=
  if state.move.type = MoveType.DOUBLEPAWNMOVE then
    [32, ((state.move.destination.col + 97) % 256).toNat,
      ((56 - (state.move.destination.row - 1
        + b2i (decide (state.move.origin.row = 6)) * 2)) % 256).toNat, 32]
  else [32, 45, 32]

/-- The FEN line `exportPosition` writes, from the first rank to the newline
(lines 505-535). -/
def exportLine (state : GameState) : List Nat :=
  ((List.range 8).map (exportRow state.board)).flatten
    ++ [if state.status = GameStatus.WHITE then 119 else 98, 32]
    ++ exportCastling state ++ exportEnPassant state
    ++ printInt ((state.movesWithoutCaptures : Int) - 1) ++ [32]
    ++ decimal (state.moveCounter / 2) ++ [10]

/-- `exportPosition`: the characters written to the standard output. -/
def exportPosition (state : GameState) : List Nat :=
  [10] ++ exportLine state ++ [10] ++ decimal (state.moveCounter / 2) ++ [46, 32]
    ++ (if state.status = GameStatus.WHITE then [87, 104, 105, 116, 101]
        else [66, 108, 97, 99, 107])
    ++ [32, 116, 111, 32, 109, 111, 118, 101, 58, 32]

/-- The state `getMove` is called with: `main` has counted the move (line 269). -/
def atPrompt (state : GameState) : GameState :=
  { state with moveCounter := (state.moveCounter + 1) % 65536 }

/-! ## Positions and notions for the resolver of piece moves -/

/-- The state `main` reaches after loading `4r2k/8/8/3q4/8/2N1N3/8/4K3 w - - 0 1`: White
to move, knights on c3 and e3, the one on e3 pinned to the king on e1 by the rook on
e8, Black's queen on d5. -/
def pinnedKnight : GameState :=
  convertBoardPosition
    { board :=
        [32, 32, 32, 32, 114, 32, 32, 107,
         32, 32, 32, 32, 32, 32, 32, 32,
         32, 32, 32, 32, 32, 32, 32, 32,
         32, 32, 32, 113, 32, 32, 32, 32,
         32, 32, 32, 32, 32, 32, 32, 32,
         32, 32, 78, 32, 78, 32, 32, 32,
         32, 32, 32, 32, 32, 32, 32, 32,
         32, 32, 32, 32, 75, 32, 32, 32]
      whiteKing := ⟨false, false, 7, 4⟩
      blackKing := ⟨false, false, 0, 7⟩
      status := GameStatus.WHITE
      move := ⟨MoveType.NORMALMOVE, ⟨0, 0⟩, ⟨0, 0⟩, 0, false, 0⟩
      positions := List.replicate 100 (List.replicate 64 0)
      movesWithoutCaptures := 0
      moveCounter := 2 }

/-- The state `main` reaches after loading `4k3/8/8/8/8/1N3N2/8/1N2K3 w - - 0 1`: White
to move with knights on b3, f3 and b1, each of which can go to d2. -/
def threeKnights : GameState :=
  convertBoardPosition
    { board :=
        [32, 32, 32, 32, 107, 32, 32, 32,
         32, 32, 32, 32, 32, 32, 32, 32,
         32, 32, 32, 32, 32, 32, 32, 32,
         32, 32, 32, 32, 32, 32, 32, 32,
         32, 32, 32, 32, 32, 32, 32, 32,
         32, 78, 32, 32, 32, 78, 32, 32,
         32, 32, 32, 32, 32, 32, 32, 32,
         32, 78, 32, 32, 75, 32, 32, 32]
      whiteKing := ⟨false, false, 7, 4⟩
      blackKing := ⟨false, false, 0, 4⟩
      status := GameStatus.WHITE
      move := ⟨MoveType.NORMALMOVE, ⟨0, 0⟩, ⟨0, 0⟩, 0, false, 0⟩
      positions := List.replicate 100 (List.replicate 64 0)
      movesWithoutCaptures := 0
      moveCounter := 2 }

/-- The piece a token names, in the colour of the side to move (lines 982-983). -/
def pieceOf (state : GameState) (move : List Nat) : Nat :=
  tokAt move 0 + (if decide (state.status = GameStatus.WHITE) = false then 32 else 0)

/-- The king record `validateMove` probes with: that of the side to move. -/
def ownKing (state : GameState) : KingPosition :=
  if state.status = GameStatus.WHITE then state.whiteKing else state.blackKing

/-- Whether a token writes a capture: an `x` among its first ten bytes. -/
def writesCapture (move : List Nat) : Bool :=
  (List.range 10).any (fun i => decide (tokAt move i = 120))

/-- The squares from which a piece of the token's kind and the mover's colour reaches
`dest` (by a knight jump, a king step, or a clear line). -/
def reaching (state : GameState) (move : List Nat) (dest : Position) : List Position :=
  findList (tokAt move 0) state.board dest (pieceOf state move)

/-- The move of the token's piece from `origin` to `dest`, as `validateMove` probes it. -/
def candidateMove (state : GameState) (move : List Nat) (dest origin : Position) : Move :=
  ⟨MoveType.NORMALMOVE, origin, dest, pieceOf state move, writesCapture move, SPACE⟩

/-- The squares of `reaching` whose move to `dest` passes `isPossibleMove`. -/
def legalOrigins (state : GameState) (move : List Nat) (dest : Position) : List Position :=
  (reaching state move dest).filter (fun c =>
    (isPossibleMove state.board (candidateMove state move dest c) (ownKing state)).1)

/-- Whether two states agree in every field but the history of positions. -/
def sameButHistory (s t : GameState) : Bool :=
  decide (s.board = t.board ∧ s.whiteKing = t.whiteKing ∧ s.blackKing = t.blackKing
    ∧ s.status = t.status ∧ s.move = t.move
    ∧ s.movesWithoutCaptures = t.movesWithoutCaptures ∧ s.moveCounter = t.moveCounter)

/-! ## Notions for the scans of the pawn rows and for castling -/

/-- The squares `board[row][pos.col + j]` the pawn scan of `isInCheck` reads in the round
`i` of its outer loop (lines 815-819). -/
def pawnScanReads (pos : Position) (isWhite : Bool) (i : Int) : List Position :=
  (([-1, 1] : List Int).filter (fun j => !(decide (pos.col + j < 0 ∨ pos.col + j ≥ 8)))).map
    (fun j => (⟨pos.row - i * (2 * b2i isWhite - 1), pos.col + j⟩ : Position))

/-- The squares `board[row][target.col]` the first loop of `canMoveTo` reads when no
round returns early (lines 648-653). -/
def advanceReads (target : Position) (isWhite : Bool) : List Position :=
  (if target.row ≠ 3 + b2i isWhite then [1] else [1, 2]).map
    (fun (i : Int) => (⟨target.row + i * (2 * b2i isWhite - 1), target.col⟩ : Position))

/-- The number of rooks of either colour on the board. -/
def countRooks (board : Board) : Nat := (board.filter (fun c => decide (toupper c = ROOK))).length

/-! ## Legal steps, for the statement about `isStalemate` -/

/-- The letters that stand for pieces on the board. -/
def pieceLetters : List Nat := [80, 82, 78, 66, 81, 75, 112, 114, 110, 98, 113, 107]

/-- Every square of the board holds a piece letter or a blank. -/
def wellFormed (board : Board) : Prop :=
  ∀ p ∈ allSquares, boardAt board p = SPACE ∨ boardAt board p ∈ pieceLetters

/-- The row step of a pawn: towards row 0 for White, towards row 7 for Black. -/
def forward (isWhite : Bool) : Int := if isWhite then -1 else 1

/-- The row on which the pawns of a colour start. -/
def startRow (isWhite : Bool) : Int := if isWhite then 6 else 1

/-- The square `d` is empty or holds a piece of the other colour. -/
def freeOrFoe (board : Board) (isWhite : Bool) (d : Position) : Prop :=
  boardAt board d = SPACE ∨ hasSameColor (boardAt board d) (!isWhite) = true

/-- The piece on `p` may go to `d` by the rule of movement of its kind, other than by a
pawn's double step, by castling or by capturing en passant: a rook along a row or a
column, a bishop along a diagonal, a queen along either, over empty squares, a knight
by a jump, a king to an adjacent square, each onto an empty square or an enemy piece; a
pawn one row forward in its column onto an empty square, or one row forward and one
column aside onto an enemy piece. -/
def plainStep (board : Board) (isWhite : Bool) (p d : Position) : Prop :=
  (toupper (boardAt board p) = ROOK ∧ (p.row = d.row ∨ p.col = d.col)
      ∧ clearBetween board p d ∧ freeOrFoe board isWhite d)
  ∨ (toupper (boardAt board p) = BISHOP ∧ (p.row - d.row).natAbs = (p.col - d.col).natAbs
      ∧ clearBetween board p d ∧ freeOrFoe board isWhite d)
  ∨ (toupper (boardAt board p) = QUEEN
      ∧ (p.row = d.row ∨ p.col = d.col ∨ (p.row - d.row).natAbs = (p.col - d.col).natAbs)
      ∧ clearBetween board p d ∧ freeOrFoe board isWhite d)
  ∨ (toupper (boardAt board p) = KNIGHT ∧ knightJump p d ∧ freeOrFoe board isWhite d)
  ∨ (toupper (boardAt board p) = KING ∧ adjacent p d ∧ freeOrFoe board isWhite d)
  ∨ (toupper (boardAt board p) = PAWN ∧ d.row = p.row + forward isWhite ∧ d.col = p.col
      ∧ boardAt board d = SPACE)
  ∨ (toupper (boardAt board p) = PAWN ∧ d.row = p.row + forward isWhite
      ∧ (d.col - p.col).natAbs = 1 ∧ hasSameColor (boardAt board d) (!isWhite) = true)

/-- The pawn on `p` may go two rows forward in its column to `d`: the square it passes
and `d` are empty. -/
def doubleStep (board : Board) (isWhite : Bool) (p d : Position) : Prop :=
  toupper (boardAt board p) = PAWN ∧ d.row = p.row + 2 * forward isWhite ∧ d.col = p.col
    ∧ boardAt board ⟨p.row + forward isWhite, p.col⟩ = SPACE ∧ boardAt board d = SPACE

/-- The board after the piece on `p` has gone to `d`. -/
def afterStep (board : Board) (p d : Position) : Board :=
  setAt (setAt board p SPACE) d (boardAt board p)

/-- The square of the king of the side that moves after the step from `p` to `d`: `d`
when the piece on `p` is a king, otherwise the square of the king record. -/
def kingAfter (board : Board) (kingPos : KingPosition) (p d : Position) : Position :=
  if toupper (boardAt board p) = KING then d else getRegPos kingPos

/-- No piece of the other colour attacks the square `pos`. -/
def unattacked (board : Board) (isWhite : Bool) (pos : Position) : Prop :=
  ∀ sq, ¬ attacks board isWhite pos sq

/-- The pawn on `p` may capture en passant onto `d`: the last move was a double pawn
push of an enemy pawn that ended beside `p`, `d` is the square that pawn passed, and with
the pushed pawn removed and the capturing pawn on `d` the king is not attacked. -/
def enPassantStep (board : Board) (isWhite : Bool) (kingPos : KingPosition)
    (previousMove : Move) (p d : Position) : Prop :=
  toupper (boardAt board p) = PAWN
    ∧ previousMove.type = MoveType.DOUBLEPAWNMOVE
    ∧ boardAt board previousMove.destination = enemy PAWN isWhite
    ∧ previousMove.destination.row = p.row
    ∧ (previousMove.destination.col - p.col).natAbs = 1
    ∧ d.row = p.row + forward isWhite ∧ d.col = previousMove.destination.col
    ∧ unattacked (setAt (afterStep board p d) previousMove.destination SPACE) isWhite
        (getRegPos kingPos)

/-- The row on which the king and the rooks of a colour start. -/
def homeRow (isWhite : Bool) : Int := if isWhite then 7 else 0

/-- The king on `p` may castle to `d`: the king record still grants castling on that
side, the king stands on its starting square `p`, the rook of its colour on its own, the
squares between them are empty, and the king is attacked neither where it stands, nor on
the square it passes, nor on `d`. -/
def castleStep (board : Board) (isWhite : Bool) (kingPos : KingPosition)
    (p d : Position) : Prop :=
  p = getRegPos kingPos ∧ p = ⟨homeRow isWhite, 4⟩
    ∧ ((d = ⟨homeRow isWhite, 6⟩ ∧ kingPos.canCastleShort = true
        ∧ boardAt board ⟨homeRow isWhite, 7⟩ = (if isWhite then 82 else 114)
        ∧ clearBetween board p ⟨homeRow isWhite, 7⟩
        ∧ unattacked board isWhite p
        ∧ unattacked board isWhite ⟨homeRow isWhite, 5⟩
        ∧ unattacked board isWhite d)
      ∨ (d = ⟨homeRow isWhite, 2⟩ ∧ kingPos.canCastleLong = true
        ∧ boardAt board ⟨homeRow isWhite, 0⟩ = (if isWhite then 82 else 114)
        ∧ clearBetween board p ⟨homeRow isWhite, 0⟩
        ∧ unattacked board isWhite p
        ∧ unattacked board isWhite ⟨homeRow isWhite, 3⟩
        ∧ unattacked board isWhite d))

/-- The piece on `p` has the legal move to `d`, by the rules of chess: `p` holds a piece
of the colour of the king on the king record's square, `d` is on the board, and the piece
may go there by a plain step, or by a pawn's double step from its starting row, and
leaves its king unattacked; or it is a pawn that may capture en passant onto `d`; or it
is the king and may castle to `d`. A step onto the enemy king, which no position of a
game offers, counts as a capture like any other. -/
def legalStep (board : Board) (kingPos : KingPosition) (previousMove : Move)
    (p d : Position) : Prop :=
  inBoard p.row p.col = true ∧ inBoard d.row d.col = true
    ∧ hasSameColor (boardAt board p)
        (hasSameColor (boardAt board (getRegPos kingPos)) true) = true
    ∧ (((plainStep board (hasSameColor (boardAt board (getRegPos kingPos)) true) p d
          ∨ (doubleStep board (hasSameColor (boardAt board (getRegPos kingPos)) true) p d
            ∧ p.row = startRow (hasSameColor (boardAt board (getRegPos kingPos)) true)))
        ∧ unattacked (afterStep board p d)
            (hasSameColor (boardAt board (getRegPos kingPos)) true)
            (kingAfter board kingPos p d))
      ∨ enPassantStep board (hasSameColor (boardAt board (getRegPos kingPos)) true) kingPos
          previousMove p d
      ∨ castleStep board (hasSameColor (boardAt board (getRegPos kingPos)) true) kingPos
          p d)

/-- The board after `7k/3p4/4p3/4P3/8/8/2q5/K7 b` and the reply d5: White's king on a1
has no move, the pawn on e5 is blocked, and the black pawn has just passed d6. -/
def enPassantOnlyBoard : Board :=
  [32, 32, 32, 32, 32, 32, 32, 107,
   32, 32, 32, 32, 32, 32, 32, 32,
   32, 32, 32, 32, 112, 32, 32, 32,
   32, 32, 32, 112, 80, 32, 32, 32,
   32, 32, 32, 32, 32, 32, 32, 32,
   32, 32, 32, 32, 32, 32, 32, 32,
   32, 32, 113, 32, 32, 32, 32, 32,
   75, 32, 32, 32, 32, 32, 32, 32]

/-! # Lemmas -/

/-! ## Frame lemmas for the board -/

theorem boardIdx_inj {r c r1 c1 : Int} (h : inBoard r c = true) (h1 : inBoard r1 c1 = true)
    (hne : ¬ (r = r1 ∧ c = c1)) : boardIdx r c ≠ boardIdx r1 c1 := by
  simp only [inBoard, decide_eq_true_eq] at h h1
  unfold boardIdx
  omega

theorem list_set_getD_self (l : List Nat) (i d : Nat) : l.set i (l.getD i d) = l := by
  apply List.ext_getElem?
  intro n
  rw [List.getElem?_set]
  by_cases hin : i = n
  · subst hin
    by_cases hl : i < l.length
    · simp [hl, List.getD_eq_getElem?_getD, List.getElem?_eq_getElem hl]
    · simp [hl, List.getElem?_eq_none (Nat.le_of_not_lt hl)]
  · simp [hin]

theorem setAt_setAt_same (b : Board) (p : Position) (v w : Nat) :
    setAt (setAt b p v) p w = setAt b p w := by
  unfold setAt boardSet
  by_cases h : inBoard p.row p.col = true
  · simp [h, List.set_set]
  · simp [h]

theorem setAt_comm (b : Board) (p q : Position) (v w : Nat)
    (hne : ¬ (p.row = q.row ∧ p.col = q.col)) :
    setAt (setAt b p v) q w = setAt (setAt b q w) p v := by
  unfold setAt boardSet
  by_cases h : inBoard p.row p.col = true
  · by_cases h1 : inBoard q.row q.col = true
    · simp only [h, h1, if_true]
      exact List.set_comm v w b (boardIdx_inj h h1 hne)
    · simp [h, h1]
  · simp [h]

theorem setAt_self (b : Board) (p : Position) (v : Nat) (h : boardAt b p = v) :
    setAt b p v = b := by
  unfold boardAt boardGet at h
  unfold setAt boardSet
  by_cases hin : inBoard p.row p.col = true
  · simp only [hin, if_true] at h ⊢
    rw [← h]
    exact list_set_getD_self b _ _
  · simp [hin]

theorem boardAt_setAt_other (b : Board) (p q : Position) (v : Nat)
    (hne : ¬ (p.row = q.row ∧ p.col = q.col)) :
    boardAt (setAt b p v) q = boardAt b q := by
  unfold boardAt boardGet setAt boardSet
  by_cases h : inBoard p.row p.col = true
  · by_cases h1 : inBoard q.row q.col = true
    · simp only [h, h1, if_true]
      rw [List.getD_eq_getElem?_getD, List.getD_eq_getElem?_getD, List.getElem?_set]
      simp [boardIdx_inj h h1 hne]
    · simp [h1]
  · simp [h]


theorem undo_two (b : Board) (o d : Position) (x pm : Nat)
    (hne : ¬ (d.row = o.row ∧ d.col = o.col)) (ho : boardAt b o = pm) :
    setAt (setAt (setAt (setAt b o SPACE) d x) o pm) d (boardAt b d) = b := by
  have hne1 : ¬ (o.row = d.row ∧ o.col = d.col) := fun h => hne ⟨h.1.symm, h.2.symm⟩
  rw [setAt_comm _ d o x pm hne, setAt_setAt_same, setAt_setAt_same, setAt_self b o pm ho,
    setAt_self b d _ rfl]

theorem undo_three (b : Board) (o d e : Position) (x pm ep : Nat)
    (hne : ¬ (d.row = o.row ∧ d.col = o.col)) (hed : ¬ (e.row = d.row ∧ e.col = d.col))
    (heo : ¬ (e.row = o.row ∧ e.col = o.col))
    (ho : boardAt b o = pm) (he : boardAt b e = ep) :
    setAt (setAt (setAt (setAt (setAt (setAt b o SPACE) d x) e SPACE) o pm) d (boardAt b d)) e ep
      = b := by
  rw [setAt_comm _ e o SPACE pm heo, setAt_comm _ e d SPACE _ hed, setAt_setAt_same,
    undo_two b o d x pm hne ho, setAt_self b e ep he]

theorem restore_makeMove (b : Board) (m : Move)
    (hne : ¬ (m.destination.row = m.origin.row ∧ m.destination.col = m.origin.col))
    (ho : boardAt b m.origin = m.pieceMoved)
    (hc : m.type ≠ MoveType.CASTLELONG ∧ m.type ≠ MoveType.CASTLESHORT)
    (hep : m.type = MoveType.ENPEASANT → enPassantReady b m) :
    restore (makeMove b m) (restoreList b m (hasSameColor m.pieceMoved true)) = b := by
  obtain ⟨hc1, hc2⟩ := hc
  cases hty : m.type
  case ENPEASANT =>
    rcases hep hty with ⟨hp, hb⟩ | ⟨hp, hb⟩
    · have hw : hasSameColor m.pieceMoved true = true := by rw [hp]; decide
      have e1 : m.destination.row - 1 + b2i (decide (m.pieceMoved = 80)) * 2
          = m.destination.row + 1 := by simp [hp, b2i]; ring
      have e2 : m.destination.row - 1 + b2i true * 2 = m.destination.row + 1 := by
        simp [b2i]; ring
      simp only [restore, restoreList, makeMove, hty, hw, e1, e2, List.foldl, b2n,
        List.cons_append, List.nil_append, if_true, if_false, reduceCtorEq, or_self]
      have := undo_three b m.origin m.destination ⟨m.destination.row + 1, m.destination.col⟩
        m.pieceMoved m.pieceMoved 112 hne (by simp) (by
          intro h
          have : boardAt b ⟨m.destination.row + 1, m.destination.col⟩ = boardAt b m.origin := by
            unfold boardAt; rw [h.1, h.2]
          rw [hb, ho, hp] at this
          exact absurd this (by decide)) ho hb
      simpa [setAt] using this
    · have hw : hasSameColor m.pieceMoved true = false := by rw [hp]; decide
      have e1 : m.destination.row - 1 + b2i (decide (m.pieceMoved = 80)) * 2
          = m.destination.row - 1 := by simp [hp, b2i]
      have e2 : m.destination.row - 1 + b2i false * 2 = m.destination.row - 1 := by
        simp [b2i]
      simp only [restore, restoreList, makeMove, hty, hw, e1, e2, List.foldl, b2n,
        List.cons_append, List.nil_append, if_true, if_false, reduceCtorEq, or_self]
      have := undo_three b m.origin m.destination ⟨m.destination.row - 1, m.destination.col⟩
        m.pieceMoved m.pieceMoved 80 hne (by simp) (by
          intro h
          have : boardAt b ⟨m.destination.row - 1, m.destination.col⟩ = boardAt b m.origin := by
            unfold boardAt; rw [h.1, h.2]
          rw [hb, ho, hp] at this
          exact absurd this (by decide)) ho hb
      simpa [setAt] using this
  case CASTLELONG => exact absurd hty hc1
  case CASTLESHORT => exact absurd hty hc2
  all_goals
    simp only [restore, restoreList, makeMove, hty, List.foldl, List.append_nil, if_true,
      if_false, reduceCtorEq, or_self]
    exact undo_two b m.origin m.destination _ m.pieceMoved hne ho

theorem isPossibleMove_board (b : Board) (m : Move) (k : KingPosition)
    (ho : boardAt b m.origin = m.pieceMoved)
    (hc : m.type ≠ MoveType.CASTLELONG ∧ m.type ≠ MoveType.CASTLESHORT)
    (hep : m.type = MoveType.ENPEASANT → enPassantReady b m) :
    (isPossibleMove b m k).2 = b := by
  unfold isPossibleMove
  dsimp only
  split_ifs with h1
  all_goals first
    | rfl
    | exact restore_makeMove b m h1 ho hc hep


/-! ## The searches leave the board as it was -/

theorem scan_fixed {α σ : Type} (body : α → σ → Bool × σ) (xs : List α) (s : σ)
    (h : ∀ x ∈ xs, (body x s).2 = s) :
    (scan body xs s).2 = s ∧ ((scan body xs s).1 = true ↔ ∃ x ∈ xs, (body x s).1 = true) := by
  induction xs with
  | nil => simp [scan]
  | cons x xs ih =>
    have hx := h x (List.mem_cons_self x xs)
    have ih1 := ih (fun y hy => h y (List.mem_cons_of_mem x hy))
    cases hb : body x s with
    | mk r s1 =>
      rw [hb] at hx
      simp only at hx
      subst hx
      cases r
      · simp only [scan, hb, List.mem_cons, exists_eq_or_imp]
        simpa using ih1
      · simp [scan, hb]

theorem moveKind_not_special (c : Prop) [Decidable c] :
    ((if c then MoveType.DOUBLEPAWNMOVE else MoveType.NORMALMOVE) ≠ MoveType.CASTLELONG
      ∧ (if c then MoveType.DOUBLEPAWNMOVE else MoveType.NORMALMOVE) ≠ MoveType.CASTLESHORT)
    ∧ (if c then MoveType.DOUBLEPAWNMOVE else MoveType.NORMALMOVE) ≠ MoveType.ENPEASANT := by
  split_ifs <;> simp

theorem searchWith_legal_state (pt : Nat) (pos dest : Position) (piece : Nat) (b : Board)
    (cands : List Position) (k : KingPosition) (hp : boardAt b pos = piece) :
    (searchWith isPossibleMove pt SearchType.ISLEGALMOVE pos dest piece (b, cands) k).2
      = (b, cands) := by
  have hb := isPossibleMove_board b
    ⟨if pt = PAWN ∧ (pos.row - dest.row).natAbs = 2 then MoveType.DOUBLEPAWNMOVE
      else MoveType.NORMALMOVE, pos, dest, piece,
      hasSameColor (boardAt b dest) (!hasSameColor piece true)
        || decide (pt = PAWN ∧ (pos.col - dest.col).natAbs = 1), SPACE⟩ k hp
    (moveKind_not_special _).1 (fun h => absurd h (moveKind_not_special _).2)
  unfold searchWith
  dsimp only
  by_cases h1 : comparePositions pos dest = true
  · simp [h1]
  · rw [if_neg h1]
    simp only [hb]
    split_ifs <;> rfl

theorem searchBoard_legal_state (pt : Nat) (pos : Position) (piece : Nat) (b : Board)
    (cands : List Position) (k : KingPosition) (hp : boardAt b pos = piece) :
    (searchBoard pt SearchType.ISLEGALMOVE pos piece (b, cands) k).2 = (b, cands) := by
  have key : ∀ (pt1 : Nat) (dests : List Position),
      (scan (fun d s1 => searchWith isPossibleMove pt1 SearchType.ISLEGALMOVE pos d piece s1 k)
        dests (b, cands)).2 = (b, cands) := fun pt1 dests =>
    (scan_fixed _ dests (b, cands)
      (fun d _ => searchWith_legal_state pt1 pos d piece b cands k hp)).1
  unfold searchBoard searchBoardWith
  dsimp only
  split_ifs
  · exact key _ _
  · exact key _ _
  · exact key _ _
  · split
    · rename_i s1 hs
      have := key ROOK (rookDests pos)
      rw [hs] at this
      exact this
    · rename_i s1 hs
      have := key ROOK (rookDests pos)
      rw [hs] at this
      simp only at this
      rw [this]
      exact key _ _
  · exact key _ _
  · exact key _ _
  · rfl

theorem isStalemate_spec (board : Board) (kingPos : KingPosition) :
    (isStalemate board kingPos).2 = board
    ∧ ((isStalemate board kingPos).1 = true ↔
        ∀ p ∈ allSquares,
          hasSameColor (boardAt board p)
            (hasSameColor (boardAt board (getRegPos kingPos)) true) = true →
          hasLegalMove board kingPos p = false) := by
  unfold isStalemate
  dsimp only
  have h := scan_fixed (fun (p : Position) (b : Board) =>
      ((searchBoard (toupper (boardAt b p)) SearchType.ISLEGALMOVE p (boardAt b p) (b, [])
          kingPos).1,
       (searchBoard (toupper (boardAt b p)) SearchType.ISLEGALMOVE p (boardAt b p) (b, [])
          kingPos).2.1))
    (allSquares.filter (fun p => hasSameColor (boardAt board p)
      (hasSameColor (boardAt board (getRegPos kingPos)) true))) board
    (fun p _ => by
      simp only
      rw [searchBoard_legal_state _ p _ board [] kingPos rfl])
  obtain ⟨h1, h2⟩ := h
  split
  · rename_i b1 hs
    rw [hs] at h1 h2
    simp only at h1
    refine ⟨h1, ?_⟩
    simp only [true_iff, Bool.false_eq_true, false_iff] at h2 ⊢
    obtain ⟨p, hp, hl⟩ := h2
    rw [List.mem_filter] at hp
    intro hall
    have := hall p hp.1 hp.2
    unfold hasLegalMove at this
    rw [this] at hl
    exact absurd hl (by simp)
  · rename_i b1 hs
    rw [hs] at h1 h2
    simp only at h1
    refine ⟨h1, ?_⟩
    simp only [true_iff]
    intro p hp hc
    by_contra hne
    have hl : hasLegalMove board kingPos p = true := by simpa using hne
    exact absurd (h2.2 ⟨p, List.mem_filter.2 ⟨hp, hc⟩, hl⟩) (by simp)

/-! ## The pawn capture branch of the resolver -/

theorem captureScan_x1 (move : List Nat) (dest : Position)
    (h0 : tokAt move 0 ≠ 120) (h1 : tokAt move 1 = 120) :
    captureScan move dest =
      if (tokAt move 2 : Int) - 97 ≠ dest.col then none
      else if 56 - (tokAt move 3 : Int) ≠ dest.row then none
      else some (true, 1) := by
  unfold captureScan
  have : (List.range 10).find? (fun i => decide (tokAt move i = 120)) = some 1 := by
    simp [List.range, List.range.loop, List.find?, h0, h1]
  rw [this]
  simp

theorem hasClearSight_collinear (b : Board) (p q : Position)
    (h : hasClearSight b p q = true) :
    (p.row - q.row).natAbs = (p.col - q.col).natAbs ∨ p.row = q.row ∨ p.col = q.col := by
  by_contra hne
  push_neg at hne
  obtain ⟨h1, h2, h3⟩ := hne
  simp [hasClearSight, getLineOfSight, h1, h2, h3] at h

theorem isPossibleMove_true_sight (b : Board) (m : Move) (k : KingPosition)
    (h : (isPossibleMove b m k).1 = true) :
    ¬ (toupper m.pieceMoved = PAWN ∧ m.captures = true ∧ m.origin.col = m.destination.col)
    ∧ (tolower m.pieceMoved ≠ 110 → hasClearSight b m.origin m.destination = true) := by
  unfold isPossibleMove at h
  dsimp only at h
  split_ifs at h with h1 h2 h3 h4 h5 h6
  all_goals first
    | (refine ⟨h5, fun hn => ?_⟩
       by_contra hc
       have hf : hasClearSight b m.origin m.destination = false := by simpa using hc
       exact h6 ⟨hn, hf⟩)

theorem resolvePawn_capture_empty (move : List Nat) (board : Board) (lastMove : Move)
    (isWhite : Bool) (dest : Position) (hrow : isRow (tokAt move 1 : Nat) = false)
    (hrank : dest.row ≠ 0 ∧ dest.row ≠ 7) :
    resolvePawn move board lastMove isWhite dest SPACE true 1 = Resolved.reject
    ∨ (resolvePawn move board lastMove isWhite dest SPACE true 1
          = Resolved.candidate ⟨MoveType.ENPEASANT,
              ⟨dest.row - 1 + b2i isWhite * 2, (tokAt move 0 : Int) - 97⟩, dest,
              112 - b2n isWhite * 32, true, UNINIT⟩
        ∧ lastMove.type = MoveType.DOUBLEPAWNMOVE
        ∧ lastMove.destination = ⟨dest.row - 1 + b2i isWhite * 2, dest.col⟩
        ∧ boardGet board (dest.row - 1 + b2i isWhite * 2) ((tokAt move 0 : Int) - 97)
            = 112 - b2n isWhite * 32) := by
  obtain ⟨hr0, hr7⟩ := hrank
  unfold resolvePawn
  simp only [hrow, Bool.false_eq_true, if_false, if_true]
  by_cases hog : dest.row - 1 + b2i isWhite * 2 < 1 ∨ dest.row - 1 + b2i isWhite * 2 > 6
  · simp [hog]
  rw [if_neg hog]
  by_cases hb : boardGet board (dest.row - 1 + b2i isWhite * 2) ((tokAt move 0 : Int) - 97)
      ≠ 112 - b2n isWhite * 32
  · simp [hb]
  rw [if_neg hb]
  by_cases hl : lastMove.destination.row ≠ dest.row - 1 + b2i isWhite * 2
      ∨ lastMove.destination.col ≠ dest.col ∨ lastMove.type ≠ MoveType.DOUBLEPAWNMOVE
  · simp [hl]
  rw [if_neg hl]
  simp only [ne_eq, not_or, not_not] at hl hb
  obtain ⟨hl1, hl2, hl3⟩ := hl
  have hb2 : b2n true = 1 := rfl
  simp only [hb2]
  by_cases h61 : tokAt move (1 + 1 * 3) = 61
  · left
    have : dest.row ≠ 7 - b2i isWhite * 7 := by
      cases isWhite <;> simp [b2i] <;> assumption
    simp [h61, this]
  · right
    have hnot : ¬ ((dest.row = 0 ∨ dest.row = 7) ∧ MoveType.ENPEASANT ≠ MoveType.PROMOTION) := by
      intro h
      rcases h.1 with h0 | h7
      · exact hr0 h0
      · exact hr7 h7
    refine ⟨?_, hl3, ?_, hb⟩
    · simp [h61, hr0, hr7]
    · cases hd : lastMove.destination
      rw [hd] at hl1 hl2
      simp only at hl1 hl2
      simp [hl1, hl2]

theorem commitMove_probe (state : GameState) (k : KingPosition) (mv : Move) (sr sc : Bool) :
    (commitMove state k mv false sr sc).ok = (isPossibleMove state.board mv k).1
    ∧ ((commitMove state k mv false sr sc).ok = true →
        (commitMove state k mv false sr sc).state.move = mv) := by
  unfold commitMove
  cases h : (isPossibleMove state.board mv k).1 <;> simp [h]

theorem validateMove_capture_empty (state : GameState) (move : List Nat) (sr sc : Bool)
    (hfile : 97 ≤ tokAt move 0 ∧ tokAt move 0 ≤ 104)
    (hx : tokAt move 1 = 120)
    (hempty : boardAt state.board (captureDest move) = SPACE)
    (hrank : (captureDest move).row ≠ 0 ∧ (captureDest move).row ≠ 7)
    (hok : (validateMove move state sr sc).ok = true) :
    state.move.type = MoveType.DOUBLEPAWNMOVE
    ∧ state.move.destination
        = ⟨(captureDest move).row - 1 + b2i (decide (state.status = GameStatus.WHITE)) * 2,
            (captureDest move).col⟩
    ∧ ((tokAt move 0 : Int) - 97 - (captureDest move).col).natAbs = 1
    ∧ boardAt state.board
        ⟨(captureDest move).row - 1 + b2i (decide (state.status = GameStatus.WHITE)) * 2,
          (tokAt move 0 : Int) - 97⟩
        = 112 - b2n (decide (state.status = GameStatus.WHITE)) * 32
    ∧ (validateMove move state sr sc).state.move
        = ⟨MoveType.ENPEASANT,
            ⟨(captureDest move).row - 1 + b2i (decide (state.status = GameStatus.WHITE)) * 2,
              (tokAt move 0 : Int) - 97⟩,
            captureDest move, 112 - b2n (decide (state.status = GameStatus.WHITE)) * 32,
            true, UNINIT⟩ := by
  have hp : tokAt move 0 ≠ 79 := by omega
  have h120 : tokAt move 0 ≠ 120 := by omega
  have hcol : isCol (tokAt move 0 : Nat) = true := by
    simp only [isCol, decide_eq_true_eq]; omega
  have hrow : isRow (tokAt move 1 : Nat) = false := by
    rw [hx]; decide
  unfold validateMove at hok ⊢
  simp only [hp, if_false] at hok ⊢
  cases hfd : findDestination move with
  | none => simp [hfd] at hok
  | some r =>
    obtain ⟨d, di⟩ := r
    simp only [hfd] at hok ⊢
    rw [captureScan_x1 move d h120 hx] at hok ⊢
    by_cases hc : (tokAt move 2 : Int) - 97 ≠ d.col
    · simp [hc] at hok
    by_cases hr : 56 - (tokAt move 3 : Int) ≠ d.row
    · simp [hc, hr] at hok
    have hd : d = captureDest move := by
      cases d
      simp only [captureDest, Position.mk.injEq]
      simp only [ne_eq, not_not] at hc hr
      exact ⟨hr.symm, hc.symm⟩
    subst hd
    simp only [hc, hr, if_false, hcol, if_true, hempty] at hok ⊢
    have e1 : tolower SPACE ≠ 107 := by decide
    have e2 : strchr [80, 78, 82, 66, 81] SPACE = false := by decide
    have e3 : strchr [112, 110, 114, 98, 113] SPACE = false := by decide
    simp only [e1, e2, e3, if_false, Bool.false_eq_true, and_false] at hok ⊢
    rcases resolvePawn_capture_empty move state.board state.move
        (decide (state.status = GameStatus.WHITE)) (captureDest move) hrow hrank with
      hrej | ⟨hcand, hl3, hl12, hbd⟩
    · rw [hrej] at hok
      simp at hok
    · rw [hcand] at hok ⊢
      simp only at hok ⊢
      obtain ⟨hcm1, hcm2⟩ := commitMove_probe state
        (if state.status = GameStatus.WHITE then state.whiteKing else state.blackKing)
        ⟨MoveType.ENPEASANT,
          ⟨(captureDest move).row - 1 + b2i (decide (state.status = GameStatus.WHITE)) * 2,
            (tokAt move 0 : Int) - 97⟩,
          captureDest move, 112 - b2n (decide (state.status = GameStatus.WHITE)) * 32,
          true, UNINIT⟩ sr sc
      rw [hcm1] at hok
      obtain ⟨hpawn, hsight⟩ := isPossibleMove_true_sight _ _ _ hok
      have hpm : tolower (112 - b2n (decide (state.status = GameStatus.WHITE)) * 32) ≠ 110
          ∧ toupper (112 - b2n (decide (state.status = GameStatus.WHITE)) * 32) = PAWN := by
        cases decide (state.status = GameStatus.WHITE) <;> decide
      have hs := hasClearSight_collinear _ _ _ (hsight hpm.1)
      simp only [hpm.2, true_and] at hpawn
      simp only at hs
      refine ⟨hl3, hl12, ?_, hbd, hcm2 (hcm1.trans hok)⟩
      have hrows0 : ∀ (r : Int) (w : Bool), (r - 1 + b2i w * 2 - r).natAbs = 1 := by
        intro r w
        cases w
        · simp [b2i]
        · have : r - 1 + b2i true * 2 - r = 1 := by simp [b2i]; ring
          rw [this]; rfl
      have hrows := hrows0 (captureDest move).row (decide (state.status = GameStatus.WHITE))
      rcases hs with h | h | h
      · rw [hrows] at h
        exact h.symm
      · exfalso
        rw [h] at hrows
        simp at hrows
      · exact absurd h hpawn

/-! ## What `isInCheck` collects -/

theorem searchWith_find (probe : Probe) (pt : Nat) (pos dest : Position) (piece : Nat) (b : Board)
    (c : List Position) (k : KingPosition) :
    searchWith probe pt SearchType.FINDPIECES pos dest piece (b, c) k
      = (false, (b, c ++ (if findHit pt b pos piece dest then [dest] else []))) := by
  unfold searchWith findHit
  by_cases h1 : comparePositions pos dest = true
  · simp [h1]
  · by_cases h2 : boardAt b dest = piece
    · by_cases h3 : pt = KNIGHT ∨ pt = KING
      · simp [h1, h2, h3]
      · by_cases h4 : hasClearSight b pos dest = true
        · simp [h1, h2, h3, h4]
        · simp [h1, h2, h3, h4]
    · simp [h1, h2]

theorem scan_find (probe : Probe) (pt : Nat) (pos : Position) (piece : Nat) (b : Board)
    (k : KingPosition) (dests : List Position) (c : List Position) :
    scan (fun d s => searchWith probe pt SearchType.FINDPIECES pos d piece s k) dests (b, c)
      = (false, (b, c ++ dests.filter (findHit pt b pos piece))) := by
  induction dests generalizing c with
  | nil => simp [scan]
  | cons d ds ih =>
    simp only [scan, searchWith_find]
    rw [ih]
    by_cases h : findHit pt b pos piece d = true
    · simp [h, List.filter_cons]
    · simp [h, List.filter_cons]

theorem searchBoardWith_find (probe : Probe) (pt : Nat) (pos : Position) (piece : Nat)
    (b : Board) (c : List Position) (k : KingPosition)
    (hpt : pt = ROOK ∨ pt = KNIGHT ∨ pt = BISHOP ∨ pt = QUEEN ∨ pt = KING) :
    searchBoardWith probe pt SearchType.FINDPIECES pos piece (b, c) k
      = (false, (b, c ++ findList pt b pos piece)) := by
  unfold searchBoardWith findList
  rcases hpt with h | h | h | h | h <;> subst h <;> simp [scan_find]

theorem searchBoard_find (pt : Nat) (pos : Position) (piece : Nat) (b : Board)
    (c : List Position) (k : KingPosition)
    (hpt : pt = ROOK ∨ pt = KNIGHT ∨ pt = BISHOP ∨ pt = QUEEN ∨ pt = KING) :
    searchBoard pt SearchType.FINDPIECES pos piece (b, c) k
      = searchBoardWith noProbe pt SearchType.FINDPIECES pos piece (b, c) nullKing := by
  unfold searchBoard
  rw [searchBoardWith_find _ _ _ _ _ _ _ hpt, searchBoardWith_find _ _ _ _ _ _ _ hpt]

theorem isInCheck_calls_searchBoard (board : Board) (pos : Position) (isWhite : Bool)
    (previousMove : Move) (attackers : List Position) (k : KingPosition) :
    (isInCheck board pos isWhite previousMove attackers).2 =
      ([ROOK, KNIGHT, BISHOP, QUEEN, KING] : List Nat).foldl (fun acc pt =>
        (searchBoard pt SearchType.FINDPIECES pos (pt + b2n isWhite * 32) (board, acc) k).2.2)
        (if previousMove.destination.row ≠ pos.row ∨ previousMove.destination.col ≠ pos.col
            ∨ previousMove.type ≠ MoveType.DOUBLEPAWNMOVE then
          attackers ++ pawnAttackers board pos isWhite 1
         else attackers ++ pawnAttackers board pos isWhite 1
           ++ pawnAttackers board pos isWhite 0) := by
  unfold isInCheck
  simp only [List.foldl]
  rw [searchBoard_find _ _ _ _ _ _ (Or.inl rfl),
    searchBoard_find _ _ _ _ _ _ (Or.inr (Or.inl rfl))]
  rw [searchBoardWith_find _ _ _ _ _ _ _ (Or.inl rfl),
    searchBoardWith_find _ _ _ _ _ _ _ (Or.inr (Or.inl rfl))]
  rw [searchBoard_find _ _ _ _ _ _ (Or.inr (Or.inr (Or.inl rfl))),
    searchBoardWith_find _ _ _ _ _ _ _ (Or.inr (Or.inr (Or.inl rfl)))]
  rw [searchBoard_find _ _ _ _ _ _ (Or.inr (Or.inr (Or.inr (Or.inl rfl)))),
    searchBoardWith_find _ _ _ _ _ _ _ (Or.inr (Or.inr (Or.inr (Or.inl rfl))))]
  rw [searchBoard_find _ _ _ _ _ _ (Or.inr (Or.inr (Or.inr (Or.inr rfl)))),
    searchBoardWith_find _ _ _ _ _ _ _ (Or.inr (Or.inr (Or.inr (Or.inr rfl))))]

theorem inBoard_iff (r c : Int) : inBoard r c = true ↔ 0 ≤ r ∧ r < 8 ∧ 0 ≤ c ∧ c < 8 := by
  simp [inBoard]

theorem position_eq_iff (p q : Position) : p = q ↔ p.row = q.row ∧ p.col = q.col := by
  cases p; cases q; simp

theorem mem_rookDests (pos sq : Position) (hpos : inBoard pos.row pos.col = true) :
    sq ∈ rookDests pos ↔
      inBoard sq.row sq.col = true ∧ (sq.row = pos.row ∨ sq.col = pos.col) := by
  rw [inBoard_iff] at hpos ⊢
  simp only [rookDests, List.mem_append, List.mem_map, List.mem_range]
  constructor
  · rintro (⟨j, hj, rfl⟩ | ⟨j, hj, rfl⟩)
    · exact ⟨by simp only; omega, Or.inl rfl⟩
    · exact ⟨by simp only; omega, Or.inr rfl⟩
  · rintro ⟨hb, h | h⟩
    · left
      refine ⟨sq.col.toNat, by omega, ?_⟩
      rw [position_eq_iff]; simp only; omega
    · right
      refine ⟨sq.row.toNat, by omega, ?_⟩
      rw [position_eq_iff]; simp only; omega

theorem mem_kingDests (pos sq : Position) (hpos : inBoard pos.row pos.col = true) :
    sq ∈ kingDests pos ↔
      inBoard sq.row sq.col = true ∧ (sq.row - pos.row).natAbs ≤ 1
        ∧ (sq.col - pos.col).natAbs ≤ 1 := by
  rw [inBoard_iff] at hpos ⊢
  simp only [kingDests, List.mem_filter, List.mem_flatMap, List.mem_map, List.mem_range,
    isRow, isCol, Bool.and_eq_true, decide_eq_true_eq]
  constructor
  · rintro ⟨⟨di, hdi, dj, hdj, rfl⟩, h1, h2⟩
    simp only at h1 h2 ⊢
    omega
  · rintro ⟨hb, h1, h2⟩
    refine ⟨⟨(sq.row - pos.row + 1).toNat, by omega, (sq.col - pos.col + 1).toNat, by omega, ?_⟩,
      by omega, by omega⟩
    rw [position_eq_iff]; simp only; omega

theorem mem_knightDests (pos sq : Position) (hpos : inBoard pos.row pos.col = true) :
    sq ∈ knightDests pos ↔
      inBoard sq.row sq.col = true
        ∧ (((sq.row - pos.row).natAbs = 1 ∧ (sq.col - pos.col).natAbs = 2)
          ∨ ((sq.row - pos.row).natAbs = 2 ∧ (sq.col - pos.col).natAbs = 1)
          ∨ sq = pos) := by
  rw [inBoard_iff] at hpos ⊢
  rw [position_eq_iff]
  simp only [knightDests, List.mem_filter, List.mem_flatMap, List.mem_map, List.mem_range,
    isRow, isCol, isKnightMove, Bool.and_eq_true, decide_eq_true_eq]
  constructor
  · rintro ⟨⟨di, hdi, dj, hdj, rfl⟩, ⟨h1, h2⟩, h3⟩
    simp only at h1 h2 h3 ⊢
    omega
  · rintro ⟨hb, h⟩
    refine ⟨⟨(sq.row - pos.row + 2).toNat, by omega, (sq.col - pos.col + 2).toNat, by omega, ?_⟩,
      ⟨by omega, by omega⟩, by omega⟩
    rw [position_eq_iff]; simp only; omega

theorem mem_bishopDests (pos sq : Position) (hpos : inBoard pos.row pos.col = true) :
    sq ∈ bishopDests pos ↔
      inBoard sq.row sq.col = true
        ∧ (sq.row - pos.row).natAbs = (sq.col - pos.col).natAbs := by
  rw [inBoard_iff] at hpos ⊢
  simp only [bishopDests, List.mem_filter, List.mem_flatMap, List.mem_map, List.mem_range,
    isCol, decide_eq_true_eq, List.mem_cons, List.mem_singleton, List.not_mem_nil, or_false]
  constructor
  · rintro ⟨⟨i, hi, r, hr, rfl⟩, h1⟩
    simp only at h1 ⊢
    rcases hi with rfl | rfl <;> omega
  · rintro ⟨hb, h⟩
    have hcases : sq.col - pos.col = sq.row - pos.row ∨ sq.col - pos.col = -(sq.row - pos.row) := by
      omega
    rcases hcases with hc | hc
    · refine ⟨⟨1, Or.inr rfl, sq.row.toNat, by omega, ?_⟩, by omega⟩
      rw [position_eq_iff]; simp only; omega
    · refine ⟨⟨-1, Or.inl rfl, sq.row.toNat, by omega, ?_⟩, by omega⟩
      rw [position_eq_iff]; simp only; omega

theorem mem_between (a b s : Int) : s ∈ between a b ↔ a < s ∧ s < b := by
  simp only [between, List.mem_map, List.mem_range]
  constructor
  · rintro ⟨k, hk, rfl⟩
    omega
  · rintro ⟨h1, h2⟩
    exact ⟨(s - a - 1).toNat, by omega, by omega⟩

theorem diag_ratio (a b : Int) (h : a.natAbs = b.natAbs) (hb : b ≠ 0) :
    (Int.tdiv a b = 1 ∧ a = b) ∨ (Int.tdiv a b = -1 ∧ a = -b) := by
  have : a = b ∨ a = -b := by omega
  rcases this with rfl | rfl
  · left
    exact ⟨Int.tdiv_self hb, rfl⟩
  · right
    refine ⟨?_, rfl⟩
    rw [Int.neg_tdiv, Int.tdiv_self hb]

theorem getLineOfSight_fst (p q : Position) (l : List Position) :
    (getLineOfSight p q l).1 = true ↔ collinear p q := by
  unfold getLineOfSight collinear
  dsimp only
  by_cases h1 : (p.row - q.row).natAbs = (p.col - q.col).natAbs
  · rw [if_pos h1]
    simp [h1]
  · rw [if_neg h1]
    by_cases h2 : p.row = q.row
    · rw [if_pos h2]
      simp [h2]
    · rw [if_neg h2]
      by_cases h3 : p.col = q.col
      · rw [if_pos h3]
        simp [h3]
      · rw [if_neg h3]
        simp [h1, h2, h3]

theorem mem_getLineOfSight (p q t : Position) (hc : collinear p q) :
    t ∈ (getLineOfSight p q []).2 ↔ strictlyBetween p q t := by
  unfold getLineOfSight strictlyBetween
  dsimp only
  by_cases h1 : (p.row - q.row).natAbs = (p.col - q.col).natAbs
  · rw [if_pos h1]
    simp only [List.nil_append, List.mem_map, mem_between, position_eq_iff]
    by_cases hz : p.col - q.col = 0
    · have hr : p.row = q.row := by omega
      have hcq : p.col = q.col := by omega
      constructor
      · rintro ⟨s, hs, -⟩
        split_ifs at hs <;> omega
      · rintro ⟨dr, dc, k, n, hdr, hdc, hnz, hk, hn, e1, e2, -, -⟩
        exfalso
        rcases hdr with rfl | rfl | rfl <;> rcases hdc with rfl | rfl | rfl <;> omega
    · rcases diag_ratio _ _ h1 hz with ⟨hq, he⟩ | ⟨hq, he⟩
      · rw [hq]
        constructor
        · rintro ⟨s, hs, e1, e2⟩
          by_cases hlt : p.row < q.row
          · rw [if_pos hlt, if_pos hlt] at hs
            exact ⟨1, 1, s - p.row, q.row - p.row, by omega, by omega, by omega, by omega,
              by omega, by omega, by omega, by omega, by omega⟩
          · rw [if_neg hlt, if_neg hlt] at hs
            exact ⟨-1, -1, p.row - s, p.row - q.row, by omega, by omega, by omega, by omega,
              by omega, by omega, by omega, by omega, by omega⟩
        · rintro ⟨dr, dc, k, n, hdr, hdc, hnz, hk, hn, e1, e2, e3, e4⟩
          refine ⟨t.row, ?_, rfl, ?_⟩
          · rcases hdr with rfl | rfl | rfl <;> rcases hdc with rfl | rfl | rfl <;>
              split_ifs <;> omega
          · rcases hdr with rfl | rfl | rfl <;> rcases hdc with rfl | rfl | rfl <;> omega
      · rw [hq]
        constructor
        · rintro ⟨s, hs, e1, e2⟩
          by_cases hlt : p.row < q.row
          · rw [if_pos hlt, if_pos hlt] at hs
            exact ⟨1, -1, s - p.row, q.row - p.row, by omega, by omega, by omega, by omega,
              by omega, by omega, by omega, by omega, by omega⟩
          · rw [if_neg hlt, if_neg hlt] at hs
            exact ⟨-1, 1, p.row - s, p.row - q.row, by omega, by omega, by omega, by omega,
              by omega, by omega, by omega, by omega, by omega⟩
        · rintro ⟨dr, dc, k, n, hdr, hdc, hnz, hk, hn, e1, e2, e3, e4⟩
          refine ⟨t.row, ?_, rfl, ?_⟩
          · rcases hdr with rfl | rfl | rfl <;> rcases hdc with rfl | rfl | rfl <;>
              split_ifs <;> omega
          · rcases hdr with rfl | rfl | rfl <;> rcases hdc with rfl | rfl | rfl <;> omega
  · rw [if_neg h1]
    by_cases h2 : p.row = q.row
    · rw [if_pos h2]
      simp only [List.nil_append, List.mem_map, mem_between, position_eq_iff]
      constructor
      · rintro ⟨s, hs, e1, e2⟩
        by_cases hlt : p.col < q.col
        · rw [if_pos hlt, if_pos hlt] at hs
          exact ⟨0, 1, s - p.col, q.col - p.col, by omega, by omega, by omega, by omega,
            by omega, by omega, by omega, by omega, by omega⟩
        · rw [if_neg hlt, if_neg hlt] at hs
          exact ⟨0, -1, p.col - s, p.col - q.col, by omega, by omega, by omega, by omega,
            by omega, by omega, by omega, by omega, by omega⟩
      · rintro ⟨dr, dc, k, n, hdr, hdc, hnz, hk, hn, e1, e2, e3, e4⟩
        refine ⟨t.col, ?_, ?_, rfl⟩
        · rcases hdr with rfl | rfl | rfl <;> rcases hdc with rfl | rfl | rfl <;>
            split_ifs <;> omega
        · rcases hdr with rfl | rfl | rfl <;> rcases hdc with rfl | rfl | rfl <;> omega
    · rw [if_neg h2]
      have h3 : p.col = q.col := by
        rcases hc with h | h | h
        · exact absurd h h1
        · exact absurd h h2
        · exact h
      rw [if_pos h3]
      simp only [List.nil_append, List.mem_map, mem_between, position_eq_iff]
      constructor
      · rintro ⟨s, hs, e1, e2⟩
        by_cases hlt : p.row < q.row
        · rw [if_pos hlt, if_pos hlt] at hs
          exact ⟨1, 0, s - p.row, q.row - p.row, by omega, by omega, by omega, by omega,
            by omega, by omega, by omega, by omega, by omega⟩
        · rw [if_neg hlt, if_neg hlt] at hs
          exact ⟨-1, 0, p.row - s, p.row - q.row, by omega, by omega, by omega, by omega,
            by omega, by omega, by omega, by omega, by omega⟩
      · rintro ⟨dr, dc, k, n, hdr, hdc, hnz, hk, hn, e1, e2, e3, e4⟩
        refine ⟨t.row, ?_, rfl, ?_⟩
        · rcases hdr with rfl | rfl | rfl <;> rcases hdc with rfl | rfl | rfl <;>
            split_ifs <;> omega
        · rcases hdr with rfl | rfl | rfl <;> rcases hdc with rfl | rfl | rfl <;> omega

theorem hasClearSight_iff (b : Board) (p q : Position) :
    hasClearSight b p q = true ↔
      collinear p q ∧ ∀ t, strictlyBetween p q t → boardAt b t = SPACE := by
  have h1 := getLineOfSight_fst p q []
  unfold hasClearSight
  cases hg : getLineOfSight p q [] with
  | mk r l =>
    rw [hg] at h1
    cases r
    · simp only [Bool.false_eq_true, false_iff] at h1 ⊢
      exact fun h => h1 h.1
    · have hc : collinear p q := h1.1 rfl
      have h2 := fun t => mem_getLineOfSight p q t hc
      rw [hg] at h2
      simp only [List.all_eq_true, decide_eq_true_eq]
      constructor
      · intro h
        exact ⟨hc, fun t ht => h t ((h2 t).2 ht)⟩
      · intro h t ht
        exact h.2 t ((h2 t).1 ht)

theorem findHit_iff (pt : Nat) (b : Board) (pos : Position) (piece : Nat) (d : Position) :
    findHit pt b pos piece d = true ↔
      d ≠ pos ∧ boardAt b d = piece ∧ (pt = KNIGHT ∨ pt = KING ∨ hasClearSight b pos d = true) := by
  unfold findHit comparePositions
  simp only [Bool.and_eq_true, Bool.not_eq_true', decide_eq_false_iff_not, decide_eq_true_eq,
    Bool.or_eq_true, ne_eq, position_eq_iff]
  constructor
  · rintro ⟨⟨h1, h2⟩, h3⟩
    refine ⟨fun h => h1 ⟨h.2.symm, h.1.symm⟩, h2, ?_⟩
    rcases h3 with (h | h) | h
    · exact Or.inl h
    · exact Or.inr (Or.inl h)
    · exact Or.inr (Or.inr h)
  · rintro ⟨h1, h2, h3⟩
    refine ⟨⟨fun h => h1 ⟨h.2.symm, h.1.symm⟩, h2⟩, ?_⟩
    rcases h3 with h | h | h
    · exact Or.inl (Or.inl h)
    · exact Or.inl (Or.inr h)
    · exact Or.inr h

theorem isInCheck_list (board : Board) (pos : Position) (isWhite : Bool) (m : Move)
    (hprev : ¬ (m.type = MoveType.DOUBLEPAWNMOVE ∧ m.destination = pos)) :
    (isInCheck board pos isWhite m []).2 =
      pawnAttackers board pos isWhite 1
        ++ findList ROOK board pos (enemy ROOK isWhite)
        ++ findList KNIGHT board pos (enemy KNIGHT isWhite)
        ++ findList BISHOP board pos (enemy BISHOP isWhite)
        ++ findList QUEEN board pos (enemy QUEEN isWhite)
        ++ findList KING board pos (enemy KING isWhite) := by
  have hc : (m.destination.row ≠ pos.row ∨ m.destination.col ≠ pos.col
      ∨ m.type ≠ MoveType.DOUBLEPAWNMOVE) := by
    by_contra h
    push_neg at h
    exact hprev ⟨h.2.2, by rw [position_eq_iff]; exact ⟨h.1, h.2.1⟩⟩
  unfold isInCheck
  simp only [hc, if_true, List.nil_append, List.foldl, enemy]
  rw [searchBoardWith_find _ _ _ _ _ _ _ (Or.inl rfl)]
  rw [searchBoardWith_find _ _ _ _ _ _ _ (Or.inr (Or.inl rfl))]
  rw [searchBoardWith_find _ _ _ _ _ _ _ (Or.inr (Or.inr (Or.inl rfl)))]
  rw [searchBoardWith_find _ _ _ _ _ _ _ (Or.inr (Or.inr (Or.inr (Or.inl rfl))))]
  rw [searchBoardWith_find _ _ _ _ _ _ _ (Or.inr (Or.inr (Or.inr (Or.inr rfl))))]

theorem boardGet_inBoard (b : Board) (r c : Int) (h : boardGet b r c ≠ 0) :
    inBoard r c = true := by
  unfold boardGet at h
  by_contra hn
  simp [hn] at h

theorem mem_pawnAttackers (board : Board) (pos : Position) (isWhite : Bool) (sq : Position) :
    sq ∈ pawnAttackers board pos isWhite 1 ↔
      inBoard sq.row sq.col = true ∧ boardAt board sq = enemy PAWN isWhite
        ∧ sq.row = (if isWhite then pos.row - 1 else pos.row + 1)
        ∧ (sq.col - pos.col).natAbs = 1 := by
  have hrow : pos.row - 1 * (2 * b2i isWhite - 1) = (if isWhite then pos.row - 1 else pos.row + 1) := by
    cases isWhite <;> simp [b2i]
  simp only [pawnAttackers, List.mem_map, List.mem_filter, List.mem_cons, List.mem_singleton,
    List.not_mem_nil, or_false, Bool.and_eq_true, Bool.not_eq_true', decide_eq_false_iff_not,
    decide_eq_true_eq, hrow, enemy, boardAt]
  constructor
  · rintro ⟨j, ⟨hj, hr, hb⟩, rfl⟩
    have hin := boardGet_inBoard _ _ _ (by rw [hb]; cases isWhite <;> simp [b2n])
    refine ⟨hin, hb, rfl, ?_⟩
    rcases hj with rfl | rfl <;> simp
  · rintro ⟨hin, hb, hr, hc⟩
    rw [inBoard_iff] at hin
    refine ⟨sq.col - pos.col, ⟨by omega, by omega, ?_⟩, ?_⟩
    · rw [← hr]
      have : pos.col + (sq.col - pos.col) = sq.col := by ring
      rw [this]
      exact hb
    · rw [position_eq_iff]
      simp only
      omega

theorem mem_findList_rook (b : Board) (pos sq : Position) (piece : Nat)
    (hpos : inBoard pos.row pos.col = true) :
    sq ∈ (rookDests pos).filter (findHit ROOK b pos piece) ↔
      inBoard sq.row sq.col = true ∧ boardAt b sq = piece ∧ sq ≠ pos
        ∧ (sq.row = pos.row ∨ sq.col = pos.col) ∧ clearBetween b pos sq := by
  rw [List.mem_filter, mem_rookDests pos sq hpos, findHit_iff, hasClearSight_iff]
  unfold clearBetween collinear
  have h1 : ¬ (ROOK = KNIGHT) := by decide
  have h2 : ¬ (ROOK = KING) := by decide
  simp only [h1, h2, false_or]
  constructor
  · rintro ⟨⟨hb, hl⟩, hne, hp, -, hc⟩
    exact ⟨hb, hp, hne, hl, hc⟩
  · rintro ⟨hb, hp, hne, hl, hc⟩
    refine ⟨⟨hb, hl⟩, hne, hp, ?_, hc⟩
    rcases hl with h | h
    · exact Or.inr (Or.inl h.symm)
    · exact Or.inr (Or.inr h.symm)

theorem mem_findList_bishop (b : Board) (pos sq : Position) (piece : Nat)
    (hpos : inBoard pos.row pos.col = true) :
    sq ∈ (bishopDests pos).filter (findHit BISHOP b pos piece) ↔
      inBoard sq.row sq.col = true ∧ boardAt b sq = piece ∧ sq ≠ pos
        ∧ (sq.row - pos.row).natAbs = (sq.col - pos.col).natAbs ∧ clearBetween b pos sq := by
  rw [List.mem_filter, mem_bishopDests pos sq hpos, findHit_iff, hasClearSight_iff]
  unfold clearBetween collinear
  have h1 : ¬ (BISHOP = KNIGHT) := by decide
  have h2 : ¬ (BISHOP = KING) := by decide
  simp only [h1, h2, false_or]
  constructor
  · rintro ⟨⟨hb, hl⟩, hne, hp, -, hc⟩
    exact ⟨hb, hp, hne, hl, hc⟩
  · rintro ⟨hb, hp, hne, hl, hc⟩
    exact ⟨⟨hb, hl⟩, hne, hp, Or.inl (by omega), hc⟩

theorem mem_findList_knight (b : Board) (pos sq : Position) (piece : Nat)
    (hpos : inBoard pos.row pos.col = true) :
    sq ∈ (knightDests pos).filter (findHit KNIGHT b pos piece) ↔
      inBoard sq.row sq.col = true ∧ boardAt b sq = piece ∧ knightJump sq pos := by
  rw [List.mem_filter, mem_knightDests pos sq hpos, findHit_iff]
  unfold knightJump
  simp only [true_or, and_true]
  constructor
  · rintro ⟨⟨hb, hl⟩, hne, hp⟩
    refine ⟨hb, hp, ?_⟩
    rcases hl with h | h | h
    · exact Or.inl h
    · exact Or.inr h
    · exact absurd h hne
  · rintro ⟨hb, hp, hl⟩
    refine ⟨⟨hb, ?_⟩, ?_, hp⟩
    · rcases hl with h | h
      · exact Or.inl h
      · exact Or.inr (Or.inl h)
    · intro h
      rw [h] at hl
      simp at hl

theorem mem_findList_king (b : Board) (pos sq : Position) (piece : Nat)
    (hpos : inBoard pos.row pos.col = true) :
    sq ∈ (kingDests pos).filter (findHit KING b pos piece) ↔
      inBoard sq.row sq.col = true ∧ boardAt b sq = piece ∧ adjacent sq pos := by
  rw [List.mem_filter, mem_kingDests pos sq hpos, findHit_iff]
  unfold adjacent
  simp only [true_or, or_true, and_true]
  constructor
  · rintro ⟨⟨hb, h1, h2⟩, hne, hp⟩
    exact ⟨hb, hp, hne, h1, h2⟩
  · rintro ⟨hb, hp, hne, h1, h2⟩
    exact ⟨⟨hb, h1, h2⟩, hne, hp⟩

theorem isInCheck_spec (board : Board) (pos : Position) (isWhite : Bool) (m : Move)
    (hpos : inBoard pos.row pos.col = true)
    (hprev : ¬ (m.type = MoveType.DOUBLEPAWNMOVE ∧ m.destination = pos)) (sq : Position) :
    sq ∈ (isInCheck board pos isWhite m []).2 ↔ attacks board isWhite pos sq := by
  rw [isInCheck_list board pos isWhite m hprev]
  have e1 : findList ROOK board pos (enemy ROOK isWhite)
      = (rookDests pos).filter (findHit ROOK board pos (enemy ROOK isWhite)) := by
    simp [findList]
  have e2 : findList KNIGHT board pos (enemy KNIGHT isWhite)
      = (knightDests pos).filter (findHit KNIGHT board pos (enemy KNIGHT isWhite)) := by
    simp [findList]
  have e3 : findList BISHOP board pos (enemy BISHOP isWhite)
      = (bishopDests pos).filter (findHit BISHOP board pos (enemy BISHOP isWhite)) := by
    simp [findList]
  have e4 : findList QUEEN board pos (enemy QUEEN isWhite)
      = (rookDests pos).filter (findHit ROOK board pos (enemy QUEEN isWhite))
        ++ (bishopDests pos).filter (findHit BISHOP board pos (enemy QUEEN isWhite)) := by
    simp [findList]
  have e5 : findList KING board pos (enemy KING isWhite)
      = (kingDests pos).filter (findHit KING board pos (enemy KING isWhite)) := by
    simp [findList]
  rw [e1, e2, e3, e4, e5]
  simp only [List.mem_append, mem_pawnAttackers, mem_findList_rook _ _ _ _ hpos,
    mem_findList_bishop _ _ _ _ hpos, mem_findList_knight _ _ _ _ hpos,
    mem_findList_king _ _ _ _ hpos]
  unfold attacks
  constructor
  · rintro (((((⟨hb, h⟩ | ⟨hb, hp, h⟩) | ⟨hb, h⟩) | ⟨hb, hp, h⟩) | (⟨hb, hp, h⟩ | ⟨hb, hp, h⟩))
      | ⟨hb, h⟩)
    · exact ⟨hb, Or.inl h⟩
    · exact ⟨hb, Or.inr (Or.inr (Or.inr (Or.inl ⟨Or.inl hp, h⟩)))⟩
    · exact ⟨hb, Or.inr (Or.inl h)⟩
    · exact ⟨hb, Or.inr (Or.inr (Or.inr (Or.inr ⟨Or.inl hp, h⟩)))⟩
    · exact ⟨hb, Or.inr (Or.inr (Or.inr (Or.inl ⟨Or.inr hp, h⟩)))⟩
    · exact ⟨hb, Or.inr (Or.inr (Or.inr (Or.inr ⟨Or.inr hp, h⟩)))⟩
    · exact ⟨hb, Or.inr (Or.inr (Or.inl h))⟩
  · rintro ⟨hb, h | h | h | ⟨hp | hp, h⟩ | ⟨hp | hp, h⟩⟩
    · exact Or.inl (Or.inl (Or.inl (Or.inl (Or.inl ⟨hb, h⟩))))
    · exact Or.inl (Or.inl (Or.inl (Or.inr ⟨hb, h⟩)))
    · exact Or.inr ⟨hb, h⟩
    · exact Or.inl (Or.inl (Or.inl (Or.inl (Or.inr ⟨hb, hp, h⟩))))
    · exact Or.inl (Or.inr (Or.inl ⟨hb, hp, h⟩))
    · exact Or.inl (Or.inl (Or.inr ⟨hb, hp, h⟩))
    · exact Or.inl (Or.inr (Or.inr ⟨hb, hp, h⟩))

/-! ## The branches of `updateGameStatus` -/

theorem updateGameStatus_mate (state : GameState) (c : Bool) (h : (mateTest state).1 = true) :
    (updateGameStatus state c).1 = { state with board := (mateTest state).2, status :=
        if state.status = GameStatus.WHITE then GameStatus.WHITE_WON
        else GameStatus.BLACK_WON } := by
  unfold mateTest oppKing at h
  unfold updateGameStatus mateTest oppKing
  dsimp only at h ⊢
  rw [if_pos h]

theorem updateGameStatus_draw (state : GameState) (c : Bool) (h : (mateTest state).1 = false)
    (hd : state.move.type = MoveType.PLAYERDRAW) :
    (updateGameStatus state c).1
      = { state with board := (mateTest state).2, status := GameStatus.DRAWBYPLAYER } := by
  have h1 : ¬ (mateTest state).1 = true := by simp [h]
  unfold mateTest oppKing at h1
  unfold updateGameStatus mateTest oppKing
  dsimp only at h1 ⊢
  rw [if_neg h1, if_pos hd]

theorem updateGameStatus_fifty (state : GameState) (c : Bool) (h : (mateTest state).1 = false)
    (hd : state.move.type ≠ MoveType.PLAYERDRAW) (hc : 100 ≤ state.movesWithoutCaptures) :
    (updateGameStatus state c).1
      = { state with board := (mateTest state).2, status := GameStatus.DRAWBY50MOVERULE } := by
  have h1 : ¬ (mateTest state).1 = true := by simp [h]
  unfold mateTest oppKing at h1
  unfold updateGameStatus mateTest oppKing
  dsimp only at h1 ⊢
  rw [if_neg h1, if_neg hd, if_pos hc]

theorem updateGameStatus_resign (state : GameState) (c : Bool) (h : (mateTest state).1 = false)
    (hc : state.movesWithoutCaptures < 100) (hr : state.move.type = MoveType.RESIGN) :
    (updateGameStatus state c).1
      = { state with board := (mateTest state).2, status :=
          if state.status = GameStatus.BLACK then GameStatus.WHITE_WON
          else GameStatus.BLACK_WON } := by
  have h1 : ¬ (mateTest state).1 = true := by simp [h]
  have hd : state.move.type ≠ MoveType.PLAYERDRAW := by rw [hr]; decide
  unfold mateTest oppKing at h1
  unfold updateGameStatus mateTest oppKing
  dsimp only at h1 ⊢
  rw [if_neg h1, if_neg hd, if_neg (by omega), if_pos hr]

theorem updateGameStatus_play (state : GameState) (c : Bool) (h : (mateTest state).1 = false)
    (hd : state.move.type ≠ MoveType.PLAYERDRAW) (hc : state.movesWithoutCaptures < 100)
    (hr : state.move.type ≠ MoveType.RESIGN) :
    (updateGameStatus state c).1
      = if countLoop (convertBoardPosition (recorded state)).positions
            (((convertBoardPosition (recorded state)).movesWithoutCaptures : Int) - 1).toNat
            ((convertBoardPosition (recorded state)).positions.getD
              state.movesWithoutCaptures []) = 3 then
          { convertBoardPosition (recorded state) with status := GameStatus.DRAWBYREPETITION }
        else
          { convertBoardPosition (recorded state) with
            board := (isStalemate (mateTest state).2 (oppKing state)).2
            status :=
              if (isStalemate (mateTest state).2 (oppKing state)).1 = true then
                GameStatus.STALEMATE
              else if hasSufficientMaterial (mateTest state).2 = false then
                GameStatus.DRAWBYMATERIAL
              else if state.status = GameStatus.WHITE then GameStatus.BLACK
              else GameStatus.WHITE } := by
  have h1 : ¬ (mateTest state).1 = true := by simp [h]
  unfold mateTest oppKing at h1
  unfold updateGameStatus recorded ownKingAfter countLoop mateTest oppKing
  dsimp only at h1 ⊢
  rw [if_neg h1, if_neg hd, if_neg (by omega), if_neg hr, apply_ite Prod.fst]
  by_cases hw : state.status = GameStatus.WHITE
  · simp only [hw, if_true, convertBoardPosition]
  · simp only [hw, if_false, convertBoardPosition]

/-! ## The repetition count -/

theorem countLoop_eq (hist : List BoardPosition) (n : Nat) (cur : BoardPosition) :
    countLoop hist n cur = min 3 (1 + repetitions hist n cur) := by
  unfold countLoop repetitions
  induction n with
  | zero => simp
  | succ n ih =>
    rw [List.range_succ, List.foldl_append, List.filter_append, List.length_append, ih]
    simp only [List.foldl_cons, List.foldl_nil, List.filter_cons, List.filter_nil]
    by_cases hc : compareBoardPositions (hist.getD n []) cur = true
    · simp only [hc, and_true, if_true, List.length_cons, List.length_nil]
      split_ifs <;> omega
    · simp only [hc, and_false, if_false, List.length_nil]
      simp

theorem countLoop_three (hist : List BoardPosition) (n : Nat) (cur : BoardPosition) :
    countLoop hist n cur = 3 ↔ 2 ≤ repetitions hist n cur := by
  rw [countLoop_eq]
  omega

theorem repetitions_set (hist : List BoardPosition) (n : Nat) (x cur : BoardPosition) :
    repetitions (hist.set n x) n cur = repetitions hist n cur := by
  unfold repetitions
  congr 1
  apply List.filter_congr
  intro i hi
  have hi1 : i < n := List.mem_range.1 hi
  have : (hist.set n x).getD i [] = hist.getD i [] := by
    simp only [List.getD_eq_getElem?_getD]
    rw [List.getElem?_set_ne (by omega)]
  rw [this]

/-! ## What `validateMove` leaves alone -/

theorem framed_of_same (s st : GameState) (ok a b : Bool) (h : sameRecords s st) :
    framed s ⟨ok, st, a, b⟩ := by
  obtain ⟨h1, h2, h3, h4, h5, h6⟩ := h
  exact ⟨h1, h2, h3, h4, h5, Or.inl h6⟩

theorem commitMove_framed (s st : GameState) (k : KingPosition) (mv : Move)
    (sh a b : Bool) (h : sameRecords s st) : framed s (commitMove st k mv sh a b) := by
  obtain ⟨h1, h2, h3, h4, h5, h6⟩ := h
  unfold commitMove
  lift_lets
  intro probe st1
  by_cases hc : sh = false ∧ probe.1 = false
  · rw [if_pos hc]
    exact ⟨h1, h2, h3, h4, h5, Or.inl h6⟩
  · rw [if_neg hc]
    by_cases hq : mv.captures = true ∨ toupper mv.pieceMoved = PAWN
    · exact ⟨h1, h2, h3, h4, h5, Or.inr ⟨rfl, by simp only [if_pos hq], hq⟩⟩
    · exact ⟨h1, h2, h3, h4, h5, Or.inl (by simp only [if_neg hq]; exact h6)⟩

theorem validateCastle_framed (move : List Nat) (s : GameState) (a b : Bool) :
    framed s (validateCastle move s a b) := by
  have hs : sameRecords s s := ⟨rfl, rfl, rfl, rfl, rfl, rfl⟩
  unfold validateCastle
  lift_lets
  intro isWhite kingPos isShort isLong no step reg c0 c1 c2 r
  split_ifs
  all_goals first
    | exact framed_of_same s s _ a b hs
    | exact framed_of_same s _ _ a b ⟨rfl, rfl, rfl, rfl, rfl, rfl⟩

theorem validatePiece_framed (move : List Nat) (s : GameState) (a b : Bool) (dest : Position)
    (di : Nat) (captures : Bool) : framed s (validatePiece move s a b dest di captures) := by
  have hs : ∀ bd : Board, sameRecords s { s with board := bd } :=
    fun _ => ⟨rfl, rfl, rfl, rfl, rfl, rfl⟩
  have hm : ∀ (bd : Board) (m : Move), sameRecords s { s with board := bd, move := m } :=
    fun _ _ => ⟨rfl, rfl, rfl, rfl, rfl, rfl⟩
  unfold validatePiece
  lift_lets
  intros
  split_ifs
  · exact commitMove_framed s _ _ _ _ _ _ (hm _ _)
  · exact framed_of_same s _ _ _ _ (hs _)
  · exact framed_of_same s _ _ _ _ (hs _)
  · split
    · exact framed_of_same s _ _ _ _ (hs _)
    · exact commitMove_framed s _ _ _ _ _ _ (hs _)
  · exact commitMove_framed s _ _ _ _ _ _ (hs _)
  · exact framed_of_same s _ _ _ _ (hs _)
  · exact framed_of_same s _ _ _ _ (hs _)
  · exact commitMove_framed s _ _ _ _ _ _ (hs _)
  · exact framed_of_same s _ _ _ _ (hs _)
  · exact framed_of_same s _ _ _ _ (hs _)
  · exact commitMove_framed s _ _ _ _ _ _ (hs _)
  · exact framed_of_same s _ _ _ _ (hs _)

theorem validateMove_framed (move : List Nat) (s : GameState) (a b : Bool) :
    framed s (validateMove move s a b) := by
  have hs : sameRecords s s := ⟨rfl, rfl, rfl, rfl, rfl, rfl⟩
  unfold validateMove
  lift_lets
  intro board piece isWhite kingPos no
  by_cases h0 : piece = 79
  · rw [if_pos h0]
    exact validateCastle_framed move s a b
  rw [if_neg h0]
  cases findDestination move with
  | none => exact framed_of_same s s _ a b hs
  | some dd =>
    obtain ⟨dest, di⟩ := dd
    simp only
    by_cases h1 : tolower (boardAt board dest) = 107
    · rw [if_pos h1]
      exact framed_of_same s s _ a b hs
    rw [if_neg h1]
    by_cases h2 : isWhite = true ∧ strchr [80, 78, 82, 66, 81] (boardAt board dest) = true
    · rw [if_pos h2]
      exact framed_of_same s s _ a b hs
    rw [if_neg h2]
    by_cases h3 : isWhite = false ∧ strchr [112, 110, 114, 98, 113] (boardAt board dest) = true
    · rw [if_pos h3]
      exact framed_of_same s s _ a b hs
    rw [if_neg h3]
    cases captureScan move dest with
    | none => exact framed_of_same s s _ a b hs
    | some cc =>
      obtain ⟨captures, ci⟩ := cc
      simp only
      split_ifs
      · cases resolvePawn move board s.move isWhite dest (boardAt board dest) captures ci with
        | reject => exact framed_of_same s s _ a b hs
        | accept20 => exact framed_of_same s s _ a b hs
        | candidate newMove => exact commitMove_framed s s _ _ _ _ _ hs
      · exact validatePiece_framed move s a b _ _ _
      · exact framed_of_same s s _ a b hs

/-! ## Castling flags, the last move and the history across a half-move -/

theorem ownKingAfter_flags (state : GameState) :
    ((ownKingAfter state).canCastleShort = true →
        (if state.status = GameStatus.WHITE then state.whiteKing
          else state.blackKing).canCastleShort = true)
    ∧ ((ownKingAfter state).canCastleLong = true →
        (if state.status = GameStatus.WHITE then state.whiteKing
          else state.blackKing).canCastleLong = true) := by
  unfold ownKingAfter
  dsimp only
  split_ifs <;> simp

theorem updateGameStatus_kings (state : GameState) (c : Bool) :
    ((updateGameStatus state c).1.whiteKing = state.whiteKing
      ∨ (state.status = GameStatus.WHITE
        ∧ (updateGameStatus state c).1.whiteKing = ownKingAfter state))
    ∧ ((updateGameStatus state c).1.blackKing = state.blackKing
      ∨ (state.status ≠ GameStatus.WHITE
        ∧ (updateGameStatus state c).1.blackKing = ownKingAfter state)) := by
  by_cases hm : (mateTest state).1 = true
  · rw [updateGameStatus_mate state c hm]
    exact ⟨Or.inl rfl, Or.inl rfl⟩
  have hm1 : (mateTest state).1 = false := by simpa using hm
  by_cases hd : state.move.type = MoveType.PLAYERDRAW
  · rw [updateGameStatus_draw state c hm1 hd]
    exact ⟨Or.inl rfl, Or.inl rfl⟩
  by_cases hc : 100 ≤ state.movesWithoutCaptures
  · rw [updateGameStatus_fifty state c hm1 hd hc]
    exact ⟨Or.inl rfl, Or.inl rfl⟩
  by_cases hr : state.move.type = MoveType.RESIGN
  · rw [updateGameStatus_resign state c hm1 (by omega) hr]
    exact ⟨Or.inl rfl, Or.inl rfl⟩
  rw [updateGameStatus_play state c hm1 hd (by omega) hr]
  by_cases hw : state.status = GameStatus.WHITE
  · split_ifs <;> simp [recorded, convertBoardPosition, hw]
  · split_ifs <;> simp [recorded, convertBoardPosition, hw]

theorem updateGameStatus_flags (state : GameState) (c : Bool) :
    ((updateGameStatus state c).1.whiteKing.canCastleShort = true →
        state.whiteKing.canCastleShort = true)
    ∧ ((updateGameStatus state c).1.whiteKing.canCastleLong = true →
        state.whiteKing.canCastleLong = true)
    ∧ ((updateGameStatus state c).1.blackKing.canCastleShort = true →
        state.blackKing.canCastleShort = true)
    ∧ ((updateGameStatus state c).1.blackKing.canCastleLong = true →
        state.blackKing.canCastleLong = true) := by
  obtain ⟨hw, hb⟩ := updateGameStatus_kings state c
  have hf := ownKingAfter_flags state
  refine ⟨?_, ?_, ?_, ?_⟩
  · rcases hw with h | ⟨hs, h⟩
    · rw [h]; exact id
    · rw [h]; intro h1; have := hf.1 h1; rwa [if_pos hs] at this
  · rcases hw with h | ⟨hs, h⟩
    · rw [h]; exact id
    · rw [h]; intro h1; have := hf.2 h1; rwa [if_pos hs] at this
  · rcases hb with h | ⟨hs, h⟩
    · rw [h]; exact id
    · rw [h]; intro h1; have := hf.1 h1; rwa [if_neg hs] at this
  · rcases hb with h | ⟨hs, h⟩
    · rw [h]; exact id
    · rw [h]; intro h1; have := hf.2 h1; rwa [if_neg hs] at this

theorem updateGameStatus_move (state : GameState) (c : Bool) :
    (updateGameStatus state c).1.move = state.move := by
  by_cases hm : (mateTest state).1 = true
  · rw [updateGameStatus_mate state c hm]
  have hm1 : (mateTest state).1 = false := by simpa using hm
  by_cases hd : state.move.type = MoveType.PLAYERDRAW
  · rw [updateGameStatus_draw state c hm1 hd]
  by_cases hc : 100 ≤ state.movesWithoutCaptures
  · rw [updateGameStatus_fifty state c hm1 hd hc]
  by_cases hr : state.move.type = MoveType.RESIGN
  · rw [updateGameStatus_resign state c hm1 (by omega) hr]
  rw [updateGameStatus_play state c hm1 hd (by omega) hr]
  by_cases hw : state.status = GameStatus.WHITE
  · split_ifs <;> simp [recorded, convertBoardPosition, hw]
  · split_ifs <;> simp [recorded, convertBoardPosition, hw]

theorem recorded_history (state : GameState) :
    (recorded state).positions = state.positions
      ∧ (recorded state).movesWithoutCaptures = state.movesWithoutCaptures := by
  unfold recorded
  split_ifs <;> exact ⟨rfl, rfl⟩

theorem convertBoardPosition_recorded (state : GameState)
    (hclock : state.movesWithoutCaptures < 100) :
    (convertBoardPosition (recorded state)).positions
        = state.positions.set state.movesWithoutCaptures (encodePosition (recorded state))
      ∧ (convertBoardPosition (recorded state)).movesWithoutCaptures
        = state.movesWithoutCaptures + 1 := by
  obtain ⟨h1, h2⟩ := recorded_history state
  constructor
  · show (recorded state).positions.set (recorded state).movesWithoutCaptures _ = _
    rw [h1, h2]
  · show ((recorded state).movesWithoutCaptures + 1) % 65536 = _
    rw [h2]
    omega

/-- What `updateGameStatus` does to the history and the half-move clock. -/
theorem updateGameStatus_history (state : GameState) (c : Bool) :
    ((updateGameStatus state c).1.positions = state.positions
      ∧ (updateGameStatus state c).1.movesWithoutCaptures = state.movesWithoutCaptures
      ∧ (updateGameStatus state c).1.status ≠ GameStatus.WHITE
      ∧ (updateGameStatus state c).1.status ≠ GameStatus.BLACK)
    ∨ (state.movesWithoutCaptures < 100
      ∧ (updateGameStatus state c).1.positions
          = state.positions.set state.movesWithoutCaptures (encodePosition (recorded state))
      ∧ (updateGameStatus state c).1.movesWithoutCaptures = state.movesWithoutCaptures + 1
      ∧ (updateGameStatus state c).1.status ≠ GameStatus.DRAWBY50MOVERULE) := by
  by_cases hm : (mateTest state).1 = true
  · rw [updateGameStatus_mate state c hm]
    refine Or.inl ⟨rfl, rfl, ?_, ?_⟩ <;> (simp only; split_ifs <;> simp)
  have hm1 : (mateTest state).1 = false := by simpa using hm
  by_cases hd : state.move.type = MoveType.PLAYERDRAW
  · rw [updateGameStatus_draw state c hm1 hd]
    exact Or.inl ⟨rfl, rfl, by simp, by simp⟩
  by_cases hc : 100 ≤ state.movesWithoutCaptures
  · rw [updateGameStatus_fifty state c hm1 hd hc]
    exact Or.inl ⟨rfl, rfl, by simp, by simp⟩
  by_cases hr : state.move.type = MoveType.RESIGN
  · rw [updateGameStatus_resign state c hm1 (by omega) hr]
    refine Or.inl ⟨rfl, rfl, ?_, ?_⟩ <;> (simp only; split_ifs <;> simp)
  rw [updateGameStatus_play state c hm1 hd (by omega) hr]
  have hmod : (state.movesWithoutCaptures + 1) % 65536 = state.movesWithoutCaptures + 1 := by
    omega
  right
  by_cases hw : state.status = GameStatus.WHITE
  · split_ifs <;> simp [recorded, convertBoardPosition, hw, hmod] <;> omega
  · split_ifs <;> simp [recorded, convertBoardPosition, hw, hmod] <;> omega

theorem playMove_spec (state : GameState) (t : List Nat) (r : GameState × Bool)
    (h : playMove state t = some r) :
    ∃ v : VResult, v.ok = true
      ∧ framed { state with moveCounter := (state.moveCounter + 1) % 65536 } v
      ∧ r = updateGameStatus { v.state with board := makeMove v.state.board v.state.move }
          false := by
  unfold playMove at h
  dsimp only at h
  split_ifs at h with hok
  refine ⟨_, hok, validateMove_framed _ _ _ _, ?_⟩
  simpa using h.symm

/-- One quiet half-move: the clock goes up by one while the game goes on, and the game
ends by the 50-move rule only when the clock was 100 on entry. -/
theorem playMove_quiet_clock (state : GameState) (t : List Nat) (r : GameState × Bool)
    (h : playMove state t = some r)
    (hq : r.1.move.captures = false ∧ toupper r.1.move.pieceMoved ≠ PAWN) :
    ((r.1.status = GameStatus.WHITE ∨ r.1.status = GameStatus.BLACK) →
        state.movesWithoutCaptures < 100
          ∧ r.1.movesWithoutCaptures = state.movesWithoutCaptures + 1)
    ∧ (state.movesWithoutCaptures < 100 → r.1.status ≠ GameStatus.DRAWBY50MOVERULE)
    ∧ (100 ≤ state.movesWithoutCaptures →
        r.1.status = GameStatus.DRAWBY50MOVERULE ∨ r.1.status = GameStatus.WHITE_WON
          ∨ r.1.status = GameStatus.BLACK_WON ∨ r.1.status = GameStatus.DRAWBYPLAYER) := by
  obtain ⟨v, _, hf, hr⟩ := playMove_spec state t r h
  obtain ⟨_, _, _, _, _, hclock⟩ := hf
  have hmv : r.1.move = v.state.move := by rw [hr, updateGameStatus_move]
  rw [hmv] at hq
  have hc : v.state.movesWithoutCaptures = state.movesWithoutCaptures := by
    rcases hclock with h1 | ⟨_, _, h3⟩
    · exact h1
    · rcases h3 with h3 | h3
      · rw [hq.1] at h3; exact absurd h3 (by simp)
      · exact absurd h3 hq.2
  subst hr
  set s1 : GameState := { v.state with board := makeMove v.state.board v.state.move } with hs1
  have hc1 : s1.movesWithoutCaptures = state.movesWithoutCaptures := hc
  refine ⟨?_, ?_, ?_⟩
  · intro hrun
    rcases updateGameStatus_history s1 false with ⟨_, _, h3, h4⟩ | ⟨h1, _, h3, _⟩
    · rcases hrun with hrun | hrun
      · exact absurd hrun h3
      · exact absurd hrun h4
    · rw [hc1] at h1 h3
      exact ⟨h1, h3⟩
  · intro hlt
    by_cases hm : (mateTest s1).1 = true
    · rw [updateGameStatus_mate s1 false hm]
      simp only
      split_ifs <;> simp
    have hm1 : (mateTest s1).1 = false := by simpa using hm
    by_cases hd : s1.move.type = MoveType.PLAYERDRAW
    · rw [updateGameStatus_draw s1 false hm1 hd]
      simp
    by_cases hr : s1.move.type = MoveType.RESIGN
    · rw [updateGameStatus_resign s1 false hm1 (by omega) hr]
      simp only
      split_ifs <;> simp
    rcases updateGameStatus_history s1 false with ⟨_, h2, _, _⟩ | ⟨_, _, _, h4⟩
    · rw [updateGameStatus_play s1 false hm1 hd (by omega) hr] at h2
      have hmod : (s1.movesWithoutCaptures + 1) % 65536 = s1.movesWithoutCaptures + 1 := by
        omega
      exfalso
      revert h2
      split_ifs <;> simp [convertBoardPosition, recorded, hmod] <;> split_ifs <;> simp [hmod]
    · exact h4
  · intro hge
    by_cases hm : (mateTest s1).1 = true
    · rw [updateGameStatus_mate s1 false hm]
      simp only
      split_ifs <;> simp
    have hm1 : (mateTest s1).1 = false := by simpa using hm
    by_cases hd : s1.move.type = MoveType.PLAYERDRAW
    · rw [updateGameStatus_draw s1 false hm1 hd]
      simp
    rw [updateGameStatus_fifty s1 false hm1 hd (by omega)]
    simp

theorem playQuiet_clock (toks : List (List Nat)) :
    ∀ (s0 s : GameState), playQuiet s0 toks = some s → toks ≠ [] →
      (s0.movesWithoutCaptures + toks.length ≤ 100 →
        s.status ≠ GameStatus.DRAWBY50MOVERULE
          ∧ ((s.status = GameStatus.WHITE ∨ s.status = GameStatus.BLACK) →
            s.movesWithoutCaptures = s0.movesWithoutCaptures + toks.length))
      ∧ (s0.movesWithoutCaptures + toks.length = 101 →
        s.status = GameStatus.DRAWBY50MOVERULE ∨ s.status = GameStatus.WHITE_WON
          ∨ s.status = GameStatus.BLACK_WON ∨ s.status = GameStatus.DRAWBYPLAYER) := by
  induction toks with
  | nil => intro s0 s _ hne; exact absurd rfl hne
  | cons t ts ih =>
    intro s0 s h _
    unfold playQuiet at h
    split_ifs at h with hrun
    cases hp : playMove s0 t with
    | none => rw [hp] at h; exact absurd h (by simp)
    | some r =>
      rw [hp] at h
      simp only at h
      split_ifs at h with hq
      obtain ⟨k1, k2, k3⟩ := playMove_quiet_clock s0 t r hp hq
      cases ts with
      | nil =>
        have hs : s = r.1 := by
          unfold playQuiet at h
          simpa using h.symm
        subst hs
        simp only [List.length_singleton]
        refine ⟨fun hle => ⟨k2 (by omega), fun hr => (k1 hr).2⟩, fun he => k3 (by omega)⟩
      | cons t2 ts2 =>
        have hr1 : r.1.status = GameStatus.WHITE ∨ r.1.status = GameStatus.BLACK := by
          by_contra hn
          unfold playQuiet at h
          rw [if_neg hn] at h
          exact absurd h (by simp)
        obtain ⟨_, hclk⟩ := k1 hr1
        have := ih r.1 s h (by simp)
        rw [hclk] at this
        simp only [List.length_cons] at this ⊢
        refine ⟨fun hle => ?_, fun he => this.2 (by omega)⟩
        have h1 := this.1 (by omega)
        exact ⟨h1.1, fun hr => by rw [h1.2 hr]; omega⟩

/-! ## Material count, frame of the mate test, encoding -/

theorem mem_allSquares (p : Position) : p ∈ allSquares ↔ inBoard p.row p.col = true := by
  rw [inBoard_iff]
  simp only [allSquares, List.mem_flatMap, List.mem_map, List.mem_range]
  constructor
  · rintro ⟨i, hi, j, hj, rfl⟩
    simp only
    omega
  · rintro ⟨h1, h2, h3, h4⟩
    refine ⟨p.row.toNat, by omega, p.col.toNat, by omega, ?_⟩
    rw [position_eq_iff]; simp only; omega

theorem allSquares_nodup : allSquares.Nodup := by decide!

theorem mem_allSquares_of_piece (board : Board) (p : Position) (h : boardAt board p ≠ 0) :
    p ∈ allSquares :=
  (mem_allSquares p).2 (boardGet_inBoard board p.row p.col h)

theorem materialLoop_eq (board : Board) (ps : List Position) :
    ∀ n b0 b1 : Nat, materialLoop board ps n b0 b1 =
      (ps.any (fun p =>
        decide (toupper (boardAt board p) = ROOK ∨ toupper (boardAt board p) = QUEEN
          ∨ toupper (boardAt board p) = PAWN))
      || decide (n + (ps.filter (fun p => decide (toupper (boardAt board p) = KNIGHT))).length > 1
        ∨ (b0 + (ps.filter (fun p => decide (toupper (boardAt board p) = BISHOP
              ∧ (p.row + p.col) % 2 = 0))).length > 0
          ∧ b1 + (ps.filter (fun p => decide (toupper (boardAt board p) = BISHOP
              ∧ (p.row + p.col) % 2 = 1))).length > 0)
        ∨ (b0 + (ps.filter (fun p => decide (toupper (boardAt board p) = BISHOP
              ∧ (p.row + p.col) % 2 = 0))).length
            + (b1 + (ps.filter (fun p => decide (toupper (boardAt board p) = BISHOP
              ∧ (p.row + p.col) % 2 = 1))).length) > 0
          ∧ n + (ps.filter (fun p => decide (toupper (boardAt board p) = KNIGHT))).length > 0))) := by
  induction ps with
  | nil => intro n b0 b1; simp [materialLoop]
  | cons p ps ih =>
    intro n b0 b1
    unfold materialLoop
    by_cases h1 : toupper (boardAt board p) = ROOK ∨ toupper (boardAt board p) = QUEEN
        ∨ toupper (boardAt board p) = PAWN
    · rw [if_pos h1]
      simp [h1]
    rw [if_neg h1]
    have hany : (List.any (p :: ps) fun p =>
        decide (toupper (boardAt board p) = ROOK ∨ toupper (boardAt board p) = QUEEN
          ∨ toupper (boardAt board p) = PAWN)) = (List.any ps fun p =>
        decide (toupper (boardAt board p) = ROOK ∨ toupper (boardAt board p) = QUEEN
          ∨ toupper (boardAt board p) = PAWN)) := by
      simp [h1]
    rw [hany]
    by_cases h2 : toupper (boardAt board p) = KNIGHT
    · have hb : ¬ toupper (boardAt board p) = BISHOP := by rw [h2]; decide
      rw [if_pos h2, ih,
        List.filter_cons_of_pos (by simpa using h2),
        List.filter_cons_of_neg (by simp [hb]), List.filter_cons_of_neg (by simp [hb])]
      simp only [List.length_cons]
      congr 1
      rw [decide_eq_decide]
      omega
    rw [if_neg h2]
    by_cases h3 : toupper (boardAt board p) = BISHOP
    · rw [if_pos h3]
      by_cases h4 : (p.row + p.col) % 2 = 0
      · have h5 : ¬ (p.row + p.col) % 2 = 1 := by omega
        rw [if_pos h4, ih,
          List.filter_cons_of_neg (by simpa using h2),
          List.filter_cons_of_pos (by simp [h3, h4]), List.filter_cons_of_neg (by simp [h5])]
        simp only [List.length_cons]
        congr 1
        rw [decide_eq_decide]
        omega
      · have h5 : (p.row + p.col) % 2 = 1 := by omega
        rw [if_neg h4, ih,
          List.filter_cons_of_neg (by simpa using h2),
          List.filter_cons_of_neg (by simp [h4]), List.filter_cons_of_pos (by simp [h3, h5])]
        simp only [List.length_cons]
        congr 1
        rw [decide_eq_decide]
        omega
    rw [if_neg h3, ih,
      List.filter_cons_of_neg (by simpa using h2),
      List.filter_cons_of_neg (by simp [h3]), List.filter_cons_of_neg (by simp [h3])]

theorem hasSufficientMaterial_eq_loop (board : Board) :
    hasSufficientMaterial board = materialLoop board allSquares 0 0 0 := by
  rw [materialLoop_eq]
  unfold hasSufficientMaterial
  dsimp only
  split_ifs with h
  · rw [h]
    rfl
  · have h1 : (allSquares.any fun p =>
        decide (toupper (boardAt board p) = ROOK ∨ toupper (boardAt board p) = QUEEN
          ∨ toupper (boardAt board p) = PAWN)) = false := by simpa using h
    rw [h1]
    simp

theorem filter_length_pos {α : Type} (l : List α) (f : α → Bool) :
    0 < (l.filter f).length ↔ ∃ p ∈ l, f p = true := by
  rw [List.length_pos_iff_exists_mem]
  simp only [List.mem_filter]

theorem filter_length_two {α : Type} (l : List α) (f : α → Bool) (hl : l.Nodup) :
    1 < (l.filter f).length ↔ ∃ p ∈ l, ∃ q ∈ l, p ≠ q ∧ f p = true ∧ f q = true := by
  have hn : (l.filter f).Nodup := hl.filter f
  constructor
  · intro h
    match hm : l.filter f, hn, h with
    | a :: b :: t, hn, _ =>
      have ha : a ∈ l.filter f := by rw [hm]; simp
      have hb : b ∈ l.filter f := by rw [hm]; simp
      rw [List.mem_filter] at ha hb
      refine ⟨a, ha.1, b, hb.1, ?_, ha.2, hb.2⟩
      intro hab
      rw [hab] at hn
      simp at hn
  · rintro ⟨p, hp, q, hq, hne, fp, fq⟩
    have hp1 : p ∈ l.filter f := List.mem_filter.2 ⟨hp, fp⟩
    have hq1 : q ∈ l.filter f := List.mem_filter.2 ⟨hq, fq⟩
    by_contra hle
    match hm : l.filter f, hp1, hq1, hle with
    | [], hp1, _, _ => simp at hp1
    | [a], hp1, hq1, _ =>
      simp only [List.mem_singleton] at hp1 hq1
      exact hne (hp1.trans hq1.symm)
    | a :: b :: t, _, _, hle => simp at hle

theorem piece_ne_zero (c k : Nat) (h : toupper c = k) (hk : k ≠ 0) : c ≠ 0 := by
  intro h0
  rw [h0] at h
  exact hk (h.symm.trans (by decide))

theorem isPossibleMove_pawn_same_col (b : Board) (m : Move) (k : KingPosition)
    (hp : toupper m.pieceMoved = PAWN) (hc : m.captures = true)
    (hcol : m.origin.col = m.destination.col) : (isPossibleMove b m k).2 = b := by
  unfold isPossibleMove
  dsimp only
  split_ifs with h1 h2 h3 h4 h5
  all_goals first
    | rfl
    | exact absurd ⟨hp, hc, hcol⟩ h5

theorem findList_piece (pt : Nat) (b : Board) (pos : Position) (piece : Nat) (c : Position)
    (h : c ∈ findList pt b pos piece) : boardAt b c = piece := by
  unfold findList at h
  split_ifs at h
  all_goals
    simp only [List.mem_filter, List.mem_append, findHit_iff, List.not_mem_nil] at h
  · exact h.2.2.1
  · exact h.2.2.1
  · exact h.2.2.1
  · rcases h with h | h <;> exact h.2.2.1
  · exact h.2.2.1

theorem canMoveTo_board (b : Board) (target : Position) (isWhite : Bool) (k : KingPosition)
    (prev : Move) : (canMoveTo b target isWhite k prev).2 = b := by
  unfold canMoveTo
  dsimp only
  have h1 := (scan_fixed (fun (i : Int) (b : Board) =>
      if boardGet b (target.row + i * (2 * b2i isWhite - 1)) target.col = 112 - b2n isWhite * 32 then
        isPossibleMove b
          ⟨if i = 1 then MoveType.NORMALMOVE else MoveType.DOUBLEPAWNMOVE,
            ⟨target.row + i * (2 * b2i isWhite - 1), target.col⟩, target,
            boardGet b (target.row + i * (2 * b2i isWhite - 1)) target.col, false, SPACE⟩ k
      else (false, b))
    (if target.row ≠ 3 + b2i isWhite then [1] else [1, 2]) b (by
      intro i _
      simp only
      split_ifs
      · exact isPossibleMove_board b _ k rfl (by simp) (by simp)
      · exact isPossibleMove_board b _ k rfl (by simp) (by simp)
      · rfl)).1
  have h2 : ((if target.row = 5 - 3 * b2i isWhite
          ∧ prev.type = MoveType.DOUBLEPAWNMOVE
          ∧ prev.destination.col = target.col then
        scan (fun (i : Int) (b : Board) =>
            if isCol i = false then (false, b) else
            if boardGet b prev.destination.row i ≠ 112 - b2n isWhite * 32 then (false, b) else
            isPossibleMove b
              ⟨MoveType.ENPEASANT, ⟨prev.destination.row, target.col⟩, target,
                boardGet b prev.destination.row i, true, SPACE⟩ k)
          [target.row - 1, target.row + 1] b
       else (false, b))).2 = b := by
    split_ifs
    · refine (scan_fixed _ _ b ?_).1
      intro i _
      beta_reduce
      split_ifs with c1 c2
      · rfl
      · rfl
      · refine isPossibleMove_pawn_same_col b _ k ?_ rfl rfl
        simp only
        have hpw : boardGet b prev.destination.row i = 112 - b2n isWhite * 32 := by simpa using c2
        rw [hpw]
        cases isWhite <;> decide
    · rfl
  have h3 := (scan_fixed (fun (pt : Nat) (b : Board) =>
          scan (fun (c : Position) (b3 : Board) =>
              isPossibleMove b3
                ⟨MoveType.NORMALMOVE, c, target, pt + b2n (!isWhite) * 32, false, SPACE⟩ k)
            (searchBoard pt SearchType.FINDPIECES target (pt + 32 * b2n (!isWhite))
              (b, []) nullKing).2.2
            (searchBoard pt SearchType.FINDPIECES target (pt + 32 * b2n (!isWhite))
              (b, []) nullKing).2.1)
        [ROOK, KNIGHT, BISHOP, QUEEN] b (by
      intro pt hpt
      have hpt1 : pt = ROOK ∨ pt = KNIGHT ∨ pt = BISHOP ∨ pt = QUEEN ∨ pt = KING := by
        simp only [List.mem_cons, List.mem_singleton, List.not_mem_nil, or_false] at hpt
        tauto
      beta_reduce
      rw [searchBoard_find _ _ _ _ _ _ hpt1, searchBoardWith_find _ _ _ _ _ _ _ hpt1]
      simp only [List.nil_append]
      refine (scan_fixed _ _ b ?_).1
      intro c hc
      have hpc := findList_piece _ _ _ _ _ hc
      exact isPossibleMove_board b _ k (by simp only; rw [hpc]; ring) (by simp) (by simp))).1
  split
  · rename_i b1 hs
    rw [hs] at h1
    exact h1
  · rename_i b1 hs
    rw [hs] at h1
    simp only at h1
    subst h1
    by_cases hE : target.row = 5 - 3 * b2i isWhite
          ∧ prev.type = MoveType.DOUBLEPAWNMOVE
          ∧ prev.destination.col = target.col
    · rw [if_pos hE] at h2
      rw [if_pos hE]
      split
      · rename_i b2 hs2
        rw [hs2] at h2
        exact h2
      · rename_i b2 hs2
        rw [hs2] at h2
        simp only at h2
        subst h2
        exact h3
    · rw [if_neg hE]
      exact h3

theorem kingLoop_board (board b : Board) (k : KingPosition)
    (hk : boardAt b (getRegPos k) = 75
        + 32 * b2n (!hasSameColor (boardAt board (getRegPos k)) true)) :
    (scan (fun (d : Position) (b1 : Board) =>
        isPossibleMove b1
          ⟨MoveType.NORMALMOVE, getRegPos k, d,
            75 + 32 * b2n (!hasSameColor (boardAt board (getRegPos k)) true), false, SPACE⟩ k)
      (kingSquares k) b).2 = b :=
  (scan_fixed _ _ b (fun d _ => isPossibleMove_board b _ k hk (by simp) (by simp))).1

theorem isCheckmate_board (board : Board) (k : KingPosition) (checkers : List Position)
    (prev : Move) (hk : toupper (boardAt board (getRegPos k)) = KING) :
    (isCheckmate board k checkers prev).2 = board := by
  have hking : boardAt board (getRegPos k) = 75
      + 32 * b2n (!hasSameColor (boardAt board (getRegPos k)) true) := by
    have hc : boardAt board (getRegPos k) = 75 ∨ boardAt board (getRegPos k) = 107 := by
      change toupper (boardAt board (getRegPos k)) = 75 at hk
      unfold toupper at hk
      split_ifs at hk <;> omega
    rcases hc with h | h <;> rw [h] <;> decide
  have hloop := kingLoop_board board board k hking
  have hsav : ((if (isInCheck board (checkers.headD ⟨0, 0⟩)
        (!hasSameColor (boardAt board (getRegPos k)) true) prev []).1 = true then
        scan (fun (s : Position) (b : Board) =>
            isPossibleMove b
              ⟨MoveType.NORMALMOVE, s, checkers.headD ⟨0, 0⟩, boardAt b s, true, SPACE⟩ k)
          (isInCheck board (checkers.headD ⟨0, 0⟩)
            (!hasSameColor (boardAt board (getRegPos k)) true) prev []).2 board
       else (false, board))).2 = board := by
    split_ifs
    · exact (scan_fixed _ _ board
        (fun s _ => isPossibleMove_board board _ k rfl (by simp) (by simp))).1
    · rfl
  have hcan : ∀ los : List Position,
      (scan (fun (t : Position) (b : Board) =>
        canMoveTo b t (hasSameColor (boardAt board (getRegPos k)) true) k prev) los board).2
        = board := fun los =>
    (scan_fixed _ _ board (fun t _ => canMoveTo_board board t _ k prev)).1
  unfold isCheckmate
  dsimp only
  by_cases h0 : checkers.length = 0
  · rw [if_pos h0]
  rw [if_neg h0]
  by_cases h1 : checkers.length = 1
  · rw [if_pos h1]
    by_cases hs : (isInCheck board (checkers.headD ⟨0, 0⟩)
        (!hasSameColor (boardAt board (getRegPos k)) true) prev []).1 = true
    · rw [if_pos hs] at hsav
      rw [if_pos hs]
      split
      · rename_i b1 hm
        rw [hm] at hsav
        exact hsav
      · rename_i b1 hm
        rw [hm] at hsav
        simp only at hsav
        subst hsav
        by_cases hn : toupper (boardAt b1 (checkers.headD ⟨0, 0⟩)) ≠ KNIGHT
        · rw [if_pos hn]
          split
          · rfl
          · rename_i los _
            have hc := hcan los
            split
            · rename_i b2 hm2
              rw [hm2] at hc
              exact hc
            · rename_i b2 hm2
              rw [hm2] at hc
              simp only at hc
              subst hc
              split
              · rename_i b3 hm3
                rw [hm3] at hloop
                exact hloop
              · rename_i b3 hm3
                rw [hm3] at hloop
                exact hloop
        · rw [if_neg hn]
          split
          · rename_i b3 hm3
            rw [hm3] at hloop
            exact hloop
          · rename_i b3 hm3
            rw [hm3] at hloop
            exact hloop
    · rw [if_neg hs]
      simp only
      by_cases hn : toupper (boardAt board (checkers.headD ⟨0, 0⟩)) ≠ KNIGHT
      · rw [if_pos hn]
        split
        · rfl
        · rename_i los _
          have hc := hcan los
          split
          · rename_i b2 hm2
            rw [hm2] at hc
            exact hc
          · rename_i b2 hm2
            rw [hm2] at hc
            simp only at hc
            subst hc
            split
            · rename_i b3 hm3
              rw [hm3] at hloop
              exact hloop
            · rename_i b3 hm3
              rw [hm3] at hloop
              exact hloop
      · rw [if_neg hn]
        split
        · rename_i b3 hm3
          rw [hm3] at hloop
          exact hloop
        · rename_i b3 hm3
          rw [hm3] at hloop
          exact hloop
  · rw [if_neg h1]
    split
    · rename_i b3 hm3
      rw [hm3] at hloop
      exact hloop
    · rename_i b3 hm3
      rw [hm3] at hloop
      exact hloop

theorem mateTest_board (state : GameState)
    (hk : toupper (boardAt state.board (getRegPos (oppKing state))) = KING) :
    (mateTest state).2 = state.board := by
  unfold mateTest
  dsimp only
  split_ifs
  · exact isCheckmate_board _ _ _ _ hk
  · rfl

theorem sufficient_iff (board : Board) :
    hasSufficientMaterial board = true ↔
      (∃ p, toupper (boardAt board p) = ROOK ∨ toupper (boardAt board p) = QUEEN
          ∨ toupper (boardAt board p) = PAWN)
      ∨ (∃ p q, p ≠ q ∧ toupper (boardAt board p) = KNIGHT
          ∧ toupper (boardAt board q) = KNIGHT)
      ∨ (∃ p q, toupper (boardAt board p) = BISHOP ∧ lightSquare p
          ∧ toupper (boardAt board q) = BISHOP ∧ ¬ lightSquare q)
      ∨ (∃ p q, toupper (boardAt board p) = BISHOP ∧ toupper (boardAt board q) = KNIGHT) := by
  have hmem : ∀ (p : Position) (k : Nat), toupper (boardAt board p) = k → k ≠ 0 →
      p ∈ allSquares := fun p k h hk =>
    mem_allSquares_of_piece board p (piece_ne_zero _ k h hk)
  have hK2 := filter_length_two allSquares
    (fun p => decide (toupper (boardAt board p) = KNIGHT)) allSquares_nodup
  have hK1 := filter_length_pos allSquares
    (fun p => decide (toupper (boardAt board p) = KNIGHT))
  have hB0 := filter_length_pos allSquares
    (fun p => decide (toupper (boardAt board p) = BISHOP ∧ (p.row + p.col) % 2 = 0))
  have hB1 := filter_length_pos allSquares
    (fun p => decide (toupper (boardAt board p) = BISHOP ∧ (p.row + p.col) % 2 = 1))
  simp only [decide_eq_true_eq] at hK2 hK1 hB0 hB1
  unfold hasSufficientMaterial
  dsimp only
  by_cases hany : (allSquares.any fun p =>
      decide (toupper (boardAt board p) = ROOK ∨ toupper (boardAt board p) = QUEEN
        ∨ toupper (boardAt board p) = PAWN)) = true
  · rw [if_pos hany]
    simp only [true_iff]
    left
    simp only [List.any_eq_true, decide_eq_true_eq] at hany
    obtain ⟨p, _, hp⟩ := hany
    exact ⟨p, hp⟩
  · rw [if_neg hany]
    simp only [List.any_eq_true, decide_eq_true_eq, not_exists, not_and] at hany
    rw [decide_eq_true_eq]
    simp only [gt_iff_lt, Nat.add_pos_iff_pos_or_pos, hK2, hK1, hB0, hB1]
    constructor
    · rintro (⟨p, _, q, _, hne, hp, hq⟩ | ⟨⟨p, _, hp, hp2⟩, ⟨q, _, hq, hq2⟩⟩
        | ⟨hb, ⟨q, _, hq⟩⟩)
      · exact Or.inr (Or.inl ⟨p, q, hne, hp, hq⟩)
      · refine Or.inr (Or.inr (Or.inl ⟨p, q, hp, hp2, hq, ?_⟩))
        unfold lightSquare
        omega
      · rcases hb with ⟨p, _, hp, _⟩ | ⟨p, _, hp, _⟩
        · exact Or.inr (Or.inr (Or.inr ⟨p, q, hp, hq⟩))
        · exact Or.inr (Or.inr (Or.inr ⟨p, q, hp, hq⟩))
    · rintro (⟨p, hp⟩ | ⟨p, q, hne, hp, hq⟩ | ⟨p, q, hp, hp2, hq, hq2⟩ | ⟨p, q, hp, hq⟩)
      · have hpm : p ∈ allSquares := by
          rcases hp with h | h | h
          · exact hmem p _ h (by decide)
          · exact hmem p _ h (by decide)
          · exact hmem p _ h (by decide)
        exact absurd hp (hany p hpm)
      · exact Or.inl ⟨p, hmem p _ hp (by decide), q, hmem q _ hq (by decide), hne, hp, hq⟩
      · refine Or.inr (Or.inl ⟨⟨p, hmem p _ hp (by decide), hp, hp2⟩,
          ⟨q, hmem q _ hq (by decide), hq, ?_⟩⟩)
        unfold lightSquare at hq2
        omega
      · refine Or.inr (Or.inr ⟨?_, ⟨q, hmem q _ hq (by decide), hq⟩⟩)
        by_cases hl : (p.row + p.col) % 2 = 0
        · exact Or.inl ⟨p, hmem p _ hp (by decide), hp, hl⟩
        · exact Or.inr ⟨p, hmem p _ hp (by decide), hp, by omega⟩

theorem kingsAndBishop_insufficient (board : Board) (h : kingsAndBishop board) :
    hasSufficientMaterial board = false := by
  obtain ⟨wk, bk, bp, hw, hb, hbp, hall⟩ := h
  have hsq : ∀ p ∈ allSquares, boardAt board p = SPACE ∨ toupper (boardAt board p) = KING
      ∨ p = bp := by
    intro p hp
    by_cases h1 : p = wk
    · right; left; rw [h1, hw]; decide
    by_cases h2 : p = bk
    · right; left; rw [h2, hb]; decide
    by_cases h3 : p = bp
    · right; right; exact h3
    · left; exact hall p hp h1 h2 h3
  have hmem : ∀ (p : Position) (k : Nat), toupper (boardAt board p) = k → k ≠ 0 →
      p ∈ allSquares := fun p k h hk =>
    mem_allSquares_of_piece board p (piece_ne_zero _ k h hk)
  have honly : ∀ (p : Position) (c : Nat), toupper (boardAt board p) = c → c ≠ 0 →
      c ≠ SPACE → c ≠ KING → p = bp := by
    intro p c hc h0 h1 h2
    rcases hsq p (hmem p c hc h0) with h | h | h
    · rw [h] at hc
      exact absurd (hc.symm.trans (by decide)) h1
    · exact absurd (hc.symm.trans h) h2
    · exact h
  by_contra hne
  have ht : hasSufficientMaterial board = true := by simpa using hne
  rcases (sufficient_iff board).1 ht with ⟨p, hp⟩ | ⟨p, q, hpq, hp, hq⟩
      | ⟨p, q, hp, hp2, hq, hq2⟩ | ⟨p, q, _, hq⟩
  · rcases hp with h | h | h
    · have := honly p _ h (by decide) (by decide) (by decide)
      rw [this, hbp] at h
      exact absurd h (by decide)
    · have := honly p _ h (by decide) (by decide) (by decide)
      rw [this, hbp] at h
      exact absurd h (by decide)
    · have := honly p _ h (by decide) (by decide) (by decide)
      rw [this, hbp] at h
      exact absurd h (by decide)
  · exact hpq ((honly p _ hp (by decide) (by decide) (by decide)).trans
      (honly q _ hq (by decide) (by decide) (by decide)).symm)
  · have e1 := honly p _ hp (by decide) (by decide) (by decide)
    have e2 := honly q _ hq (by decide) (by decide) (by decide)
    rw [e2, ← e1] at hq2
    exact hq2 hp2
  · have := honly q _ hq (by decide) (by decide) (by decide)
    rw [this, hbp] at hq
    exact absurd hq (by decide)

theorem allSquares_getD : ∀ i < 8, ∀ j < 8,
    allSquares.getD (8 * i + j) ⟨0, 0⟩ = ⟨(i : Int), (j : Int)⟩ := by decide!

theorem allSquares_length : allSquares.length = 64 := by decide!

theorem encode_getD (f : Position → Nat) (p : Position) (hp : inBoard p.row p.col = true) :
    (allSquares.map f).getD (8 * p.row.toNat + p.col.toNat) 0 = f p := by
  rw [inBoard_iff] at hp
  have h := allSquares_getD p.row.toNat (by omega) p.col.toNat (by omega)
  have hlt : 8 * p.row.toNat + p.col.toNat < allSquares.length := by
    rw [allSquares_length]; omega
  rw [List.getD_eq_getElem _ _ hlt] at h
  rw [List.getD_eq_getElem _ _ (by rw [List.length_map]; exact hlt), List.getElem_map, h]
  congr 1
  rw [position_eq_iff]
  simp only
  omega

theorem bumpCorner_length (enc : BoardPosition) (i idx : Nat) (right : Bool) :
    (bumpCorner enc i idx right).length = enc.length := by
  unfold bumpCorner
  dsimp only
  split_ifs
  · rfl
  · rw [List.length_set]

theorem bumpCorner_getD_keep (enc : BoardPosition) (i idx j : Nat) (right : Bool)
    (h : j = idx → enc.getD j 0 ≠ 3 ∧ enc.getD j 0 ≠ 5) :
    (bumpCorner enc i idx right).getD j 0 = enc.getD j 0 := by
  unfold bumpCorner
  dsimp only
  by_cases hj : j = idx
  · obtain ⟨h3, h5⟩ := h hj
    subst hj
    rw [if_pos ⟨Or.inl h3, Or.inl h5⟩]
  · split_ifs
    · rfl
    · simp only [List.getD_eq_getElem?_getD]
      rw [List.getElem?_set_ne (fun h => hj h.symm)]

theorem bumpCorner_getD_self (enc : BoardPosition) (i idx : Nat) (right : Bool)
    (hlen : idx < enc.length) :
    (bumpCorner enc i idx right).getD idx 0 =
      if (enc.getD idx 0 ≠ 3 ∨ i ≠ i % 2 ∨ right = false)
          ∧ (enc.getD idx 0 ≠ 5 ∨ i ≠ 2 + i % 2 ∨ right = false) then enc.getD idx 0
      else (enc.getD idx 0 + 1) % 16 := by
  unfold bumpCorner
  dsimp only
  split_ifs
  · rfl
  · simp only [List.getD_eq_getElem?_getD]
    rw [List.getElem?_set_self hlen]
    rfl

theorem compareBoardPositions_refl (x : BoardPosition) : compareBoardPositions x x = true := by
  simp [compareBoardPositions]

theorem compareBoardPositions_false (x y : BoardPosition) (i : Nat) (hi : i < 64)
    (h : x.getD i 0 ≠ y.getD i 0) : compareBoardPositions x y = false := by
  unfold compareBoardPositions
  rw [List.all_eq_false]
  exact ⟨i, List.mem_range.2 hi, by simpa using h⟩

theorem encodePosition_getD_plain (s : GameState) (p : Position)
    (hp : inBoard p.row p.col = true) (h3 : encodeSquare s p ≠ 3) (h5 : encodeSquare s p ≠ 5) :
    (encodePosition s).getD (8 * p.row.toNat + p.col.toNat) 0 = encodeSquare s p := by
  have h0 := encode_getD (encodeSquare s) p hp
  unfold encodePosition
  dsimp only
  have k1 := bumpCorner_getD_keep (allSquares.map (encodeSquare s)) 0 0
    (8 * p.row.toNat + p.col.toNat) s.blackKing.canCastleLong
    (fun _ => by rw [h0]; exact ⟨h3, h5⟩)
  have k2 := bumpCorner_getD_keep _ 1 7 (8 * p.row.toNat + p.col.toNat)
    s.blackKing.canCastleShort (fun _ => by rw [k1, h0]; exact ⟨h3, h5⟩)
  have k3 := bumpCorner_getD_keep _ 2 56 (8 * p.row.toNat + p.col.toNat)
    s.whiteKing.canCastleLong (fun _ => by rw [k2, k1, h0]; exact ⟨h3, h5⟩)
  have k4 := bumpCorner_getD_keep _ 3 63 (8 * p.row.toNat + p.col.toNat)
    s.whiteKing.canCastleShort (fun _ => by rw [k3, k2, k1, h0]; exact ⟨h3, h5⟩)
  rw [k4, k3, k2, k1, h0]

theorem encodePosition_getD_h1 (s : GameState) (h : encodeSquare s ⟨7, 7⟩ = 5) :
    (encodePosition s).getD 63 0 = if s.whiteKing.canCastleShort = true then 6 else 5 := by
  have h0 : (allSquares.map (encodeSquare s)).getD 63 0 = 5 := by
    rw [← h]; exact encode_getD (encodeSquare s) ⟨7, 7⟩ (by decide)
  unfold encodePosition
  dsimp only
  have k1 := bumpCorner_getD_keep (allSquares.map (encodeSquare s)) 0 0 63
    s.blackKing.canCastleLong (fun h => absurd h (by decide))
  have k2 := bumpCorner_getD_keep (bumpCorner (allSquares.map (encodeSquare s)) 0 0
    s.blackKing.canCastleLong) 1 7 63 s.blackKing.canCastleShort (fun h => absurd h (by decide))
  have k3 := bumpCorner_getD_keep (bumpCorner (bumpCorner (allSquares.map (encodeSquare s)) 0 0
    s.blackKing.canCastleLong) 1 7 s.blackKing.canCastleShort) 2 56 63
    s.whiteKing.canCastleLong (fun h => absurd h (by decide))
  rw [bumpCorner_getD_self _ 3 63 _ (by
    rw [bumpCorner_length, bumpCorner_length, bumpCorner_length, List.length_map,
      allSquares_length]; decide), k3, k2, k1, h0]
  cases s.whiteKing.canCastleShort <;> simp

theorem encodePosition_getD_a1 (s : GameState) (h : encodeSquare s ⟨7, 0⟩ = 5) :
    (encodePosition s).getD 56 0 = if s.whiteKing.canCastleLong = true then 6 else 5 := by
  have h0 : (allSquares.map (encodeSquare s)).getD 56 0 = 5 := by
    rw [← h]; exact encode_getD (encodeSquare s) ⟨7, 0⟩ (by decide)
  unfold encodePosition
  dsimp only
  have k1 := bumpCorner_getD_keep (allSquares.map (encodeSquare s)) 0 0 56
    s.blackKing.canCastleLong (fun h => absurd h (by decide))
  have k2 := bumpCorner_getD_keep (bumpCorner (allSquares.map (encodeSquare s)) 0 0
    s.blackKing.canCastleLong) 1 7 56 s.blackKing.canCastleShort (fun h => absurd h (by decide))
  rw [bumpCorner_getD_keep _ 3 63 56 _ (fun h => absurd h (by decide)),
    bumpCorner_getD_self _ 2 56 _ (by
      rw [bumpCorner_length, bumpCorner_length, List.length_map, allSquares_length]; decide),
    k2, k1, h0]
  cases s.whiteKing.canCastleLong <;> simp

theorem encodePosition_getD_h8 (s : GameState) (h : encodeSquare s ⟨0, 7⟩ = 3) :
    (encodePosition s).getD 7 0 = if s.blackKing.canCastleShort = true then 4 else 3 := by
  have h0 : (allSquares.map (encodeSquare s)).getD 7 0 = 3 := by
    rw [← h]; exact encode_getD (encodeSquare s) ⟨0, 7⟩ (by decide)
  unfold encodePosition
  dsimp only
  have k1 := bumpCorner_getD_keep (allSquares.map (encodeSquare s)) 0 0 7
    s.blackKing.canCastleLong (fun h => absurd h (by decide))
  rw [bumpCorner_getD_keep _ 3 63 7 _ (fun h => absurd h (by decide)),
    bumpCorner_getD_keep _ 2 56 7 _ (fun h => absurd h (by decide)),
    bumpCorner_getD_self _ 1 7 _ (by
      rw [bumpCorner_length, List.length_map, allSquares_length]; decide),
    k1, h0]
  cases s.blackKing.canCastleShort <;> simp

theorem encodePosition_getD_a8 (s : GameState) (h : encodeSquare s ⟨0, 0⟩ = 3) :
    (encodePosition s).getD 0 0 = if s.blackKing.canCastleLong = true then 4 else 3 := by
  have h0 : (allSquares.map (encodeSquare s)).getD 0 0 = 3 := by
    rw [← h]; exact encode_getD (encodeSquare s) ⟨0, 0⟩ (by decide)
  unfold encodePosition
  dsimp only
  rw [bumpCorner_getD_keep _ 3 63 0 _ (fun h => absurd h (by decide)),
    bumpCorner_getD_keep _ 2 56 0 _ (fun h => absurd h (by decide)),
    bumpCorner_getD_keep _ 1 7 0 _ (fun h => absurd h (by decide)),
    bumpCorner_getD_self _ 0 0 _ (by rw [List.length_map, allSquares_length]; decide), h0]
  cases s.blackKing.canCastleLong <;> simp

/-- The code of a square that the last move does not mark. -/
theorem encodeSquare_unmarked (s : GameState) (p : Position)
    (h : epStatus s ≠ some p) : encodeSquare s p = encodeChar (boardAt s.board p) % 16 := by
  unfold encodeSquare
  rw [if_neg]
  rintro ⟨h1, h2⟩
  apply h
  unfold epStatus
  rw [if_pos h2]
  simp only [comparePositions, Bool.and_eq_true, decide_eq_true_eq] at h1
  rw [Option.some.injEq, position_eq_iff]
  exact ⟨h1.2, h1.1⟩

theorem encodeSquare_marked (s : GameState) (p : Position)
    (h : epStatus s = some p) : encodeSquare s p = 15 := by
  unfold epStatus at h
  split_ifs at h with h2
  rw [Option.some.injEq] at h
  unfold encodeSquare
  rw [if_pos]
  refine ⟨?_, h2⟩
  rw [h]
  simp [comparePositions]

theorem epStatus_pawn (s : GameState) (h : doublePushOnPawn s) (p : Position)
    (hp : epStatus s = some p) : toupper (boardAt s.board p) = PAWN := by
  unfold epStatus at hp
  split_ifs at hp with h2
  rw [Option.some.injEq] at hp
  rw [← hp]
  exact h h2

theorem encodeChar_pawn (c : Nat) (h : toupper c = PAWN) :
    encodeChar c % 16 = 1 ∨ encodeChar c % 16 = 2 := by
  have hc : c = 80 ∨ c = 112 := by
    change toupper c = 80 at h
    unfold toupper at h
    split_ifs at h <;> omega
  rcases hc with rfl | rfl
  · right; decide
  · left; decide

/-! ## The resolver of piece moves -/

theorem probe_fold (b : Board) (dest : Position) (piece : Nat) (captures : Bool)
    (k : KingPosition) (cands : List Position) :
    ∀ acc : List Position, (∀ c ∈ cands, boardAt b c = piece) →
    cands.foldl (fun (acc : Board × List Position) c =>
        match isPossibleMove acc.1 ⟨MoveType.NORMALMOVE, c, dest, piece, captures, SPACE⟩ k with
        | (true, b) => (b, acc.2 ++ [c])
        | (false, b) => (b, acc.2)) (b, acc)
      = (b, acc ++ cands.filter (fun c =>
          (isPossibleMove b ⟨MoveType.NORMALMOVE, c, dest, piece, captures, SPACE⟩ k).1)) := by
  induction cands with
  | nil => intro acc _; simp
  | cons c cs ih =>
    intro acc h
    have hb : (isPossibleMove b ⟨MoveType.NORMALMOVE, c, dest, piece, captures, SPACE⟩ k).2 = b :=
      isPossibleMove_board b _ k (h c (List.mem_cons_self _ _))
        ⟨fun he => MoveType.noConfusion he, fun he => MoveType.noConfusion he⟩
        (fun he => MoveType.noConfusion he)
    have hcs : ∀ c1 ∈ cs, boardAt b c1 = piece := fun c1 h1 => h c1 (List.mem_cons_of_mem _ h1)
    rw [List.foldl_cons]
    cases hp : (isPossibleMove b ⟨MoveType.NORMALMOVE, c, dest, piece, captures, SPACE⟩ k) with
    | mk r b1 =>
      rw [hp] at hb
      simp only at hb
      subst hb
      cases r
      · simp only [hp]
        rw [ih acc hcs, List.filter_cons_of_neg (by simp [hp])]
      · simp only [hp]
        rw [ih (acc ++ [c]) hcs, List.filter_cons_of_pos (by simp [hp])]
        simp

theorem captureScan_flag (move : List Nat) (dest : Position) (captures : Bool) (ci : Nat)
    (h : captureScan move dest = some (captures, ci)) : captures = writesCapture move := by
  unfold captureScan at h
  unfold writesCapture
  cases hf : (List.range 10).find? (fun i => decide (tokAt move i = 120)) with
  | none =>
    rw [hf] at h
    simp only [Option.some.injEq, Prod.mk.injEq] at h
    rw [← h.1]
    symm
    rw [Bool.eq_false_iff]
    intro hany
    rw [List.any_eq_true] at hany
    obtain ⟨x, hx, hx1⟩ := hany
    exact absurd hx1 (by simpa using List.find?_eq_none.mp hf x hx)
  | some i =>
    rw [hf] at h
    simp only at h
    split_ifs at h
    simp only [Option.some.injEq, Prod.mk.injEq] at h
    rw [← h.1]
    symm
    rw [List.any_eq_true]
    exact ⟨i, List.mem_of_find?_eq_some hf, by simpa using List.find?_some hf⟩

theorem pieceOf_upper (state : GameState) (move : List Nat)
    (hp : tokAt move 0 = 75 ∨ tokAt move 0 = 78 ∨ tokAt move 0 = 82 ∨ tokAt move 0 = 66
      ∨ tokAt move 0 = 81) :
    toupper (pieceOf state move) = tokAt move 0
      ∧ hasSameColor (pieceOf state move) true = decide (state.status = GameStatus.WHITE) := by
  unfold pieceOf
  by_cases hw : state.status = GameStatus.WHITE
  · rcases hp with h | h | h | h | h <;> simp [hw, h] <;> decide
  · rcases hp with h | h | h | h | h <;> simp [hw, h] <;> decide

theorem validatePiece_search (state : GameState) (move : List Nat) (dest : Position)
    (hp : tokAt move 0 = 75 ∨ tokAt move 0 = 78 ∨ tokAt move 0 = 82 ∨ tokAt move 0 = 66
      ∨ tokAt move 0 = 81) :
    searchBoard (toupper (pieceOf state move)) SearchType.FINDPIECES dest (pieceOf state move)
      (state.board, []) nullKing = (false, (state.board, reaching state move dest)) := by
  rw [(pieceOf_upper state move hp).1]
  unfold searchBoard reaching
  rw [searchBoardWith_find, List.nil_append]
  rcases hp with h | h | h | h | h <;> simp [h, ROOK, KNIGHT, BISHOP, QUEEN, KING]

theorem validatePiece_filter (state : GameState) (move : List Nat) (dest : Position) :
    (reaching state move dest).foldl (fun (acc : Board × List Position) c =>
        match isPossibleMove acc.1
          ⟨MoveType.NORMALMOVE, c, dest, pieceOf state move, writesCapture move, SPACE⟩
            (ownKing state) with
        | (true, b) => (b, acc.2 ++ [c])
        | (false, b) => (b, acc.2)) (state.board, [])
      = (state.board, legalOrigins state move dest) := by
  rw [probe_fold state.board dest (pieceOf state move) (writesCapture move) (ownKing state)
    (reaching state move dest) [] (fun c hc => findList_piece _ _ _ _ c hc)]
  rfl

theorem validatePiece_unique (move : List Nat) (state : GameState) (sr sc : Bool)
    (dest : Position) (di : Nat) (c : Position)
    (hp : tokAt move 0 = 75 ∨ tokAt move 0 = 78 ∨ tokAt move 0 = 82 ∨ tokAt move 0 = 66
      ∨ tokAt move 0 = 81)
    (h2 : 2 ≤ (reaching state move dest).length)
    (hl : legalOrigins state move dest = [c]) :
    (validatePiece move state sr sc dest di (writesCapture move)).ok = true
      ∧ (validatePiece move state sr sc dest di (writesCapture move)).state.move.origin = c := by
  have hs := validatePiece_search state move dest hp
  have hf := validatePiece_filter state move dest
  unfold pieceOf at hs hf
  unfold ownKing at hf
  unfold validatePiece
  dsimp only
  rw [hs]
  dsimp only
  generalize hfold : List.foldl _ (state.board, []) (reaching state move dest) = fl
  have hfl : fl = (state.board, legalOrigins state move dest) := hfold.symm.trans hf
  subst hfl
  rw [hl, if_pos (by omega), if_pos (by simp)]
  unfold commitMove
  simp

theorem validatePiece_ambiguous (move : List Nat) (state : GameState) (sr sc : Bool)
    (dest : Position) (di : Nat)
    (hp : tokAt move 0 = 75 ∨ tokAt move 0 = 78 ∨ tokAt move 0 = 82 ∨ tokAt move 0 = 66
      ∨ tokAt move 0 = 81)
    (h2 : 2 ≤ (legalOrigins state move dest).length)
    (hd : di ≤ 1 ∨ (isCol (tokAt move 1 : Nat) = false ∧ isRow (tokAt move 1 : Nat) = false)
      ∨ (isCol (tokAt move 1 : Nat) = true ∧ isRow (tokAt move 2 : Nat) = false
        ∧ 2 ≤ ((legalOrigins state move dest).filter
            (fun c => decide (c.col = (tokAt move 1 : Int) - 97))).length)) :
    (validatePiece move state sr sc dest di (writesCapture move)).ok = false := by
  have hs := validatePiece_search state move dest hp
  have hf := validatePiece_filter state move dest
  have hr : 2 ≤ (reaching state move dest).length :=
    le_trans h2 (List.length_filter_le _ _)
  unfold pieceOf at hs hf
  unfold ownKing at hf
  unfold validatePiece
  dsimp only
  rw [hs]
  dsimp only
  generalize hfold : List.foldl _ (state.board, []) (reaching state move dest) = fl
  have hfl : fl = (state.board, legalOrigins state move dest) := hfold.symm.trans hf
  subst hfl
  dsimp only
  rw [if_pos (by omega), if_neg (by omega), if_pos (by omega)]
  rcases hd with h | ⟨h, h1⟩ | ⟨h, h1, h3⟩
  · rw [if_pos h]
  · by_cases hdi : di ≤ 1
    · rw [if_pos hdi]
    · rw [if_neg hdi, if_neg (by simp [h]), if_neg (by simp [h1])]
  · by_cases hdi : di ≤ 1
    · rw [if_pos hdi]
    · rw [if_neg hdi, if_pos h, if_pos (by omega), if_pos h1]

theorem isPossibleMove_true_dest (b : Board) (m : Move) (k : KingPosition)
    (h : (isPossibleMove b m k).1 = true) :
    hasSameColor (boardAt b m.destination) (hasSameColor m.pieceMoved true) = false := by
  unfold isPossibleMove at h
  dsimp only at h
  split_ifs at h with h1 h2
  all_goals simpa using h2

theorem validateMove_guards (move : List Nat) (state : GameState) (dest c : Position)
    (hp : tokAt move 0 = 75 ∨ tokAt move 0 = 78 ∨ tokAt move 0 = 82 ∨ tokAt move 0 = 66
      ∨ tokAt move 0 = 81)
    (hc : c ∈ legalOrigins state move dest) :
    ¬ (decide (state.status = GameStatus.WHITE) = true
        ∧ strchr [80, 78, 82, 66, 81] (boardAt state.board dest) = true)
    ∧ ¬ (decide (state.status = GameStatus.WHITE) = false
        ∧ strchr [112, 110, 114, 98, 113] (boardAt state.board dest) = true) := by
  have hprobe := (List.mem_filter.mp hc).2
  have hd := isPossibleMove_true_dest _ _ _ hprobe
  rw [show (candidateMove state move dest c).pieceMoved = pieceOf state move from rfl,
    show (candidateMove state move dest c).destination = dest from rfl,
    (pieceOf_upper state move hp).2] at hd
  by_cases hw : state.status = GameStatus.WHITE
  · have hd1 : ¬ (boardAt state.board dest = 0
        ∨ boardAt state.board dest ∈ [80, 82, 78, 66, 81, 75]) := by
      simpa [hw, hasSameColor, strchr] using hd
    refine ⟨?_, by simp [hw]⟩
    rintro ⟨-, h⟩
    simp only [strchr, decide_eq_true_eq, List.mem_cons, List.mem_singleton,
      List.not_mem_nil, or_false] at h
    apply hd1
    rcases h with h | h | h | h | h | h <;> simp [h]
  · have hd1 : ¬ (boardAt state.board dest = 0
        ∨ boardAt state.board dest ∈ [112, 114, 110, 98, 113, 107]) := by
      simpa [hw, hasSameColor, strchr] using hd
    refine ⟨by simp [hw], ?_⟩
    rintro ⟨-, h⟩
    simp only [strchr, decide_eq_true_eq, List.mem_cons, List.mem_singleton,
      List.not_mem_nil, or_false] at h
    apply hd1
    rcases h with h | h | h | h | h | h <;> simp [h]

theorem validateMove_unique (move : List Nat) (state : GameState) (sr sc : Bool)
    (dest : Position) (di : Nat) (captures : Bool) (ci : Nat) (c : Position)
    (hp : tokAt move 0 = 75 ∨ tokAt move 0 = 78 ∨ tokAt move 0 = 82 ∨ tokAt move 0 = 66
      ∨ tokAt move 0 = 81)
    (hdest : findDestination move = some (dest, di))
    (hcap : captureScan move dest = some (captures, ci))
    (hking : tolower (boardAt state.board dest) ≠ 107)
    (h2 : 2 ≤ (reaching state move dest).length)
    (hl : legalOrigins state move dest = [c]) :
    (validateMove move state sr sc).ok = true
      ∧ (validateMove move state sr sc).state.move.origin = c := by
  have hg := validateMove_guards move state dest c hp (by rw [hl]; simp)
  have hcf := captureScan_flag move dest captures ci hcap
  subst hcf
  have h79 : tokAt move 0 ≠ 79 := by omega
  have hcol : ¬ (isCol (tokAt move 0 : Nat) = true) := by
    rcases hp with h | h | h | h | h <;> rw [h] <;> decide
  have hstr : strchr [75, 78, 82, 66, 81] (tokAt move 0) = true := by
    rcases hp with h | h | h | h | h <;> rw [h] <;> decide
  unfold validateMove
  dsimp only
  rw [if_neg h79, hdest]
  dsimp only
  rw [if_neg hking, if_neg hg.1, if_neg hg.2, hcap]
  dsimp only
  rw [if_neg hcol, if_pos hstr]
  exact validatePiece_unique move state sr sc dest di c hp h2 hl

theorem validateMove_ambiguous (move : List Nat) (state : GameState) (sr sc : Bool)
    (dest : Position) (di : Nat)
    (hp : tokAt move 0 = 75 ∨ tokAt move 0 = 78 ∨ tokAt move 0 = 82 ∨ tokAt move 0 = 66
      ∨ tokAt move 0 = 81)
    (hdest : findDestination move = some (dest, di))
    (h2 : 2 ≤ (legalOrigins state move dest).length)
    (hd : di ≤ 1 ∨ (isCol (tokAt move 1 : Nat) = false ∧ isRow (tokAt move 1 : Nat) = false)
      ∨ (isCol (tokAt move 1 : Nat) = true ∧ isRow (tokAt move 2 : Nat) = false
        ∧ 2 ≤ ((legalOrigins state move dest).filter
            (fun c => decide (c.col = (tokAt move 1 : Int) - 97))).length)) :
    (validateMove move state sr sc).ok = false := by
  have h79 : tokAt move 0 ≠ 79 := by omega
  have hcol : ¬ (isCol (tokAt move 0 : Nat) = true) := by
    rcases hp with h | h | h | h | h <;> rw [h] <;> decide
  have hstr : strchr [75, 78, 82, 66, 81] (tokAt move 0) = true := by
    rcases hp with h | h | h | h | h <;> rw [h] <;> decide
  unfold validateMove
  dsimp only
  rw [if_neg h79, hdest]
  dsimp only
  split_ifs
  · rfl
  · rfl
  · rfl
  · cases hcap : captureScan move dest with
    | none => rfl
    | some r =>
      obtain ⟨captures, ci⟩ := r
      have hcf := captureScan_flag move dest captures ci hcap
      subst hcf
      exact validatePiece_ambiguous move state sr sc dest di hp h2 hd


theorem boardSet_length (b : Board) (r c : Int) (v : Nat) :
    (boardSet b r c v).length = b.length := by
  unfold boardSet
  split_ifs <;> simp

theorem boardGet_boardSet (b : Board) (r c r1 c1 : Int) (v : Nat) (hb : b.length = 64) :
    boardGet (boardSet b r c v) r1 c1
      = if inBoard r c = true ∧ r = r1 ∧ c = c1 then v else boardGet b r1 c1 := by
  by_cases h : inBoard r c = true
  · by_cases he : r = r1 ∧ c = c1
    · obtain ⟨h1, h2⟩ := he
      subst h1 h2
      have hlt : boardIdx r c < b.length := by
        rw [inBoard_iff] at h
        unfold boardIdx
        omega
      unfold boardGet boardSet
      simp [h, List.getD_eq_getElem?_getD, List.getElem?_set, hlt]
    · rw [if_neg (fun hx => he hx.2)]
      exact boardAt_setAt_other b ⟨r, c⟩ ⟨r1, c1⟩ v he
  · rw [if_neg (fun hx => h hx.1)]
    unfold boardSet
    rw [if_neg h]

/-! ## Loaded positions -/

/-- The literal states of the scenarios are, up to the history of positions, the states
`main` reaches after loading the lines their descriptions name. -/
theorem loadGame_positions :
    (loadGame (token "4k3/8/8/8/6n1/8/6PP/6nK b - - 5 40\n")).map
        (fun s => sameButHistory s knightPosition) = some true
    ∧ (loadGame (token "k7/2n5/1K6/8/5B2/8/8/8 w - - 0 60\n")).map
        (fun s => sameButHistory s beforeBxc7) = some true
    ∧ (loadGame (token "r3k2r/8/8/8/8/8/8/R3K2R b KQkq - 0 1\n")).map
        (fun s => sameButHistory s castleLoaded) = some true
    ∧ (loadGame (token "4r2k/8/8/3q4/8/2N1N3/8/4K3 w - - 0 1\n")).map
        (fun s => sameButHistory s pinnedKnight) = some true
    ∧ (loadGame (token "4k3/8/8/8/8/1N3N2/8/1N2K3 w - - 0 1\n")).map
        (fun s => sameButHistory s threeKnights) = some true := by
  decide!

/-! ## Lines of sight -/

theorem between_nodup (a b : Int) : (between a b).Nodup := by
  unfold between
  refine List.Nodup.map ?_ (List.nodup_range _)
  intro x y h
  simp only at h
  omega

theorem between_length (a b : Int) : (between a b).length = (b - a - 1).toNat := by
  simp [between]

theorem getLineOfSight_false (p q : Position) (l : List Position)
    (h : (getLineOfSight p q l).1 = false) : (getLineOfSight p q l).2 = l := by
  unfold getLineOfSight at h ⊢
  dsimp only at h ⊢
  by_cases h1 : (p.row - q.row).natAbs = (p.col - q.col).natAbs
  · rw [if_pos h1] at h
    exact absurd h (by simp)
  · rw [if_neg h1] at h ⊢
    by_cases h2 : p.row = q.row
    · rw [if_pos h2] at h
      exact absurd h (by simp)
    · rw [if_neg h2] at h ⊢
      by_cases h3 : p.col = q.col
      · rw [if_pos h3] at h
        exact absurd h (by simp)
      · rw [if_neg h3]

theorem getLineOfSight_nodup (p q : Position) : (getLineOfSight p q []).2.Nodup := by
  unfold getLineOfSight
  dsimp only
  by_cases h1 : (p.row - q.row).natAbs = (p.col - q.col).natAbs
  · rw [if_pos h1, List.nil_append]
    refine List.Nodup.map ?_ (between_nodup _ _)
    intro x y h
    exact congrArg Position.row h
  · rw [if_neg h1]
    by_cases h2 : p.row = q.row
    · rw [if_pos h2, List.nil_append]
      refine List.Nodup.map ?_ (between_nodup _ _)
      intro x y h
      exact congrArg Position.col h
    · rw [if_neg h2]
      by_cases h3 : p.col = q.col
      · rw [if_pos h3, List.nil_append]
        refine List.Nodup.map ?_ (between_nodup _ _)
        intro x y h
        exact congrArg Position.row h
      · rw [if_neg h3]
        exact List.nodup_nil

theorem getLineOfSight_length (p q : Position) (hp : inBoard p.row p.col = true)
    (hq : inBoard q.row q.col = true) : (getLineOfSight p q []).2.length ≤ 6 := by
  rw [inBoard_iff] at hp hq
  unfold getLineOfSight
  dsimp only
  split_ifs <;>
    simp only [List.nil_append, List.length_map, between_length, List.length_nil] <;> omega

theorem getLineOfSight_near (p q : Position)
    (h : (p.row - q.row).natAbs ≤ 1 ∧ (p.col - q.col).natAbs ≤ 1) :
    (getLineOfSight p q []).2 = [] := by
  rw [← List.length_eq_zero]
  unfold getLineOfSight
  dsimp only
  split_ifs <;>
    simp only [List.nil_append, List.length_map, between_length, List.length_nil] <;> omega

theorem collinear_symm (p q : Position) : collinear p q ↔ collinear q p := by
  unfold collinear
  constructor <;> (intro h; rcases h with h | h | h <;> omega)

theorem strictlyBetween_symm (p q t : Position) (h : strictlyBetween p q t) :
    strictlyBetween q p t := by
  obtain ⟨dr, dc, k, n, hdr, hdc, hnz, hk, hn, e1, e2, e3, e4⟩ := h
  refine ⟨-dr, -dc, n - k, n, by omega, by omega, by omega, by omega, by omega, ?_, ?_, ?_, ?_⟩
  · rw [e1]; ring
  · rw [e2]; ring
  · rw [e3, e1]; ring
  · rw [e4, e2]; ring

theorem hasClearSight_symm (b : Board) (p q : Position) :
    hasClearSight b p q = hasClearSight b q p := by
  have h : ∀ p q : Position, hasClearSight b p q = true → hasClearSight b q p = true := by
    intro p q h
    rw [hasClearSight_iff] at h ⊢
    exact ⟨(collinear_symm p q).mp h.1, fun t ht => h.2 t (strictlyBetween_symm q p t ht)⟩
  cases h1 : hasClearSight b p q
  · cases h2 : hasClearSight b q p
    · rfl
    · rw [h q p h2] at h1
      exact absurd h1 (by simp)
  · exact (h p q h1).symm

theorem hasClearSight_list (b : Board) (p q : Position) :
    hasClearSight b p q = true ↔
      (getLineOfSight p q []).1 = true
        ∧ ∀ t ∈ (getLineOfSight p q []).2, boardAt b t = SPACE := by
  unfold hasClearSight
  cases hg : getLineOfSight p q [] with
  | mk r l =>
    cases r <;> simp

/-! ## The squares the pawn scan reads -/

theorem pawnAttackers_reads (board : Board) (pos : Position) (isWhite : Bool) (i : Int) :
    pawnAttackers board pos isWhite i
      = (pawnScanReads pos isWhite i).filter
          (fun sq => decide (boardGet board sq.row sq.col = 80 + b2n isWhite * 32)) := by
  unfold pawnAttackers pawnScanReads
  rw [List.filter_map, List.filter_filter]
  congr 1
  apply List.filter_congr
  intro j _
  simp only [Function.comp]
  rw [Bool.and_comm]

/-! ## The legal steps the stalemate scan finds -/

theorem letter_cases (c : Nat) (h : c = SPACE ∨ c ∈ pieceLetters) :
    c = 32 ∨ c = 80 ∨ c = 82 ∨ c = 78 ∨ c = 66 ∨ c = 81 ∨ c = 75 ∨ c = 112 ∨ c = 114
      ∨ c = 110 ∨ c = 98 ∨ c = 113 ∨ c = 107 := by
  simpa [pieceLetters] using h

theorem own_letter (c : Nat) (w : Bool) (h : c = SPACE ∨ c ∈ pieceLetters)
    (ho : hasSameColor c w = true) :
    hasSameColor c true = w ∧ hasSameColor c (!w) = false ∧ c ≠ SPACE ∧ c ≠ 0
      ∧ (toupper c = ROOK ∨ toupper c = BISHOP ∨ toupper c = QUEEN ∨ toupper c = KNIGHT
        ∨ toupper c = KING ∨ toupper c = PAWN)
      ∧ (tolower c = 110 ↔ toupper c = KNIGHT) ∧ (tolower c = 107 ↔ toupper c = KING) := by
  rcases letter_cases c h with h | h | h | h | h | h | h | h | h | h | h | h | h <;>
    subst h <;> cases w <;> revert ho <;> decide

theorem not_own_letter (c : Nat) (w : Bool) (h : c = SPACE ∨ c ∈ pieceLetters)
    (ho : hasSameColor c w = false) :
    c = SPACE ∨ hasSameColor c (!w) = true := by
  rcases letter_cases c h with h | h | h | h | h | h | h | h | h | h | h | h | h <;>
    subst h <;> cases w <;> revert ho <;> decide

theorem foe_not_own (c : Nat) (w : Bool) (h : c = SPACE ∨ c ∈ pieceLetters)
    (hf : c = SPACE ∨ hasSameColor c (!w) = true) :
    hasSameColor c w = false ∧ (c = SPACE ↔ hasSameColor c (!w) = false) := by
  rcases letter_cases c h with h | h | h | h | h | h | h | h | h | h | h | h | h <;>
    subst h <;> cases w <;> revert hf <;> decide

theorem makeMove_step (b : Board) (m : Move)
    (ht : m.type = MoveType.NORMALMOVE ∨ m.type = MoveType.DOUBLEPAWNMOVE) :
    makeMove b m = setAt (setAt b m.origin SPACE) m.destination m.pieceMoved := by
  unfold makeMove
  rcases ht with h | h <;> simp [h]

theorem isPossibleMove_iff (b : Board) (m : Move) (k : KingPosition) :
    (isPossibleMove b m k).1 = true ↔
      ¬ (m.destination.row = m.origin.row ∧ m.destination.col = m.origin.col)
      ∧ hasSameColor (boardAt b m.destination) (hasSameColor m.pieceMoved true) = false
      ∧ ¬ (boardAt b m.destination ≠ SPACE ∧ m.captures = false)
      ∧ ¬ (boardAt b m.destination = SPACE ∧ m.captures = true
            ∧ m.type ≠ MoveType.ENPEASANT)
      ∧ ¬ (toupper m.pieceMoved = PAWN ∧ m.captures = true
            ∧ m.origin.col = m.destination.col)
      ∧ ¬ (tolower m.pieceMoved ≠ 110
            ∧ hasClearSight b m.origin m.destination = false)
      ∧ (isInCheck (makeMove b m)
          (if tolower m.pieceMoved = 107 then m.destination else getRegPos k)
          (hasSameColor m.pieceMoved true) m []).2 = [] := by
  unfold isPossibleMove
  dsimp only
  by_cases h1 : m.destination.row = m.origin.row ∧ m.destination.col = m.origin.col
  · simp [h1]
  rw [if_neg h1]
  by_cases h2 : hasSameColor (boardAt b m.destination) (hasSameColor m.pieceMoved true) = true
  · simp [h2]
  rw [if_neg h2]
  by_cases h3 : boardAt b m.destination ≠ SPACE ∧ m.captures = false
  · simp [h3]
  rw [if_neg h3]
  by_cases h4 : boardAt b m.destination = SPACE ∧ m.captures = true
      ∧ m.type ≠ MoveType.ENPEASANT
  · rw [if_pos h4]
    simp only [Bool.false_eq_true, false_iff]
    intro hc
    exact hc.2.2.2.1 h4
  rw [if_neg h4]
  by_cases h5 : toupper m.pieceMoved = PAWN ∧ m.captures = true
      ∧ m.origin.col = m.destination.col
  · rw [if_pos h5]
    simp only [Bool.false_eq_true, false_iff]
    intro hc
    exact hc.2.2.2.2.1 h5
  rw [if_neg h5]
  by_cases h6 : tolower m.pieceMoved ≠ 110
      ∧ hasClearSight b m.origin m.destination = false
  · rw [if_pos h6]
    simp only [Bool.false_eq_true, false_iff]
    intro hc
    exact hc.2.2.2.2.2.1 h6
  rw [if_neg h6]
  simp only [decide_eq_true_eq, List.length_eq_zero]
  have h2' : hasSameColor (boardAt b m.destination) (hasSameColor m.pieceMoved true) = false := by
    simpa using h2
  exact ⟨fun h => ⟨h1, h2', h3, h4, h5, h6, h⟩, fun h => h.2.2.2.2.2.2⟩

theorem searchWith_iff (pt : Nat) (pos dest : Position) (piece : Nat) (b : Board)
    (cands : List Position) (k : KingPosition) :
    (searchWith isPossibleMove pt SearchType.ISLEGALMOVE pos dest piece (b, cands) k).1 = true ↔
      comparePositions pos dest = false
      ∧ (pt = KNIGHT ∨ pt = KING ∨ hasClearSight b pos dest = true)
      ∧ (isPossibleMove b
          ⟨if pt = PAWN ∧ (pos.row - dest.row).natAbs = 2 then MoveType.DOUBLEPAWNMOVE
            else MoveType.NORMALMOVE, pos, dest, piece,
            hasSameColor (boardAt b dest) (!hasSameColor piece true)
              || decide (pt = PAWN ∧ (pos.col - dest.col).natAbs = 1), SPACE⟩ k).1 = true := by
  unfold searchWith
  dsimp only
  by_cases h1 : comparePositions pos dest = true
  · simp [h1]
  rw [if_neg h1]
  have h1' : comparePositions pos dest = false := by simpa using h1
  by_cases h2 : (if pt = KNIGHT ∨ pt = KING then true else hasClearSight b pos dest) = true
      ∧ hasSameColor (boardAt b dest) (hasSameColor piece true) = false
  · rw [if_pos h2]
    refine ⟨fun h => ⟨h1', ?_, h⟩, fun h => h.2.2⟩
    have h3 := h2.1
    by_cases hk : pt = KNIGHT ∨ pt = KING
    · rcases hk with hk | hk
      · exact Or.inl hk
      · exact Or.inr (Or.inl hk)
    · rw [if_neg hk] at h3
      exact Or.inr (Or.inr h3)
  · rw [if_neg h2]
    simp only [Bool.false_eq_true, false_iff]
    rintro ⟨-, hs, hp⟩
    apply h2
    refine ⟨?_, ?_⟩
    · by_cases hk : pt = KNIGHT ∨ pt = KING
      · rw [if_pos hk]
      · rw [if_neg hk]
        rcases hs with hs | hs | hs
        · exact absurd (Or.inl hs) hk
        · exact absurd (Or.inr hs) hk
        · exact hs
    · exact isPossibleMove_true_dest b _ k hp

theorem searchBoard_iff (pt : Nat) (pos : Position) (piece : Nat) (b : Board)
    (k : KingPosition) (hp : boardAt b pos = piece) :
    (searchBoard pt SearchType.ISLEGALMOVE pos piece (b, []) k).1 = true ↔
      (pt = ROOK ∧ ∃ d ∈ rookDests pos,
          (searchWith isPossibleMove ROOK SearchType.ISLEGALMOVE pos d piece (b, []) k).1 = true)
      ∨ (pt = KNIGHT ∧ ∃ d ∈ knightDests pos,
          (searchWith isPossibleMove KNIGHT SearchType.ISLEGALMOVE pos d piece (b, []) k).1 = true)
      ∨ (pt = BISHOP ∧ ∃ d ∈ bishopDests pos,
          (searchWith isPossibleMove BISHOP SearchType.ISLEGALMOVE pos d piece (b, []) k).1 = true)
      ∨ (pt = QUEEN ∧ ((∃ d ∈ rookDests pos,
          (searchWith isPossibleMove ROOK SearchType.ISLEGALMOVE pos d piece (b, []) k).1 = true)
        ∨ ∃ d ∈ bishopDests pos,
          (searchWith isPossibleMove BISHOP SearchType.ISLEGALMOVE pos d piece (b, []) k).1 = true))
      ∨ (pt = KING ∧ ∃ d ∈ kingDests pos,
          (searchWith isPossibleMove KING SearchType.ISLEGALMOVE pos d piece (b, []) k).1 = true)
      ∨ (pt = PAWN ∧ ∃ d ∈ pawnDests pos (hasSameColor piece true),
          (searchWith isPossibleMove PAWN SearchType.ISLEGALMOVE pos d piece (b, []) k).1 = true) := by
  have key : ∀ (pt1 : Nat) (dests : List Position),
      (scan (fun d s1 => searchWith isPossibleMove pt1 SearchType.ISLEGALMOVE pos d piece s1 k)
          dests (b, [])).2 = (b, [])
      ∧ ((scan (fun d s1 => searchWith isPossibleMove pt1 SearchType.ISLEGALMOVE pos d piece s1 k)
          dests (b, [])).1 = true ↔ ∃ d ∈ dests,
            (searchWith isPossibleMove pt1 SearchType.ISLEGALMOVE pos d piece (b, []) k).1
              = true) := fun pt1 dests =>
    scan_fixed _ dests (b, [])
      (fun d _ => searchWith_legal_state pt1 pos d piece b [] k hp)
  unfold searchBoard searchBoardWith
  dsimp only
  by_cases h1 : pt = ROOK
  · subst h1
    rw [if_pos rfl, (key _ _).2]
    simp [ROOK, KNIGHT, BISHOP, QUEEN, KING, PAWN]
  rw [if_neg h1]
  by_cases h2 : pt = KNIGHT
  · subst h2
    rw [if_pos rfl, (key _ _).2]
    simp [ROOK, KNIGHT, BISHOP, QUEEN, KING, PAWN]
  rw [if_neg h2]
  by_cases h3 : pt = BISHOP
  · subst h3
    rw [if_pos rfl, (key _ _).2]
    simp [ROOK, KNIGHT, BISHOP, QUEEN, KING, PAWN]
  rw [if_neg h3]
  by_cases h4 : pt = QUEEN
  · subst h4
    rw [if_pos rfl]
    have hr := key ROOK (rookDests pos)
    have hb := key BISHOP (bishopDests pos)
    simp only [ROOK, KNIGHT, BISHOP, QUEEN, KING, PAWN, Nat.reduceEqDiff, false_and, false_or,
      true_and, or_false] at hr hb ⊢
    split
    · rename_i s1 hs
      rw [hs] at hr
      simp only [true_iff] at hr ⊢
      exact Or.inl hr.2
    · rename_i s1 hs
      rw [hs] at hr
      simp only [Bool.false_eq_true, false_iff] at hr
      rw [hr.1, hb.2]
      constructor
      · intro h
        exact Or.inr h
      · rintro (h | h)
        · exact absurd h hr.2
        · exact h
  rw [if_neg h4]
  by_cases h5 : pt = KING
  · subst h5
    rw [if_pos rfl, (key _ _).2]
    simp [ROOK, KNIGHT, BISHOP, QUEEN, KING, PAWN]
  rw [if_neg h5]
  by_cases h6 : pt = PAWN
  · subst h6
    rw [if_pos rfl, (key _ _).2]
    simp [ROOK, KNIGHT, BISHOP, QUEEN, KING, PAWN]
  rw [if_neg h6]
  simp [h1, h2, h3, h4, h5, h6]

theorem wellFormed_length (b : Board) (h : wellFormed b) : 64 ≤ b.length := by
  have h7 := h ⟨7, 7⟩ (by rw [mem_allSquares]; decide)
  by_contra hl
  have h0 : boardAt b ⟨7, 7⟩ = 0 := by
    unfold boardAt boardGet
    simp [inBoard, boardIdx, OUT, List.getD_eq_getElem?_getD,
      List.getElem?_eq_none (by omega : b.length ≤ 63)]
  rw [h0] at h7
  revert h7
  decide

theorem getRegPos_inBoard (k : KingPosition) :
    inBoard (getRegPos k).row (getRegPos k).col = true := by
  rw [inBoard_iff]
  unfold getRegPos
  have h1 := k.row.isLt
  have h2 := k.col.isLt
  simp only
  omega

theorem boardAt_setAt_same (b : Board) (p : Position) (v : Nat)
    (hp : inBoard p.row p.col = true) (hl : 64 ≤ b.length) :
    boardAt (setAt b p v) p = v := by
  have hlt : boardIdx p.row p.col < b.length := by
    rw [inBoard_iff] at hp
    unfold boardIdx
    omega
  unfold boardAt boardGet setAt boardSet
  simp [hp, List.getD_eq_getElem?_getD, List.getElem?_set, hlt]

theorem boardAt_afterStep (b : Board) (p d t : Position)
    (hd : inBoard d.row d.col = true) (hp : inBoard p.row p.col = true)
    (hl : 64 ≤ b.length) :
    boardAt (afterStep b p d) t =
      if t = d then boardAt b p else if t = p then SPACE else boardAt b t := by
  unfold afterStep
  by_cases h1 : t = d
  · subst h1
    rw [if_pos rfl]
    apply boardAt_setAt_same _ _ _ hd
    unfold setAt
    rw [boardSet_length]
    exact hl
  · rw [if_neg h1, boardAt_setAt_other _ _ _ _
      (fun h => h1 ((position_eq_iff t d).2 ⟨h.1.symm, h.2.symm⟩))]
    by_cases h2 : t = p
    · subst h2
      rw [if_pos rfl]
      exact boardAt_setAt_same _ _ _ hp hl
    · rw [if_neg h2, boardAt_setAt_other _ _ _ _
        (fun h => h2 ((position_eq_iff t p).2 ⟨h.1.symm, h.2.symm⟩))]

theorem probe_safe_iff (b : Board) (k : KingPosition) (w : Bool) (p d : Position)
    (ty : MoveType) (cap : Bool)
    (hty : ty = MoveType.NORMALMOVE ∨ ty = MoveType.DOUBLEPAWNMOVE)
    (hk : tolower (boardAt b p) = 107 ↔ toupper (boardAt b p) = KING)
    (hd : inBoard d.row d.col = true)
    (hprev : ¬ (ty = MoveType.DOUBLEPAWNMOVE ∧ d = kingAfter b k p d)) :
    (isInCheck (makeMove b ⟨ty, p, d, boardAt b p, cap, SPACE⟩)
        (if tolower (boardAt b p) = 107 then d else getRegPos k) w
        ⟨ty, p, d, boardAt b p, cap, SPACE⟩ []).2 = []
      ↔ unattacked (afterStep b p d) w (kingAfter b k p d) := by
  have hpos : (if tolower (boardAt b p) = 107 then d else getRegPos k) = kingAfter b k p d := by
    unfold kingAfter
    by_cases h : tolower (boardAt b p) = 107
    · rw [if_pos h, if_pos (hk.1 h)]
    · rw [if_neg h, if_neg (fun h1 => h (hk.2 h1))]
  have hin : inBoard (kingAfter b k p d).row (kingAfter b k p d).col = true := by
    unfold kingAfter
    split_ifs
    · exact hd
    · exact getRegPos_inBoard k
  rw [hpos, makeMove_step _ _ hty]
  change (isInCheck (afterStep b p d) _ _ _ []).2 = [] ↔ _
  rw [List.eq_nil_iff_forall_not_mem]
  unfold unattacked
  constructor
  · intro h sq hs
    exact h sq ((isInCheck_spec _ _ _ _ hin hprev sq).2 hs)
  · intro h sq hs
    exact h sq ((isInCheck_spec _ _ _ _ hin hprev sq).1 hs)

theorem freeOrFoe_iff (b : Board) (w : Bool) (d : Position) (hb : wellFormed b)
    (hd : inBoard d.row d.col = true) :
    hasSameColor (boardAt b d) w = false ↔ freeOrFoe b w d := by
  have hl := hb d ((mem_allSquares d).2 hd)
  constructor
  · intro h
    exact not_own_letter _ _ hl h
  · intro h
    exact (foe_not_own _ _ hl h).1

theorem comparePositions_false (p d : Position) : comparePositions p d = false ↔ p ≠ d := by
  unfold comparePositions
  rw [decide_eq_false_iff_not, ne_eq, position_eq_iff]
  constructor
  · intro h hc
    exact h ⟨hc.2, hc.1⟩
  · intro h hc
    exact h ⟨hc.2, hc.1⟩

theorem freeOrFoe_ne (b : Board) (w : Bool) (p d : Position) (hb : wellFormed b)
    (hp : inBoard p.row p.col = true) (ho : hasSameColor (boardAt b p) w = true)
    (hf : freeOrFoe b w d) : p ≠ d := by
  intro h
  subst h
  have hl := hb p ((mem_allSquares p).2 hp)
  have h1 := (foe_not_own _ _ hl hf).1
  rw [ho] at h1
  exact absurd h1 (by simp)

theorem found_piece (b : Board) (k : KingPosition) (w : Bool) (pt : Nat) (p d : Position)
    (hb : wellFormed b) (hp : inBoard p.row p.col = true) (hd : inBoard d.row d.col = true)
    (ho : hasSameColor (boardAt b p) w = true)
    (hn : toupper (boardAt b p) ≠ PAWN) (hpt : pt ≠ PAWN) :
    (searchWith isPossibleMove pt SearchType.ISLEGALMOVE p d (boardAt b p) (b, []) k).1 = true ↔
      freeOrFoe b w d
      ∧ (pt = KNIGHT ∨ pt = KING ∨ hasClearSight b p d = true)
      ∧ (toupper (boardAt b p) = KNIGHT ∨ hasClearSight b p d = true)
      ∧ unattacked (afterStep b p d) w (kingAfter b k p d) := by
  have hlp := hb p ((mem_allSquares p).2 hp)
  have hld := hb d ((mem_allSquares d).2 hd)
  obtain ⟨hw, -, -, -, -, hkn, hkg⟩ := own_letter _ _ hlp ho
  rw [searchWith_iff, isPossibleMove_iff]
  simp only [hpt, false_and, if_false, decide_False, Bool.or_false, hw, hn]
  rw [probe_safe_iff b k w p d MoveType.NORMALMOVE _ (Or.inl rfl) hkg hd
    (fun h => MoveType.noConfusion h.1)]
  rw [freeOrFoe_iff b w d hb hd, comparePositions_false]
  constructor
  · rintro ⟨-, hs, -, hf, -, -, -, h6, h7⟩
    refine ⟨hf, hs, ?_, h7⟩
    by_cases hkk : toupper (boardAt b p) = KNIGHT
    · exact Or.inl hkk
    · right
      by_contra hc
      exact h6 ⟨fun h => hkk (hkn.1 h), by simpa using hc⟩
  · rintro ⟨hf, hs, h6, h7⟩
    have hfo := foe_not_own _ w hld hf
    have hne := freeOrFoe_ne b w p d hb hp ho hf
    refine ⟨hne, hs, ?_, hf, ?_, ?_, ?_, ?_, h7⟩
    · intro hc
      exact hne ((position_eq_iff p d).2 ⟨hc.1.symm, hc.2.symm⟩)
    · rintro ⟨h1, h2⟩
      exact h1 (hfo.2.2 h2)
    · rintro ⟨h1, h2, -⟩
      have := hfo.2.1 h1
      rw [h2] at this
      exact absurd this (by simp)
    · exact fun h => h
    · rintro ⟨h1, h2⟩
      rcases h6 with h6 | h6
      · exact h1 (hkn.2 h6)
      · rw [h6] at h2
        exact absurd h2 (by simp)

theorem mem_pawnDests (pos sq : Position) (w : Bool)
    (hpos : inBoard pos.row pos.col = true) :
    sq ∈ pawnDests pos w ↔ inBoard sq.row sq.col = true
      ∧ ((sq.row = pos.row + 2 * forward w ∧ sq.col = pos.col)
        ∨ (sq.row = pos.row + forward w ∧ (sq.col - pos.col).natAbs ≤ 1)) := by
  rw [inBoard_iff] at hpos ⊢
  cases w <;>
  simp only [pawnDests, forward, b2i, List.mem_filter, List.flatMap_cons, List.flatMap_nil,
    List.map_cons, List.map_nil, List.append_nil, List.cons_append, List.nil_append,
    List.mem_cons, List.mem_singleton, List.not_mem_nil, or_false, position_eq_iff, isRow,
    isCol, isKnightMove, Bool.and_eq_true, decide_eq_true_eq, Bool.not_eq_true',
    decide_eq_false_iff_not, if_true, if_false, Bool.false_eq_true] <;>
  constructor <;>
  · intro h
    omega

theorem hasClearSight_near (b : Board) (p d : Position)
    (h : (p.row - d.row).natAbs ≤ 1 ∧ (p.col - d.col).natAbs ≤ 1) :
    hasClearSight b p d = true := by
  rw [hasClearSight_iff]
  refine ⟨?_, ?_⟩
  · unfold collinear
    omega
  · rintro t ⟨dr, dc, k, n, hdr, hdc, hz, hk, hn, h1, h2, -, -⟩
    exfalso
    rcases hdr with rfl | rfl | rfl <;> rcases hdc with rfl | rfl | rfl <;> omega

theorem hasClearSight_two (b : Board) (p d : Position) (f : Int) (hf : f = 1 ∨ f = -1)
    (hr : d.row = p.row + 2 * f) (hc : d.col = p.col) :
    hasClearSight b p d = true ↔ boardAt b ⟨p.row + f, p.col⟩ = SPACE := by
  rw [hasClearSight_iff]
  constructor
  · rintro ⟨-, h⟩
    apply h
    refine ⟨f, 0, 1, 2, ?_, Or.inr (Or.inl rfl), ?_, by decide, by decide, ?_, ?_, ?_, ?_⟩
    · rcases hf with rfl | rfl <;> simp
    · rcases hf with rfl | rfl <;> simp
    · omega
    · omega
    · simp
    · simp
  · intro h
    refine ⟨Or.inr (Or.inr hc.symm), ?_⟩
    rintro t ⟨dr, dc, k, n, hdr, hdc, hz, hk, hn, h1, h2, h3, h4⟩
    have ht : t = ⟨p.row + f, p.col⟩ := by
      rw [position_eq_iff]
      simp only
      rcases hf with rfl | rfl <;> rcases hdr with rfl | rfl | rfl <;>
        rcases hdc with rfl | rfl | rfl <;> omega
    rw [ht]
    exact h

theorem found_pawn (b : Board) (k : KingPosition) (w : Bool) (p d : Position)
    (hb : wellFormed b) (hking : toupper (boardAt b (getRegPos k)) = KING)
    (hp : inBoard p.row p.col = true) (hd : inBoard d.row d.col = true)
    (ho : hasSameColor (boardAt b p) w = true)
    (hpawn : toupper (boardAt b p) = PAWN)
    (hgeo : (d.row = p.row + 2 * forward w ∧ d.col = p.col)
      ∨ (d.row = p.row + forward w ∧ (d.col - p.col).natAbs ≤ 1)) :
    (searchWith isPossibleMove PAWN SearchType.ISLEGALMOVE p d (boardAt b p) (b, []) k).1 = true ↔
      ((d.row = p.row + forward w ∧ d.col = p.col ∧ boardAt b d = SPACE)
        ∨ (d.row = p.row + forward w ∧ (d.col - p.col).natAbs = 1
            ∧ hasSameColor (boardAt b d) (!w) = true)
        ∨ (d.row = p.row + 2 * forward w ∧ d.col = p.col
            ∧ boardAt b ⟨p.row + forward w, p.col⟩ = SPACE ∧ boardAt b d = SPACE))
      ∧ unattacked (afterStep b p d) w (kingAfter b k p d) := by
  have hlp := hb p ((mem_allSquares p).2 hp)
  have hld := hb d ((mem_allSquares d).2 hd)
  obtain ⟨hw, -, -, -, -, hkn, hkg⟩ := own_letter _ _ hlp ho
  have hf : forward w = 1 ∨ forward w = -1 := by cases w <;> simp [forward]
  have hnk : ¬ tolower (boardAt b p) = 110 := fun h => by
    have := hkn.1 h
    rw [hpawn] at this
    exact absurd this (by decide)
  have hnking : ¬ toupper (boardAt b p) = KING := by
    rw [hpawn]
    decide
  have hka : kingAfter b k p d = getRegPos k := by
    unfold kingAfter
    rw [if_neg hnking]
  have hspace : boardAt b d = SPACE → d ≠ getRegPos k := by
    intro h hc
    rw [hc] at h
    rw [h] at hking
    revert hking
    decide
  have hfree : hasSameColor (boardAt b d) w = false ↔ freeOrFoe b w d :=
    freeOrFoe_iff b w d hb hd
  have hfoe : freeOrFoe b w d →
      (boardAt b d = SPACE ↔ hasSameColor (boardAt b d) (!w) = false) :=
    fun h => (foe_not_own _ w hld h).2
  have hpk : ¬ PAWN = KNIGHT := by decide
  have hpg : ¬ PAWN = KING := by decide
  have hne : MoveType.NORMALMOVE ≠ MoveType.ENPEASANT := fun h => MoveType.noConfusion h
  have hde : MoveType.DOUBLEPAWNMOVE ≠ MoveType.ENPEASANT := fun h => MoveType.noConfusion h
  rw [searchWith_iff, isPossibleMove_iff]
  simp only [hw, hpawn, true_and, comparePositions_false, hfree, hpk, hpg, false_or, hnk,
    not_false_eq_true, ne_eq]
  rcases hgeo with ⟨hr, hc⟩ | ⟨hr, hc⟩
  · have hty : (p.row - d.row).natAbs = 2 := by omega
    have hcap : ¬ (p.col - d.col).natAbs = 1 := by omega
    simp only [hty, if_true, hcap, decide_False, Bool.or_false, hde, not_false_eq_true,
      and_true]
    rw [hasClearSight_two b p d (forward w) hf hr hc]
    have hprev : boardAt b d = SPACE → ¬ (MoveType.DOUBLEPAWNMOVE = MoveType.DOUBLEPAWNMOVE
        ∧ d = kingAfter b k p d) := by
      intro hds h
      rw [hka] at h
      exact hspace hds h.2
    constructor
    · rintro ⟨-, hm, -, hfr, -, -, h5, -, h7⟩
      have hds : boardAt b d = SPACE := by
        by_contra hx
        apply h5
        refine ⟨?_, hc.symm⟩
        by_contra hy
        exact hx ((hfoe hfr).2 (by simpa using hy))
      refine ⟨Or.inr (Or.inr ⟨hr, hc, hm, hds⟩), ?_⟩
      exact (probe_safe_iff b k w p d MoveType.DOUBLEPAWNMOVE _ (Or.inr rfl) hkg hd
        (hprev hds)).1 h7
    · rintro ⟨h | h | ⟨-, -, hm, hds⟩, h7⟩
      · exfalso
        omega
      · exfalso
        omega
      · have hnf : hasSameColor (boardAt b d) (!w) = false := (hfoe (Or.inl hds)).1 hds
        refine ⟨?_, hm, by omega, Or.inl hds, fun h => h.1 hds, ?_, ?_, ?_, ?_⟩
        · intro h
          subst h
          omega
        · rintro ⟨-, h⟩
          rw [hnf] at h
          exact absurd h (by simp)
        · rintro ⟨h, -⟩
          rw [hnf] at h
          exact absurd h (by simp)
        · rw [(hasClearSight_two b p d (forward w) hf hr hc).2 hm]
          simp
        · exact (probe_safe_iff b k w p d MoveType.DOUBLEPAWNMOVE _ (Or.inr rfl) hkg hd
            (hprev hds)).2 h7
  · have hty : ¬ (p.row - d.row).natAbs = 2 := by omega
    have hs : hasClearSight b p d = true := hasClearSight_near b p d (by omega)
    simp only [hty, if_false, hs, hne, not_false_eq_true, and_true, Bool.true_eq_false,
      not_true_eq_false, true_and]
    have hsafe := fun (cap : Bool) =>
      probe_safe_iff b k w p d MoveType.NORMALMOVE cap (Or.inl rfl) hkg hd
        (fun h => MoveType.noConfusion h.1)
    by_cases hcol : d.col = p.col
    · have hcap : ¬ (p.col - d.col).natAbs = 1 := by omega
      simp only [hcap, decide_False, Bool.or_false]
      constructor
      · rintro ⟨-, -, hfr, -, -, h5, h7⟩
        have hds : boardAt b d = SPACE := by
          by_contra hx
          apply h5
          refine ⟨?_, hcol.symm⟩
          by_contra hy
          exact hx ((hfoe hfr).2 (by simpa using hy))
        exact ⟨Or.inl ⟨hr, hcol, hds⟩, (hsafe _).1 h7⟩
      · rintro ⟨⟨-, -, hds⟩ | ⟨-, h, -⟩ | ⟨h, -⟩, h7⟩
        · have hnf : hasSameColor (boardAt b d) (!w) = false := (hfoe (Or.inl hds)).1 hds
          refine ⟨?_, by omega, Or.inl hds, fun h => h.1 hds, ?_, ?_, (hsafe _).2 h7⟩
          · intro h
            subst h
            omega
          · rintro ⟨-, h⟩
            rw [hnf] at h
            exact absurd h (by simp)
          · rintro ⟨h, -⟩
            rw [hnf] at h
            exact absurd h (by simp)
        · exfalso
          omega
        · exfalso
          omega
    · have hcap : (p.col - d.col).natAbs = 1 := by omega
      simp only [hcap, decide_True, Bool.or_true]
      constructor
      · rintro ⟨-, -, hfr, -, h4, -, h7⟩
        have hfo : hasSameColor (boardAt b d) (!w) = true := by
          rcases hfr with hfr | hfr
          · exact absurd ⟨hfr, trivial⟩ h4
          · exact hfr
        exact ⟨Or.inr (Or.inl ⟨hr, by omega, hfo⟩), (hsafe _).1 h7⟩
      · rintro ⟨⟨-, h, -⟩ | ⟨-, -, hfo⟩ | ⟨h, -⟩, h7⟩
        · exact absurd h hcol
        · have hns : ¬ boardAt b d = SPACE := by
            intro h
            have := (hfoe (Or.inl h)).1 h
            rw [hfo] at this
            exact absurd this (by simp)
          refine ⟨?_, by omega, Or.inr hfo, ?_, fun h => hns h.1, by omega, (hsafe _).2 h7⟩
          · intro h
            subst h
            omega
          · rintro ⟨-, h⟩
            exact absurd h (by simp)
        · exfalso
          omega
theorem found_slide (b : Board) (k : KingPosition) (w : Bool) (pt : Nat) (p d : Position)
    (hb : wellFormed b) (hp : inBoard p.row p.col = true) (hd : inBoard d.row d.col = true)
    (ho : hasSameColor (boardAt b p) w = true)
    (hn : toupper (boardAt b p) ≠ PAWN) (hkn : toupper (boardAt b p) ≠ KNIGHT)
    (hpt : pt = ROOK ∨ pt = BISHOP) :
    (searchWith isPossibleMove pt SearchType.ISLEGALMOVE p d (boardAt b p) (b, []) k).1 = true ↔
      freeOrFoe b w d ∧ collinear p d ∧ clearBetween b p d
        ∧ unattacked (afterStep b p d) w (kingAfter b k p d) := by
  have h1 : pt ≠ PAWN := by rcases hpt with h | h <;> rw [h] <;> decide
  have h2 : pt ≠ KNIGHT := by rcases hpt with h | h <;> rw [h] <;> decide
  have h3 : pt ≠ KING := by rcases hpt with h | h <;> rw [h] <;> decide
  rw [found_piece b k w pt p d hb hp hd ho hn h1]
  simp only [h2, h3, hkn, false_or, hasClearSight_iff]
  unfold clearBetween
  constructor
  · rintro ⟨hf, hs, -, hu⟩
    exact ⟨hf, hs.1, hs.2, hu⟩
  · rintro ⟨hf, hc, hs, hu⟩
    exact ⟨hf, ⟨hc, hs⟩, ⟨hc, hs⟩, hu⟩

theorem steps_rook (b : Board) (k : KingPosition) (w : Bool) (p : Position)
    (hb : wellFormed b) (hp : inBoard p.row p.col = true)
    (ho : hasSameColor (boardAt b p) w = true) (hk : toupper (boardAt b p) = ROOK) :
    (∃ d ∈ rookDests p,
        (searchWith isPossibleMove ROOK SearchType.ISLEGALMOVE p d (boardAt b p) (b, []) k).1
          = true) ↔
      ∃ d, inBoard d.row d.col = true ∧ (plainStep b w p d ∨ doubleStep b w p d)
        ∧ unattacked (afterStep b p d) w (kingAfter b k p d) := by
  have hn : toupper (boardAt b p) ≠ PAWN := by rw [hk]; decide
  have hkn : toupper (boardAt b p) ≠ KNIGHT := by rw [hk]; decide
  apply exists_congr
  intro d
  rw [mem_rookDests p d hp]
  constructor
  · rintro ⟨⟨hd, hg⟩, hfd⟩
    rw [found_slide b k w ROOK p d hb hp hd ho hn hkn (Or.inl rfl)] at hfd
    obtain ⟨hf, -, hc, hu⟩ := hfd
    refine ⟨hd, Or.inl (Or.inl ⟨hk, ?_, hc, hf⟩), hu⟩
    rcases hg with h | h
    · exact Or.inl h.symm
    · exact Or.inr h.symm
  · rintro ⟨hd, hstep, hu⟩
    unfold plainStep doubleStep at hstep
    rcases hstep with (⟨-, hg, hc, hf⟩ | ⟨h, -⟩ | ⟨h, -⟩ | ⟨h, -⟩ | ⟨h, -⟩ | ⟨h, -⟩ | ⟨h, -⟩)
      | ⟨h, -⟩
    · refine ⟨⟨hd, ?_⟩, ?_⟩
      · rcases hg with h | h
        · exact Or.inl h.symm
        · exact Or.inr h.symm
      · rw [found_slide b k w ROOK p d hb hp hd ho hn hkn (Or.inl rfl)]
        exact ⟨hf, Or.inr hg, hc, hu⟩
    all_goals exact absurd (hk.symm.trans h) (by decide)

theorem steps_bishop (b : Board) (k : KingPosition) (w : Bool) (p : Position)
    (hb : wellFormed b) (hp : inBoard p.row p.col = true)
    (ho : hasSameColor (boardAt b p) w = true) (hk : toupper (boardAt b p) = BISHOP) :
    (∃ d ∈ bishopDests p,
        (searchWith isPossibleMove BISHOP SearchType.ISLEGALMOVE p d (boardAt b p) (b, []) k).1
          = true) ↔
      ∃ d, inBoard d.row d.col = true ∧ (plainStep b w p d ∨ doubleStep b w p d)
        ∧ unattacked (afterStep b p d) w (kingAfter b k p d) := by
  have hn : toupper (boardAt b p) ≠ PAWN := by rw [hk]; decide
  have hkn : toupper (boardAt b p) ≠ KNIGHT := by rw [hk]; decide
  apply exists_congr
  intro d
  rw [mem_bishopDests p d hp]
  constructor
  · rintro ⟨⟨hd, hg⟩, hfd⟩
    rw [found_slide b k w BISHOP p d hb hp hd ho hn hkn (Or.inr rfl)] at hfd
    obtain ⟨hf, -, hc, hu⟩ := hfd
    exact ⟨hd, Or.inl (Or.inr (Or.inl ⟨hk, by omega, hc, hf⟩)), hu⟩
  · rintro ⟨hd, hstep, hu⟩
    unfold plainStep doubleStep at hstep
    rcases hstep with (⟨h, -⟩ | ⟨-, hg, hc, hf⟩ | ⟨h, -⟩ | ⟨h, -⟩ | ⟨h, -⟩ | ⟨h, -⟩ | ⟨h, -⟩)
      | ⟨h, -⟩
    · exact absurd (hk.symm.trans h) (by decide)
    · refine ⟨⟨hd, by omega⟩, ?_⟩
      rw [found_slide b k w BISHOP p d hb hp hd ho hn hkn (Or.inr rfl)]
      exact ⟨hf, Or.inl hg, hc, hu⟩
    all_goals exact absurd (hk.symm.trans h) (by decide)

theorem steps_queen (b : Board) (k : KingPosition) (w : Bool) (p : Position)
    (hb : wellFormed b) (hp : inBoard p.row p.col = true)
    (ho : hasSameColor (boardAt b p) w = true) (hk : toupper (boardAt b p) = QUEEN) :
    ((∃ d ∈ rookDests p,
        (searchWith isPossibleMove ROOK SearchType.ISLEGALMOVE p d (boardAt b p) (b, []) k).1
          = true)
      ∨ ∃ d ∈ bishopDests p,
        (searchWith isPossibleMove BISHOP SearchType.ISLEGALMOVE p d (boardAt b p) (b, []) k).1
          = true) ↔
      ∃ d, inBoard d.row d.col = true ∧ (plainStep b w p d ∨ doubleStep b w p d)
        ∧ unattacked (afterStep b p d) w (kingAfter b k p d) := by
  have hn : toupper (boardAt b p) ≠ PAWN := by rw [hk]; decide
  have hkn : toupper (boardAt b p) ≠ KNIGHT := by rw [hk]; decide
  constructor
  · rintro (⟨d, hm, hfd⟩ | ⟨d, hm, hfd⟩)
    · rw [mem_rookDests p d hp] at hm
      obtain ⟨hd, hg⟩ := hm
      rw [found_slide b k w ROOK p d hb hp hd ho hn hkn (Or.inl rfl)] at hfd
      obtain ⟨hf, -, hc, hu⟩ := hfd
      refine ⟨d, hd, Or.inl (Or.inr (Or.inr (Or.inl ⟨hk, ?_, hc, hf⟩))), hu⟩
      rcases hg with h | h
      · exact Or.inl h.symm
      · exact Or.inr (Or.inl h.symm)
    · rw [mem_bishopDests p d hp] at hm
      obtain ⟨hd, hg⟩ := hm
      rw [found_slide b k w BISHOP p d hb hp hd ho hn hkn (Or.inr rfl)] at hfd
      obtain ⟨hf, -, hc, hu⟩ := hfd
      exact ⟨d, hd, Or.inl (Or.inr (Or.inr (Or.inl
        ⟨hk, Or.inr (Or.inr (by omega)), hc, hf⟩))), hu⟩
  · rintro ⟨d, hd, hstep, hu⟩
    unfold plainStep doubleStep at hstep
    rcases hstep with (⟨h, -⟩ | ⟨h, -⟩ | ⟨-, hg, hc, hf⟩ | ⟨h, -⟩ | ⟨h, -⟩ | ⟨h, -⟩ | ⟨h, -⟩)
      | ⟨h, -⟩
    · exact absurd (hk.symm.trans h) (by decide)
    · exact absurd (hk.symm.trans h) (by decide)
    · rcases hg with hg | hg | hg
      · refine Or.inl ⟨d, (mem_rookDests p d hp).2 ⟨hd, Or.inl hg.symm⟩, ?_⟩
        rw [found_slide b k w ROOK p d hb hp hd ho hn hkn (Or.inl rfl)]
        exact ⟨hf, Or.inr (Or.inl hg), hc, hu⟩
      · refine Or.inl ⟨d, (mem_rookDests p d hp).2 ⟨hd, Or.inr hg.symm⟩, ?_⟩
        rw [found_slide b k w ROOK p d hb hp hd ho hn hkn (Or.inl rfl)]
        exact ⟨hf, Or.inr (Or.inr hg), hc, hu⟩
      · refine Or.inr ⟨d, (mem_bishopDests p d hp).2 ⟨hd, by omega⟩, ?_⟩
        rw [found_slide b k w BISHOP p d hb hp hd ho hn hkn (Or.inr rfl)]
        exact ⟨hf, Or.inl hg, hc, hu⟩
    all_goals exact absurd (hk.symm.trans h) (by decide)

theorem steps_knight (b : Board) (k : KingPosition) (w : Bool) (p : Position)
    (hb : wellFormed b) (hp : inBoard p.row p.col = true)
    (ho : hasSameColor (boardAt b p) w = true) (hk : toupper (boardAt b p) = KNIGHT) :
    (∃ d ∈ knightDests p,
        (searchWith isPossibleMove KNIGHT SearchType.ISLEGALMOVE p d (boardAt b p) (b, []) k).1
          = true) ↔
      ∃ d, inBoard d.row d.col = true ∧ (plainStep b w p d ∨ doubleStep b w p d)
        ∧ unattacked (afterStep b p d) w (kingAfter b k p d) := by
  have hn : toupper (boardAt b p) ≠ PAWN := by rw [hk]; decide
  apply exists_congr
  intro d
  rw [mem_knightDests p d hp]
  constructor
  · rintro ⟨⟨hd, hg⟩, hfd⟩
    rw [found_piece b k w KNIGHT p d hb hp hd ho hn (by decide)] at hfd
    obtain ⟨hf, -, -, hu⟩ := hfd
    refine ⟨hd, Or.inl (Or.inr (Or.inr (Or.inr (Or.inl ⟨hk, ?_, hf⟩)))), hu⟩
    unfold knightJump
    rcases hg with h | h | h
    · exact Or.inl (by omega)
    · exact Or.inr (by omega)
    · exact absurd h.symm (freeOrFoe_ne b w p d hb hp ho hf)
  · rintro ⟨hd, hstep, hu⟩
    unfold plainStep doubleStep at hstep
    rcases hstep with (⟨h, -⟩ | ⟨h, -⟩ | ⟨h, -⟩ | ⟨-, hg, hf⟩ | ⟨h, -⟩ | ⟨h, -⟩ | ⟨h, -⟩)
      | ⟨h, -⟩
    · exact absurd (hk.symm.trans h) (by decide)
    · exact absurd (hk.symm.trans h) (by decide)
    · exact absurd (hk.symm.trans h) (by decide)
    · refine ⟨⟨hd, ?_⟩, ?_⟩
      · unfold knightJump at hg
        rcases hg with h | h
        · exact Or.inl (by omega)
        · exact Or.inr (Or.inl (by omega))
      · rw [found_piece b k w KNIGHT p d hb hp hd ho hn (by decide)]
        exact ⟨hf, Or.inl rfl, Or.inl hk, hu⟩
    all_goals exact absurd (hk.symm.trans h) (by decide)

theorem steps_king (b : Board) (k : KingPosition) (w : Bool) (p : Position)
    (hb : wellFormed b) (hp : inBoard p.row p.col = true)
    (ho : hasSameColor (boardAt b p) w = true) (hk : toupper (boardAt b p) = KING) :
    (∃ d ∈ kingDests p,
        (searchWith isPossibleMove KING SearchType.ISLEGALMOVE p d (boardAt b p) (b, []) k).1
          = true) ↔
      ∃ d, inBoard d.row d.col = true ∧ (plainStep b w p d ∨ doubleStep b w p d)
        ∧ unattacked (afterStep b p d) w (kingAfter b k p d) := by
  have hn : toupper (boardAt b p) ≠ PAWN := by rw [hk]; decide
  apply exists_congr
  intro d
  rw [mem_kingDests p d hp]
  constructor
  · rintro ⟨⟨hd, hg⟩, hfd⟩
    rw [found_piece b k w KING p d hb hp hd ho hn (by decide)] at hfd
    obtain ⟨hf, -, -, hu⟩ := hfd
    refine ⟨hd, Or.inl (Or.inr (Or.inr (Or.inr (Or.inr (Or.inl ⟨hk, ?_, hf⟩))))), hu⟩
    exact ⟨freeOrFoe_ne b w p d hb hp ho hf, by omega, by omega⟩
  · rintro ⟨hd, hstep, hu⟩
    unfold plainStep doubleStep at hstep
    rcases hstep with (⟨h, -⟩ | ⟨h, -⟩ | ⟨h, -⟩ | ⟨h, -⟩ | ⟨-, hg, hf⟩ | ⟨h, -⟩ | ⟨h, -⟩)
      | ⟨h, -⟩
    · exact absurd (hk.symm.trans h) (by decide)
    · exact absurd (hk.symm.trans h) (by decide)
    · exact absurd (hk.symm.trans h) (by decide)
    · exact absurd (hk.symm.trans h) (by decide)
    · obtain ⟨-, h1, h2⟩ := hg
      refine ⟨⟨hd, by omega, by omega⟩, ?_⟩
      rw [found_piece b k w KING p d hb hp hd ho hn (by decide)]
      exact ⟨hf, Or.inr (Or.inl rfl), Or.inr (hasClearSight_near b p d ⟨h1, h2⟩), hu⟩
    all_goals exact absurd (hk.symm.trans h) (by decide)

theorem steps_pawn (b : Board) (k : KingPosition) (w : Bool) (p : Position)
    (hb : wellFormed b) (hking : toupper (boardAt b (getRegPos k)) = KING)
    (hp : inBoard p.row p.col = true)
    (ho : hasSameColor (boardAt b p) w = true) (hk : toupper (boardAt b p) = PAWN) :
    (∃ d ∈ pawnDests p w,
        (searchWith isPossibleMove PAWN SearchType.ISLEGALMOVE p d (boardAt b p) (b, []) k).1
          = true) ↔
      ∃ d, inBoard d.row d.col = true ∧ (plainStep b w p d ∨ doubleStep b w p d)
        ∧ unattacked (afterStep b p d) w (kingAfter b k p d) := by
  apply exists_congr
  intro d
  rw [mem_pawnDests p d w hp]
  constructor
  · rintro ⟨⟨hd, hg⟩, hfd⟩
    rw [found_pawn b k w p d hb hking hp hd ho hk hg] at hfd
    obtain ⟨hs, hu⟩ := hfd
    refine ⟨hd, ?_, hu⟩
    rcases hs with ⟨h1, h2, h3⟩ | ⟨h1, h2, h3⟩ | ⟨h1, h2, h3, h4⟩
    · exact Or.inl (Or.inr (Or.inr (Or.inr (Or.inr (Or.inr (Or.inl ⟨hk, h1, h2, h3⟩))))))
    · exact Or.inl (Or.inr (Or.inr (Or.inr (Or.inr (Or.inr (Or.inr ⟨hk, h1, h2, h3⟩))))))
    · exact Or.inr ⟨hk, h1, h2, h3, h4⟩
  · rintro ⟨hd, hstep, hu⟩
    unfold plainStep doubleStep at hstep
    rcases hstep with (⟨h, -⟩ | ⟨h, -⟩ | ⟨h, -⟩ | ⟨h, -⟩ | ⟨h, -⟩ | ⟨-, h1, h2, h3⟩
      | ⟨-, h1, h2, h3⟩) | ⟨-, h1, h2, h3, h4⟩
    · exact absurd (hk.symm.trans h) (by decide)
    · exact absurd (hk.symm.trans h) (by decide)
    · exact absurd (hk.symm.trans h) (by decide)
    · exact absurd (hk.symm.trans h) (by decide)
    · exact absurd (hk.symm.trans h) (by decide)
    · have hg : (d.row = p.row + 2 * forward w ∧ d.col = p.col)
          ∨ (d.row = p.row + forward w ∧ (d.col - p.col).natAbs ≤ 1) :=
        Or.inr ⟨h1, by omega⟩
      exact ⟨⟨hd, hg⟩, (found_pawn b k w p d hb hking hp hd ho hk hg).2
        ⟨Or.inl ⟨h1, h2, h3⟩, hu⟩⟩
    · have hg : (d.row = p.row + 2 * forward w ∧ d.col = p.col)
          ∨ (d.row = p.row + forward w ∧ (d.col - p.col).natAbs ≤ 1) :=
        Or.inr ⟨h1, by omega⟩
      exact ⟨⟨hd, hg⟩, (found_pawn b k w p d hb hking hp hd ho hk hg).2
        ⟨Or.inr (Or.inl ⟨h1, h2, h3⟩), hu⟩⟩
    · have hg : (d.row = p.row + 2 * forward w ∧ d.col = p.col)
          ∨ (d.row = p.row + forward w ∧ (d.col - p.col).natAbs ≤ 1) :=
        Or.inl ⟨h1, h2⟩
      exact ⟨⟨hd, hg⟩, (found_pawn b k w p d hb hking hp hd ho hk hg).2
        ⟨Or.inr (Or.inr ⟨h1, h2, h3, h4⟩), hu⟩⟩

theorem searchBoard_steps (b : Board) (k : KingPosition) (w : Bool) (p : Position)
    (hb : wellFormed b) (hking : toupper (boardAt b (getRegPos k)) = KING)
    (hp : inBoard p.row p.col = true) (ho : hasSameColor (boardAt b p) w = true) :
    hasLegalMove b k p = true ↔
      ∃ d, inBoard d.row d.col = true ∧ (plainStep b w p d ∨ doubleStep b w p d)
        ∧ unattacked (afterStep b p d) w (kingAfter b k p d) := by
  have hlp := hb p ((mem_allSquares p).2 hp)
  obtain ⟨hw, -, -, -, hkind, -, -⟩ := own_letter _ _ hlp ho
  unfold hasLegalMove
  rw [searchBoard_iff _ _ _ _ _ rfl, hw]
  rcases hkind with hk | hk | hk | hk | hk | hk
  · rw [← steps_rook b k w p hb hp ho hk, hk]
    simp [ROOK, KNIGHT, BISHOP, QUEEN, KING, PAWN]
  · rw [← steps_bishop b k w p hb hp ho hk, hk]
    simp [ROOK, KNIGHT, BISHOP, QUEEN, KING, PAWN]
  · rw [← steps_queen b k w p hb hp ho hk, hk]
    simp [ROOK, KNIGHT, BISHOP, QUEEN, KING, PAWN]
  · rw [← steps_knight b k w p hb hp ho hk, hk]
    simp [ROOK, KNIGHT, BISHOP, QUEEN, KING, PAWN]
  · rw [← steps_king b k w p hb hp ho hk, hk]
    simp [ROOK, KNIGHT, BISHOP, QUEEN, KING, PAWN]
  · rw [← steps_pawn b k w p hb hking hp ho hk, hk]
    simp [ROOK, KNIGHT, BISHOP, QUEEN, KING, PAWN]

theorem isStalemate_steps (b : Board) (k : KingPosition)
    (hb : wellFormed b) (hking : toupper (boardAt b (getRegPos k)) = KING) :
    (isStalemate b k).1 = true ↔
      ∀ p d, inBoard p.row p.col = true → inBoard d.row d.col = true →
        hasSameColor (boardAt b p) (hasSameColor (boardAt b (getRegPos k)) true) = true →
        (plainStep b (hasSameColor (boardAt b (getRegPos k)) true) p d
          ∨ doubleStep b (hasSameColor (boardAt b (getRegPos k)) true) p d) →
        ¬ unattacked (afterStep b p d) (hasSameColor (boardAt b (getRegPos k)) true)
            (kingAfter b k p d) := by
  rw [(isStalemate_spec b k).2]
  constructor
  · intro h p d hp hd ho hs hu
    have h1 := h p ((mem_allSquares p).2 hp) ho
    have h2 := (searchBoard_steps b k _ p hb hking hp ho).2 ⟨d, hd, hs, hu⟩
    rw [h1] at h2
    exact absurd h2 (by simp)
  · intro h p hp ho
    rw [mem_allSquares] at hp
    by_contra hc
    have h2 : hasLegalMove b k p = true := by simpa using hc
    obtain ⟨d, hd, hs, hu⟩ := (searchBoard_steps b k _ p hb hking hp ho).1 h2
    exact h p d hp hd ho hs hu

theorem attacks_transfer (b b1 : Board) (w : Bool) (pos sq : Position)
    (hsq : boardAt b1 sq = boardAt b sq)
    (hline : clearBetween b1 pos sq → clearBetween b pos sq)
    (h : attacks b1 w pos sq) : attacks b w pos sq := by
  unfold attacks at h ⊢
  rw [hsq] at h
  obtain ⟨hin, h⟩ := h
  refine ⟨hin, ?_⟩
  rcases h with h | h | h | ⟨h1, h2, h3, h4⟩ | ⟨h1, h2, h3, h4⟩
  · exact Or.inl h
  · exact Or.inr (Or.inl h)
  · exact Or.inr (Or.inr (Or.inl h))
  · exact Or.inr (Or.inr (Or.inr (Or.inl ⟨h1, h2, h3, hline h4⟩)))
  · exact Or.inr (Or.inr (Or.inr (Or.inr ⟨h1, h2, h3, hline h4⟩)))

theorem attacks_enemy (b : Board) (w : Bool) (pos sq : Position) (h : attacks b w pos sq) :
    boardAt b sq ≠ SPACE ∧ hasSameColor (boardAt b sq) w = false := by
  unfold attacks at h
  obtain ⟨-, h⟩ := h
  rcases h with ⟨h, -⟩ | ⟨h, -⟩ | ⟨h, -⟩ | ⟨h | h, -⟩ | ⟨h | h, -⟩ <;>
    rw [h] <;> cases w <;> decide

theorem between_same_direction (a q : Position) (dr dc n dr1 dc1 n1 : Int)
    (hdr : dr = -1 ∨ dr = 0 ∨ dr = 1) (hdc : dc = -1 ∨ dc = 0 ∨ dc = 1)
    (hdr1 : dr1 = -1 ∨ dr1 = 0 ∨ dr1 = 1) (hdc1 : dc1 = -1 ∨ dc1 = 0 ∨ dc1 = 1)
    (hn : 0 < n) (hn1 : 0 < n1)
    (e1 : q.row = a.row + n * dr) (e2 : q.col = a.col + n * dc)
    (e3 : q.row = a.row + n1 * dr1) (e4 : q.col = a.col + n1 * dc1) :
    dr1 = dr ∧ dc1 = dc := by
  rcases hdr with rfl | rfl | rfl <;> rcases hdc with rfl | rfl | rfl <;>
    rcases hdr1 with rfl | rfl | rfl <;> rcases hdc1 with rfl | rfl | rfl <;>
    constructor <;> omega

theorem between_middle (a q p d : Position) (f : Int) (hf : f = 1 ∨ f = -1)
    (hr : d.row = p.row + 2 * f) (hc : d.col = p.col)
    (h1 : strictlyBetween a q p) (h2 : strictlyBetween a q d) :
    strictlyBetween a q ⟨p.row + f, p.col⟩ := by
  obtain ⟨dr, dc, k, n, hdr, hdc, hz, hk, hn, e1, e2, e3, e4⟩ := h1
  obtain ⟨dr1, dc1, k1, n1, hdr1, hdc1, hz1, hk1, hn1, e5, e6, e7, e8⟩ := h2
  obtain ⟨rfl, rfl⟩ := between_same_direction a q dr dc n dr1 dc1 n1 hdr hdc hdr1 hdc1
    (by omega) (by omega) e1 e2 e5 e6
  refine ⟨dr1, dc1, k + f * dr1, n, hdr, hdc, hz, ?_, ?_, e1, e2, ?_, ?_⟩ <;> dsimp only <;>
    rcases hf with rfl | rfl <;> rcases hdr with rfl | rfl | rfl <;>
    rcases hdc with rfl | rfl | rfl <;> omega

theorem double_gives_single (b : Board) (k : KingPosition) (w : Bool) (p d : Position)
    (hb : wellFormed b) (hp : inBoard p.row p.col = true) (hd : inBoard d.row d.col = true)
    (ho : hasSameColor (boardAt b p) w = true)
    (h0 : unattacked b w (getRegPos k))
    (hdbl : doubleStep b w p d)
    (hu : unattacked (afterStep b p d) w (kingAfter b k p d)) :
    inBoard (p.row + forward w) p.col = true
      ∧ plainStep b w p ⟨p.row + forward w, p.col⟩
      ∧ unattacked (afterStep b p ⟨p.row + forward w, p.col⟩) w
          (kingAfter b k p ⟨p.row + forward w, p.col⟩) := by
  obtain ⟨hk, hr, hc, hm, hds⟩ := hdbl
  have hl := wellFormed_length b hb
  have hcs : boardAt b p ≠ SPACE := (own_letter _ _ (hb p ((mem_allSquares p).2 hp)) ho).2.2.1
  have hf : forward w = 1 ∨ forward w = -1 := by cases w <;> simp [forward]
  have hmid : inBoard (p.row + forward w) p.col = true := by
    rw [inBoard_iff] at hp hd ⊢
    omega
  have hnking : ¬ toupper (boardAt b p) = KING := by
    rw [hk]
    decide
  have hka : ∀ x, kingAfter b k p x = getRegPos k := fun x => by
    unfold kingAfter
    rw [if_neg hnking]
  rw [hka] at hu ⊢
  refine ⟨hmid, Or.inr (Or.inr (Or.inr (Or.inr (Or.inr (Or.inl ⟨hk, rfl, rfl, hm⟩))))), ?_⟩
  intro sq hatt
  obtain ⟨hns, hnw⟩ := attacks_enemy _ _ _ _ hatt
  have hb1 := fun t => boardAt_afterStep b p ⟨p.row + forward w, p.col⟩ t hmid hp hl
  have hb2 := fun t => boardAt_afterStep b p d t hd hp hl
  have h1 : sq ≠ ⟨p.row + forward w, p.col⟩ := by
    intro h
    rw [hb1, if_pos h, ho] at hnw
    exact absurd hnw (by simp)
  have h2 : sq ≠ p := by
    intro h
    rw [hb1, if_neg h1, if_pos h] at hns
    exact hns rfl
  have h3 : boardAt (afterStep b p ⟨p.row + forward w, p.col⟩) sq = boardAt b sq := by
    rw [hb1, if_neg h1, if_neg h2]
  have h4 : sq ≠ d := by
    intro h
    rw [h3, h, hds] at hns
    exact hns rfl
  by_cases hbt : strictlyBetween (getRegPos k) sq d
  · apply h0 sq
    apply attacks_transfer b _ w _ sq h3 _ hatt
    intro hcl t ht
    have hct := hcl t ht
    rw [hb1] at hct
    by_cases e1 : t = ⟨p.row + forward w, p.col⟩
    · rw [if_pos e1] at hct
      exact absurd hct hcs
    · rw [if_neg e1] at hct
      by_cases e2 : t = p
      · subst e2
        exfalso
        have := hcl _ (between_middle _ _ t d (forward w) hf hr hc ht hbt)
        rw [hb1, if_pos rfl] at this
        exact hcs this
      · rw [if_neg e2] at hct
        exact hct
  · apply hu sq
    apply attacks_transfer (afterStep b p d) _ w _ sq
      (by rw [h3, hb2, if_neg h4, if_neg h2]) _ hatt
    intro hcl t ht
    have hct := hcl t ht
    rw [hb1] at hct
    rw [hb2]
    have e0 : t ≠ d := by
      intro h
      subst h
      exact hbt ht
    rw [if_neg e0]
    by_cases e2 : t = p
    · rw [if_pos e2]
    · rw [if_neg e2]
      by_cases e1 : t = ⟨p.row + forward w, p.col⟩
      · rw [e1]
        exact hm
      · rw [if_neg e1, if_neg e2] at hct
        exact hct

theorem side_step_safe (b : Board) (w : Bool) (e f : Position)
    (hb : wellFormed b) (he : inBoard e.row e.col = true) (hfi : inBoard f.row f.col = true)
    (ho : hasSameColor (boardAt b e) w = true)
    (hrow : f.row = e.row) (hcol : (f.col - e.col).natAbs = 1)
    (h0 : unattacked b w e) (h1 : unattacked b w f) :
    unattacked (afterStep b e f) w f := by
  have hl := wellFormed_length b hb
  have hcs : boardAt b e ≠ SPACE := (own_letter _ _ (hb e ((mem_allSquares e).2 he)) ho).2.2.1
  have hb1 := fun t => boardAt_afterStep b e f t hfi he hl
  intro sq hatt
  obtain ⟨hns, hnw⟩ := attacks_enemy _ _ _ _ hatt
  have h2 : sq ≠ f := by
    intro h
    rw [hb1, if_pos h, ho] at hnw
    exact absurd hnw (by simp)
  have h3 : sq ≠ e := by
    intro h
    rw [hb1, if_neg h2, if_pos h] at hns
    exact hns rfl
  have h4 : boardAt (afterStep b e f) sq = boardAt b sq := by
    rw [hb1, if_neg h2, if_neg h3]
  by_cases hbt : strictlyBetween f sq e
  · apply h0 sq
    obtain ⟨dr, dc, k1, n, hdr, hdc, hz, hk, hn, e1, e2, e3, e4⟩ := hbt
    have hdr0 : dr = 0 := by
      rcases hdr with rfl | rfl | rfl <;> omega
    subst hdr0
    have hk1 : k1 = 1 := by
      rcases hdc with rfl | rfl | rfl <;> omega
    subst hk1
    have hdc1 : dc = 1 ∨ dc = -1 := by
      rcases hdc with rfl | rfl | rfl
      · exact Or.inr rfl
      · omega
      · exact Or.inl rfl
    unfold attacks at hatt ⊢
    rw [h4] at hatt
    obtain ⟨hin, hatt⟩ := hatt
    refine ⟨hin, ?_⟩
    rcases hatt with ⟨-, hx, -⟩ | ⟨-, hx⟩ | ⟨-, hx⟩ | ⟨hx, -, -, hcl⟩ | ⟨-, -, hx, -⟩
    · exfalso
      split_ifs at hx <;> omega
    · exfalso
      unfold knightJump at hx
      omega
    · exfalso
      obtain ⟨-, hx1, hx2⟩ := hx
      rcases hdc1 with rfl | rfl <;> omega
    · refine Or.inr (Or.inr (Or.inr (Or.inl ⟨hx, h3, Or.inl (by omega), ?_⟩)))
      intro t ht
      have hft : strictlyBetween f sq t := by
        obtain ⟨dr2, dc2, k2, n2, hdr2, hdc2, hz2, hk2, hn2, g1, g2, g3, g4⟩ := ht
        refine ⟨0, dc, k2 + 1, n, Or.inr (Or.inl rfl), hdc, hz, by omega, ?_, e1, e2, ?_, ?_⟩
        · rcases hdc1 with rfl | rfl <;> rcases hdr2 with rfl | rfl | rfl <;>
            rcases hdc2 with rfl | rfl | rfl <;> omega
        · rcases hdc1 with rfl | rfl <;> rcases hdr2 with rfl | rfl | rfl <;>
            rcases hdc2 with rfl | rfl | rfl <;> omega
        · rcases hdc1 with rfl | rfl <;> rcases hdr2 with rfl | rfl | rfl <;>
            rcases hdc2 with rfl | rfl | rfl <;> omega
      have hct := hcl t hft
      rw [hb1] at hct
      by_cases g1 : t = f
      · rw [if_pos g1] at hct
        exact absurd hct hcs
      · rw [if_neg g1] at hct
        by_cases g2 : t = e
        · exfalso
          subst g2
          obtain ⟨dr2, dc2, k2, n2, hdr2, hdc2, hz2, hk2, hn2, g1, g2, g3, g4⟩ := ht
          rcases hdr2 with rfl | rfl | rfl <;> rcases hdc2 with rfl | rfl | rfl <;> omega
        · rw [if_neg g2] at hct
          exact hct
    · exfalso
      rcases hdc1 with rfl | rfl <;> omega
  · apply h1 sq
    apply attacks_transfer b _ w _ sq h4 _ hatt
    intro hcl t ht
    have hct := hcl t ht
    rw [hb1] at hct
    by_cases g1 : t = f
    · rw [if_pos g1] at hct
      exact absurd hct hcs
    · rw [if_neg g1] at hct
      by_cases g2 : t = e
      · subst g2
        exact absurd ht hbt
      · rw [if_neg g2] at hct
        exact hct

theorem isInCheck_false_unattacked (b : Board) (pos : Position) (w : Bool) (m : Move)
    (hpos : inBoard pos.row pos.col = true)
    (h : (isInCheck b pos w m []).1 = false) : unattacked b w pos := by
  have hm : ¬ ((⟨MoveType.NORMALMOVE, m.origin, m.destination, m.pieceMoved, m.captures,
      m.promotionPiece⟩ : Move).type = MoveType.DOUBLEPAWNMOVE
      ∧ (⟨MoveType.NORMALMOVE, m.origin, m.destination, m.pieceMoved, m.captures,
      m.promotionPiece⟩ : Move).destination = pos) := fun hx => MoveType.noConfusion hx.1
  have hnil : (isInCheck b pos w ⟨MoveType.NORMALMOVE, m.origin, m.destination, m.pieceMoved,
      m.captures, m.promotionPiece⟩ []).2 = [] := by
    rw [isInCheck_list _ _ _ _ hm]
    unfold isInCheck at h
    simp only [List.nil_append, List.foldl, enemy] at h ⊢
    rw [searchBoardWith_find _ _ _ _ _ _ _ (Or.inl rfl)] at h
    rw [searchBoardWith_find _ _ _ _ _ _ _ (Or.inr (Or.inl rfl))] at h
    rw [searchBoardWith_find _ _ _ _ _ _ _ (Or.inr (Or.inr (Or.inl rfl)))] at h
    rw [searchBoardWith_find _ _ _ _ _ _ _ (Or.inr (Or.inr (Or.inr (Or.inl rfl))))] at h
    rw [searchBoardWith_find _ _ _ _ _ _ _ (Or.inr (Or.inr (Or.inr (Or.inr rfl))))] at h
    simp only [decide_eq_false_iff_not, gt_iff_lt, List.length_pos, ne_eq, not_not,
      List.append_eq_nil] at h
    obtain ⟨⟨⟨⟨⟨h1, h2⟩, h3⟩, h4⟩, h5⟩, h6⟩ := h
    rw [h2, h3, h4, h5, h6]
    simp only [List.append_nil]
    split_ifs at h1
    · exact h1
    · exact (List.append_eq_nil.1 h1).1
  intro sq hatt
  have := (isInCheck_spec b pos w _ hpos hm sq).2 hatt
  rw [hnil] at this
  exact absurd this (List.not_mem_nil sq)

theorem king_own (b : Board) (k : KingPosition) (hb : wellFormed b)
    (hking : toupper (boardAt b (getRegPos k)) = KING) :
    hasSameColor (boardAt b (getRegPos k)) (hasSameColor (boardAt b (getRegPos k)) true)
      = true := by
  have hl := hb _ ((mem_allSquares _).2 (getRegPos_inBoard k))
  revert hking
  rcases letter_cases _ hl with h | h | h | h | h | h | h | h | h | h | h | h | h <;>
    rw [h] <;> decide

theorem castle_gives_step (b : Board) (k : KingPosition) (p d : Position)
    (hb : wellFormed b) (hking : toupper (boardAt b (getRegPos k)) = KING)
    (hc : castleStep b (hasSameColor (boardAt b (getRegPos k)) true) k p d) :
    ∃ t, inBoard t.row t.col = true
      ∧ plainStep b (hasSameColor (boardAt b (getRegPos k)) true) p t
      ∧ unattacked (afterStep b p t) (hasSameColor (boardAt b (getRegPos k)) true)
          (kingAfter b k p t) := by
  have hown := king_own b k hb hking
  generalize hasSameColor (boardAt b (getRegPos k)) true = w at hc hown ⊢
  obtain ⟨hp, hp2, hc⟩ := hc
  rw [← hp] at hown hking
  have hpin : inBoard p.row p.col = true := by
    rw [hp]
    exact getRegPos_inBoard k
  have hrow : p.row = homeRow w := by
    rw [hp2]
  have hcol : p.col = 4 := by
    rw [hp2]
  have hkey : ∀ (c e : Int), (c = 5 ∧ e = 7) ∨ (c = 3 ∧ e = 0) →
      clearBetween b p ⟨homeRow w, e⟩ → unattacked b w p → unattacked b w ⟨homeRow w, c⟩ →
      ∃ t, inBoard t.row t.col = true ∧ plainStep b w p t
        ∧ unattacked (afterStep b p t) w (kingAfter b k p t) := by
    intro c e hce hcl h0 h1
    have htin : inBoard (homeRow w) c = true := by
      rw [inBoard_iff] at hpin ⊢
      rcases hce with ⟨rfl, -⟩ | ⟨rfl, -⟩ <;> omega
    have hfree : boardAt b ⟨homeRow w, c⟩ = SPACE := by
      apply hcl
      rcases hce with ⟨rfl, rfl⟩ | ⟨rfl, rfl⟩
      · exact ⟨0, 1, 1, 3, Or.inr (Or.inl rfl), Or.inr (Or.inr rfl), by decide, by decide,
          by decide, by simp [hrow], by simp [hcol], by simp [hrow], by simp [hcol]⟩
      · exact ⟨0, -1, 1, 4, Or.inr (Or.inl rfl), Or.inl rfl, by decide, by decide,
          by decide, by simp [hrow], by simp [hcol], by simp [hrow], by simp [hcol]⟩
    refine ⟨⟨homeRow w, c⟩, htin, ?_, ?_⟩
    · refine Or.inr (Or.inr (Or.inr (Or.inr (Or.inl ⟨hking, ⟨?_, ?_, ?_⟩, Or.inl hfree⟩))))
      · intro h
        have := congrArg Position.col h
        simp only [hcol] at this
        rcases hce with ⟨rfl, -⟩ | ⟨rfl, -⟩ <;> omega
      · simp only [hrow]
        omega
      · simp only [hcol]
        rcases hce with ⟨rfl, -⟩ | ⟨rfl, -⟩ <;> decide
    · have hka : kingAfter b k p ⟨homeRow w, c⟩ = ⟨homeRow w, c⟩ := by
        unfold kingAfter
        rw [if_pos hking]
      rw [hka]
      refine side_step_safe b w p ⟨homeRow w, c⟩ hb hpin htin hown hrow.symm ?_ h0 h1
      simp only [hcol]
      rcases hce with ⟨rfl, -⟩ | ⟨rfl, -⟩ <;> decide
  rcases hc with ⟨-, -, -, hcl, h0, h1, -⟩ | ⟨-, -, -, hcl, h0, h1, -⟩
  · exact hkey 5 7 (Or.inl ⟨rfl, rfl⟩) hcl h0 h1
  · exact hkey 3 0 (Or.inr ⟨rfl, rfl⟩) hcl h0 h1

/-! # The claims -/

/-- C1 (code evaluated at the failing input): after 1. e4 e5 2. d3 Bb4+ the last move
is consistent with the board (b4 holds the bishop moved) and e2 is empty;
`validateMove` returns false on the token `e2f3`, and yet the board it leaves behind
differs from the one it was given: e2 now holds a white pawn. -/
theorem validateMove_reject_e2f3_writes_pawn :
    afterBb4.map (fun s => decide (
      boardAt s.board s.move.destination = s.move.pieceMoved
      ∧ boardAt s.board ⟨6, 4⟩ = 32
      ∧ (validateMove (token "e2f3") s false false).ok = false
      ∧ boardAt (validateMove (token "e2f3") s false false).state.board ⟨6, 4⟩ = 80
      ∧ (validateMove (token "e2f3") s false false).state ≠ s)) = some true := by
  decide!

/-- C2 (code evaluated at the failing input): after 1. b4 a5 2. a3 axb4 3. e3 bxa3
4. Qh5 a2 5. Qxf7+ it is Black's turn; `validateMove` returns true on the token `a1`
without committing a move (the last move is still White's Qxf7), and after `makeMove`
of that record `isInCheck` on the square of Black's king record reports the queen
on f7. -/
theorem validateMove_accepts_a1_in_check :
    afterQxf7.map (fun s => decide (
      s.status = GameStatus.BLACK
      ∧ (validateMove (token "a1") s false false).ok = true
      ∧ moveAfter s (token "a1") = s.move
      ∧ (moveAfter s (token "a1")).pieceMoved = 81
      ∧ isInCheck (boardAfter s (token "a1"))
          (getRegPos (validateMove (token "a1") s false false).state.blackKing) false
          (moveAfter s (token "a1")) [] = (true, [⟨1, 5⟩]))) = some true := by
  decide!

/-- C3 (code evaluated at the failing input): in `knightPosition` Black plays Nf2+;
`updateGameStatus` reports check and sets the status to black-won, although the scan
of the king's moves (`searchBoard` in `ISLEGALMOVE` mode from h1) finds a legal move,
the capture on g1 passes `isPossibleMove`, and the scan of `isStalemate` over White's
pieces finds a legal move too. -/
theorem updateGameStatus_mate_with_legal_capture :
    (playMove knightPosition (token "Nf2+")).map (fun r => decide (
      r.1.status = GameStatus.BLACK_WON ∧ r.2 = true
      ∧ r.1.move.type = MoveType.NORMALMOVE
      ∧ (searchBoard KING SearchType.ISLEGALMOVE ⟨7, 7⟩ 75 (r.1.board, []) r.1.whiteKing).1
          = true
      ∧ (isPossibleMove r.1.board ⟨MoveType.NORMALMOVE, ⟨7, 7⟩, ⟨7, 6⟩, 75, true, SPACE⟩
          r.1.whiteKing).1 = true
      ∧ (isStalemate r.1.board r.1.whiteKing).1 = false)) = some true := by
  decide!

/-- C4 (counterexample): on the board reached by 1. f3 e5 2. g4 Qh4#, with White's king
record on e1 and the queen move as last move, `isStalemate` returns true although
`isInCheck` reports an attacker on the king's square: the equivalence of the claim, with
`legalStep` for the legal moves, fails from left to right. -/
theorem isStalemate_true_while_in_check :
    afterFoolsMate.map (fun s => (s.board, s.whiteKing, s.move))
      = some (foolsMateBoard, ⟨true, true, 7, 4⟩,
          ⟨MoveType.NORMALMOVE, ⟨0, 3⟩, ⟨4, 7⟩, 113, false, 0⟩)
    ∧ (isStalemate foolsMateBoard ⟨true, true, 7, 4⟩).1 = true
    ∧ (isInCheck foolsMateBoard (getRegPos ⟨true, true, 7, 4⟩) true
        ⟨MoveType.NORMALMOVE, ⟨0, 3⟩, ⟨4, 7⟩, 113, false, 0⟩ []).1 = true
    ∧ ¬ ((isStalemate foolsMateBoard ⟨true, true, 7, 4⟩).1 = true ↔
        ((isInCheck foolsMateBoard (getRegPos ⟨true, true, 7, 4⟩) true
            ⟨MoveType.NORMALMOVE, ⟨0, 3⟩, ⟨4, 7⟩, 113, false, 0⟩ []).1 = false
          ∧ ∀ p d, ¬ legalStep foolsMateBoard ⟨true, true, 7, 4⟩
              ⟨MoveType.NORMALMOVE, ⟨0, 3⟩, ⟨4, 7⟩, 113, false, 0⟩ p d)) :=
  have hs : (isStalemate foolsMateBoard ⟨true, true, 7, 4⟩).1 = true := by decide!
  have hc : (isInCheck foolsMateBoard (getRegPos ⟨true, true, 7, 4⟩) true
        ⟨MoveType.NORMALMOVE, ⟨0, 3⟩, ⟨4, 7⟩, 113, false, 0⟩ []).1 = true := by decide!
  ⟨by decide!, hs, hc, fun h => Bool.noConfusion (hc.symm.trans (h.1 hs).1)⟩

/-- C4 (amended): for every board whose squares hold piece letters or blanks and every
king record that points at a king, with `legalStep` for the legal moves of the pieces of
that king's colour (the moves of chess, double steps, en-passant captures and castling
included): if the last move was not a double pawn push and `isStalemate` returns true,
then no piece of that colour has a legal move; and if `isInCheck` reports no attacker on
the king's square and no piece of that colour has a legal move, then `isStalemate`
returns true. Whether the king is in check is not tested by `isStalemate`. -/
theorem isStalemate_legal_steps (board : Board) (kingPos : KingPosition)
    (previousMove : Move) (hboard : wellFormed board)
    (hking : toupper (boardAt board (getRegPos kingPos)) = KING) :
    (previousMove.type ≠ MoveType.DOUBLEPAWNMOVE → (isStalemate board kingPos).1 = true →
        ∀ p d, ¬ legalStep board kingPos previousMove p d)
    ∧ ((isInCheck board (getRegPos kingPos)
          (hasSameColor (boardAt board (getRegPos kingPos)) true) previousMove []).1 = false →
        (∀ p d, ¬ legalStep board kingPos previousMove p d) →
        (isStalemate board kingPos).1 = true) := by
  have hst := isStalemate_steps board kingPos hboard hking
  constructor
  · intro hprev hs p d hl
    rw [hst] at hs
    obtain ⟨hp, hd, ho, hl⟩ := hl
    rcases hl with ⟨hstep, hu⟩ | hep | hc
    · refine hs p d hp hd ho ?_ hu
      rcases hstep with h | ⟨h, -⟩
      · exact Or.inl h
      · exact Or.inr h
    · exact hprev hep.2.1
    · obtain ⟨t, ht, hpl, hu⟩ := castle_gives_step board kingPos p d hboard hking hc
      exact hs p t hp ht ho (Or.inl hpl) hu
  · intro hchk hno
    rw [hst]
    intro p d hp hd ho hstep hu
    rcases hstep with h | h
    · exact hno p d ⟨hp, hd, ho, Or.inl ⟨Or.inl h, hu⟩⟩
    · have h0 := isInCheck_false_unattacked board _ _ previousMove
        (getRegPos_inBoard kingPos) hchk
      obtain ⟨hm, hpl, hsafe⟩ :=
        double_gives_single board kingPos _ p d hboard hp hd ho h0 h hu
      exact hno p _ ⟨hp, hm, ho, Or.inl ⟨Or.inl hpl, hsafe⟩⟩

/-- C4 (witness): king on b6 and bishop on c7 against the king on a8, after Bxc7: the
board is well formed, Black's king record points at the king, the last move is no double
pawn push, `isStalemate` returns true, `isInCheck` reports no attacker, and no black
piece has a legal move. -/
theorem isStalemate_legal_steps_witness :
    wellFormed bishopStalemateBoard
    ∧ toupper (boardAt bishopStalemateBoard (getRegPos ⟨false, false, 0, 0⟩)) = KING
    ∧ (isStalemate bishopStalemateBoard ⟨false, false, 0, 0⟩).1 = true
    ∧ (isInCheck bishopStalemateBoard (getRegPos ⟨false, false, 0, 0⟩) false
        ⟨MoveType.NORMALMOVE, ⟨4, 5⟩, ⟨1, 2⟩, 66, true, 0⟩ []).1 = false
    ∧ ∀ p d, ¬ legalStep bishopStalemateBoard ⟨false, false, 0, 0⟩
        ⟨MoveType.NORMALMOVE, ⟨4, 5⟩, ⟨1, 2⟩, 66, true, 0⟩ p d :=
  have hw : wellFormed bishopStalemateBoard := by
    unfold wellFormed
    decide!
  have hk : toupper (boardAt bishopStalemateBoard (getRegPos ⟨false, false, 0, 0⟩))
      = KING := by
    decide!
  have hs : (isStalemate bishopStalemateBoard ⟨false, false, 0, 0⟩).1 = true := by
    decide!
  ⟨hw, hk, hs, by decide!,
    (isStalemate_legal_steps bishopStalemateBoard ⟨false, false, 0, 0⟩
      ⟨MoveType.NORMALMOVE, ⟨4, 5⟩, ⟨1, 2⟩, 66, true, 0⟩ hw hk).1
      (fun h => MoveType.noConfusion h) hs⟩

/-- On the initial board `isStalemate` returns false for White, and the double step
e2-e4 is a legal move in the sense of `legalStep`. -/
theorem initial_position_has_legal_step :
    (isStalemate initializeBoard ⟨true, true, 7, 4⟩).1 = false
    ∧ legalStep initializeBoard ⟨true, true, 7, 4⟩
        ⟨MoveType.NORMALMOVE, ⟨0, 0⟩, ⟨0, 0⟩, 0, false, 0⟩ ⟨6, 4⟩ ⟨4, 4⟩ :=
  ⟨by decide!, by decide!, by decide!, by decide!,
    Or.inl ⟨Or.inr ⟨⟨by decide!, by decide!, by decide!, by decide!, by decide!⟩, by decide!⟩,
      isInCheck_false_unattacked _ _ _ ⟨MoveType.NORMALMOVE, ⟨0, 0⟩, ⟨0, 0⟩, 0, false, 0⟩
        (by decide!) (by decide!)⟩⟩

/-- After a double pawn push the first half of the statement above can fail, which is
why it is stated for the other last moves only: after `7k/3p4/4p3/4P3/8/8/2q5/K7 b - - 0 1`
and the reply d5 the status is set to stalemate and `isStalemate` returns true for
White, although the pawn on e5 may capture en passant on d6. The scan builds no
en-passant move (`search` gives every probe the type of a normal move or of a double
step), so it cannot find this capture. -/
theorem isStalemate_misses_en_passant :
    ((loadGame (token "7k/3p4/4p3/4P3/8/8/2q5/K7 b - - 0 1\n")).bind
        (fun s => playMove s (token "d5"))).map (fun r => decide
      (r.1.status = GameStatus.STALEMATE ∧ r.1.board = enPassantOnlyBoard
        ∧ r.1.whiteKing = ⟨false, false, 7, 0⟩
        ∧ r.1.move = ⟨MoveType.DOUBLEPAWNMOVE, ⟨1, 3⟩, ⟨3, 3⟩, 112, false, 0⟩)) = some true
    ∧ (isStalemate enPassantOnlyBoard ⟨false, false, 7, 0⟩).1 = true
    ∧ legalStep enPassantOnlyBoard ⟨false, false, 7, 0⟩
        ⟨MoveType.DOUBLEPAWNMOVE, ⟨1, 3⟩, ⟨3, 3⟩, 112, false, 0⟩ ⟨3, 4⟩ ⟨2, 3⟩ :=
  ⟨by decide!, by decide!, by decide!, by decide!, by decide!,
    Or.inr (Or.inl ⟨by decide!, rfl, by decide!, by decide!, by decide!, by decide!,
      by decide!,
      isInCheck_false_unattacked _ _ _ ⟨MoveType.NORMALMOVE, ⟨0, 0⟩, ⟨0, 0⟩, 0, false, 0⟩
        (by decide!) (by decide!)⟩)⟩

/-- C5: for every board, victim colour and square `pos` on the board that is not the
destination of a preceding double pawn push, `isInCheck` started with an empty list
fills it with exactly the squares that hold an enemy piece attacking `pos` (an enemy
pawn on one of the two squares diagonally in front of `pos`, row-1 for a white victim
and row+1 for a black one; an enemy knight a knight's jump away; an enemy king on an
adjacent square; an enemy rook or queen on the same row or column, or an enemy bishop
or queen on the same diagonal, with every square strictly between empty), and it
returns true iff that list is not empty. -/
theorem isInCheck_exactly_attackers (board : Board) (isWhite : Bool) (pos : Position)
    (previousMove : Move) (hpos : inBoard pos.row pos.col = true)
    (hprev : ¬ (previousMove.type = MoveType.DOUBLEPAWNMOVE
      ∧ previousMove.destination = pos)) :
    (∀ sq : Position,
        sq ∈ (isInCheck board pos isWhite previousMove []).2 ↔ attacks board isWhite pos sq)
    ∧ ((isInCheck board pos isWhite previousMove []).1 = true ↔
        (isInCheck board pos isWhite previousMove []).2 ≠ []) := by
  refine ⟨fun sq => isInCheck_spec board pos isWhite previousMove hpos hprev sq, ?_⟩
  unfold isInCheck
  simp only [decide_eq_true_eq]
  exact ⟨fun h hn => by rw [hn] at h; simp at h, fun h => List.length_pos.2 h⟩

/-- C5 (witness): the square e1 of White's king on the board after 1. f3 e5 2. g4 Qh4#,
where the list is the queen's square h4. -/
theorem isInCheck_exactly_attackers_witness :
    (inBoard 7 4 = true
      ∧ ¬ ((⟨MoveType.NORMALMOVE, ⟨0, 3⟩, ⟨4, 7⟩, 113, false, 0⟩ : Move).type
            = MoveType.DOUBLEPAWNMOVE
          ∧ (⟨MoveType.NORMALMOVE, ⟨0, 3⟩, ⟨4, 7⟩, 113, false, 0⟩ : Move).destination = ⟨7, 4⟩)
      ∧ (isInCheck foolsMateBoard ⟨7, 4⟩ true
          ⟨MoveType.NORMALMOVE, ⟨0, 3⟩, ⟨4, 7⟩, 113, false, 0⟩ []).2 = [⟨4, 7⟩])
    ∧ (∀ sq : Position,
        sq ∈ (isInCheck foolsMateBoard ⟨7, 4⟩ true
            ⟨MoveType.NORMALMOVE, ⟨0, 3⟩, ⟨4, 7⟩, 113, false, 0⟩ []).2
          ↔ attacks foolsMateBoard true ⟨7, 4⟩ sq)
    ∧ ((isInCheck foolsMateBoard ⟨7, 4⟩ true
          ⟨MoveType.NORMALMOVE, ⟨0, 3⟩, ⟨4, 7⟩, 113, false, 0⟩ []).1 = true ↔
        (isInCheck foolsMateBoard ⟨7, 4⟩ true
          ⟨MoveType.NORMALMOVE, ⟨0, 3⟩, ⟨4, 7⟩, 113, false, 0⟩ []).2 ≠ []) :=
  ⟨by decide!,
    isInCheck_exactly_attackers foolsMateBoard true ⟨7, 4⟩
      ⟨MoveType.NORMALMOVE, ⟨0, 3⟩, ⟨4, 7⟩, 113, false, 0⟩ (by decide) (by decide)⟩

/-- C6: for every board and every move of kind normal, double pawn push, promotion or
en passant whose origin holds the piece moved (and, for en passant, where the piece
moved is a pawn and the square it passes holds the pawn of the other colour), the
board `isPossibleMove` leaves behind equals the board it was given, square for
square, whatever its result. -/
theorem isPossibleMove_leaves_board (board : Board) (move : Move) (ownKingPos : KingPosition)
    (hkind : move.type = MoveType.NORMALMOVE ∨ move.type = MoveType.DOUBLEPAWNMOVE
      ∨ move.type = MoveType.PROMOTION ∨ move.type = MoveType.ENPEASANT)
    (horigin : boardAt board move.origin = move.pieceMoved)
    (hpass : move.type = MoveType.ENPEASANT → enPassantReady board move) :
    (isPossibleMove board move ownKingPos).2 = board
    ∧ ∀ p : Position,
        boardAt (isPossibleMove board move ownKingPos).2 p = boardAt board p := by
  have h : (isPossibleMove board move ownKingPos).2 = board := by
    apply isPossibleMove_board board move ownKingPos horigin _ hpass
    rcases hkind with h | h | h | h <;> simp [h]
  exact ⟨h, fun p => by rw [h]⟩

/-- C6 (witness): the en-passant capture exf6 on the board after 1. e4 a6 2. e5 f5. -/
theorem isPossibleMove_leaves_board_witness :
    (boardAt boardE5F5 ⟨3, 4⟩ = 80 ∧ boardAt boardE5F5 ⟨3, 5⟩ = 112)
    ∧ (isPossibleMove boardE5F5 ⟨MoveType.ENPEASANT, ⟨3, 4⟩, ⟨2, 5⟩, 80, true, SPACE⟩
          ⟨true, true, 7, 4⟩).2 = boardE5F5
    ∧ ∀ p : Position,
        boardAt (isPossibleMove boardE5F5 ⟨MoveType.ENPEASANT, ⟨3, 4⟩, ⟨2, 5⟩, 80, true, SPACE⟩
          ⟨true, true, 7, 4⟩).2 p = boardAt boardE5F5 p :=
  ⟨by decide,
    isPossibleMove_leaves_board boardE5F5 ⟨MoveType.ENPEASANT, ⟨3, 4⟩, ⟨2, 5⟩, 80, true, SPACE⟩
      ⟨true, true, 7, 4⟩ (Or.inr (Or.inr (Or.inr rfl))) (by decide)
      (fun _ => Or.inl ⟨rfl, by decide⟩)⟩

/-- C7: from the initial state the tokens f3, e5, g4, Qh4# are all accepted; the
status is black-to-move, white-to-move, black-to-move after the first three, and the
fourth reports check and sets the status to black-won. -/
theorem fools_mate :
    (playMoves initialState [token "f3"]).map (fun s => s.status) = some GameStatus.BLACK
    ∧ (playMoves initialState [token "f3", token "e5"]).map (fun s => s.status)
        = some GameStatus.WHITE
    ∧ (playMoves initialState [token "f3", token "e5", token "g4"]).map (fun s => s.status)
        = some GameStatus.BLACK
    ∧ ((playMoves initialState [token "f3", token "e5", token "g4"]).bind
          (fun s => playMove s (token "Qh4#"))).map (fun r => (r.1.status, r.2))
        = some (GameStatus.BLACK_WON, true) := by
  decide!

/-- C8 (counterexample): after e4, a6, e5, d5 `validateMove` does not reject the
token exd6: it returns true. -/
theorem exd6_not_rejected :
    afterD5.map (fun s => (validateMove (token "exd6") s false false).ok) = some true := by
  decide!

/-- C8 (amended): after e4, a6, e5, d5 the last move is the double pawn push d7-d5,
which ended beside White's pawn on e5; `validateMove` accepts exd6 and commits an
en-passant capture from e5 to d6, and `makeMove` then leaves the white pawn on d6 and
the squares e5 and d5 empty. -/
theorem exd6_accepted_en_passant :
    afterD5.map (fun s => decide (
      s.move.type = MoveType.DOUBLEPAWNMOVE ∧ s.move.origin = ⟨1, 3⟩
      ∧ s.move.destination = ⟨3, 3⟩
      ∧ boardAt s.board ⟨3, 4⟩ = 80 ∧ boardAt s.board ⟨3, 3⟩ = 112
      ∧ (validateMove (token "exd6") s false false).ok = true
      ∧ (moveAfter s (token "exd6")).type = MoveType.ENPEASANT
      ∧ (moveAfter s (token "exd6")).origin = ⟨3, 4⟩
      ∧ (moveAfter s (token "exd6")).destination = ⟨2, 3⟩
      ∧ (moveAfter s (token "exd6")).pieceMoved = 80
      ∧ boardAt (boardAfter s (token "exd6")) ⟨2, 3⟩ = 80
      ∧ boardAt (boardAfter s (token "exd6")) ⟨3, 4⟩ = 32
      ∧ boardAt (boardAfter s (token "exd6")) ⟨3, 3⟩ = 32)) = some true := by
  decide!

/-- C9: after e4, a6, e5, f5 `validateMove` accepts exf6 and commits an en-passant
move of the white pawn from e5 to f6; before `makeMove` the pawns stand on e5 and f5
and f6 is empty, after it the white pawn is on f6, e5 and f5 are empty, and every
other square of the board is as before. -/
theorem exf6_en_passant :
    afterF5.map (fun s => decide (
      (validateMove (token "exf6") s false false).ok = true
      ∧ (moveAfter s (token "exf6")).type = MoveType.ENPEASANT
      ∧ (moveAfter s (token "exf6")).origin = ⟨3, 4⟩
      ∧ (moveAfter s (token "exf6")).destination = ⟨2, 5⟩
      ∧ (moveAfter s (token "exf6")).pieceMoved = 80
      ∧ boardAt s.board ⟨3, 4⟩ = 80 ∧ boardAt s.board ⟨3, 5⟩ = 112
      ∧ boardAt s.board ⟨2, 5⟩ = 32
      ∧ boardAt (boardAfter s (token "exf6")) ⟨3, 4⟩ = 32
      ∧ boardAt (boardAfter s (token "exf6")) ⟨3, 5⟩ = 32
      ∧ boardAt (boardAfter s (token "exf6")) ⟨2, 5⟩ = 80
      ∧ ∀ p ∈ allSquares, p ≠ ⟨3, 4⟩ → p ≠ ⟨3, 5⟩ → p ≠ ⟨2, 5⟩
          → boardAt (boardAfter s (token "exf6")) p = boardAt s.board p)) = some true := by
  decide!

/-- C10: for every game state and every pawn capture token (an origin file a-h, an
`x`, the destination) whose destination square is empty and not on the first or last
rank: if `validateMove` accepts it, then the last move recorded in the state was a
double pawn push that ended on the destination's file in the capturing pawn's row,
the origin file is next to the destination file, a pawn of the mover stands on the
origin, and the committed move is the en-passant capture from there to the
destination. -/
theorem capture_onto_empty_is_en_passant (state : GameState) (move : List Nat)
    (specifyRow specifyCol : Bool)
    (hfile : 97 ≤ tokAt move 0 ∧ tokAt move 0 ≤ 104)
    (hx : tokAt move 1 = 120)
    (hempty : boardAt state.board (captureDest move) = SPACE)
    (hrank : (captureDest move).row ≠ 0 ∧ (captureDest move).row ≠ 7)
    (hok : (validateMove move state specifyRow specifyCol).ok = true) :
    state.move.type = MoveType.DOUBLEPAWNMOVE
    ∧ state.move.destination
        = ⟨(captureDest move).row - 1 + b2i (decide (state.status = GameStatus.WHITE)) * 2,
            (captureDest move).col⟩
    ∧ ((tokAt move 0 : Int) - 97 - (captureDest move).col).natAbs = 1
    ∧ boardAt state.board
        ⟨(captureDest move).row - 1 + b2i (decide (state.status = GameStatus.WHITE)) * 2,
          (tokAt move 0 : Int) - 97⟩
        = 112 - b2n (decide (state.status = GameStatus.WHITE)) * 32
    ∧ (validateMove move state specifyRow specifyCol).state.move
        = ⟨MoveType.ENPEASANT,
            ⟨(captureDest move).row - 1 + b2i (decide (state.status = GameStatus.WHITE)) * 2,
              (tokAt move 0 : Int) - 97⟩,
            captureDest move, 112 - b2n (decide (state.status = GameStatus.WHITE)) * 32,
            true, UNINIT⟩ :=
  validateMove_capture_empty state move specifyRow specifyCol hfile hx hempty hrank hok

/-- C10 (witness): the token exf6 in `stateE5F5`, after the double push f7-f5. -/
theorem capture_onto_empty_is_en_passant_witness :
    ((97 ≤ tokAt (token "exf6") 0 ∧ tokAt (token "exf6") 0 ≤ 104)
      ∧ tokAt (token "exf6") 1 = 120
      ∧ boardAt stateE5F5.board (captureDest (token "exf6")) = SPACE
      ∧ ((captureDest (token "exf6")).row ≠ 0 ∧ (captureDest (token "exf6")).row ≠ 7)
      ∧ (validateMove (token "exf6") stateE5F5 false false).ok = true)
    ∧ stateE5F5.move.type = MoveType.DOUBLEPAWNMOVE
    ∧ stateE5F5.move.destination
        = ⟨(captureDest (token "exf6")).row - 1
            + b2i (decide (stateE5F5.status = GameStatus.WHITE)) * 2,
            (captureDest (token "exf6")).col⟩
    ∧ ((tokAt (token "exf6") 0 : Int) - 97 - (captureDest (token "exf6")).col).natAbs = 1
    ∧ boardAt stateE5F5.board
        ⟨(captureDest (token "exf6")).row - 1
            + b2i (decide (stateE5F5.status = GameStatus.WHITE)) * 2,
          (tokAt (token "exf6") 0 : Int) - 97⟩
        = 112 - b2n (decide (stateE5F5.status = GameStatus.WHITE)) * 32
    ∧ (validateMove (token "exf6") stateE5F5 false false).state.move
        = ⟨MoveType.ENPEASANT,
            ⟨(captureDest (token "exf6")).row - 1
                + b2i (decide (stateE5F5.status = GameStatus.WHITE)) * 2,
              (tokAt (token "exf6") 0 : Int) - 97⟩,
            captureDest (token "exf6"),
            112 - b2n (decide (stateE5F5.status = GameStatus.WHITE)) * 32, true, UNINIT⟩ :=
  ⟨by decide!,
    capture_onto_empty_is_en_passant stateE5F5 (token "exf6") false false (by decide)
      (by decide) (by decide!) (by decide) (by decide!)⟩

/-- C11: threefold repetition. For a state on entry to `updateGameStatus` for which no
checkmate is reported, whose last move is no draw offer and no resignation, whose clock
is below 100 and whose history has its 100 entries: the entry written at the index of
the clock is the encoding of the new position, the earlier entries of the window are
left as they were, and the status is set to draw-by-repetition if and only if at least
two of those earlier entries (indices below the clock, the positions recorded since the
last capture or pawn move) are reported equal to the new encoding by
`compareBoardPositions`. So the draw falls on the third occurrence and not on the
second. -/
theorem threefold_repetition (state : GameState) (isCheck : Bool)
    (hmate : (mateTest state).1 = false) (hdraw : state.move.type ≠ MoveType.PLAYERDRAW)
    (hresign : state.move.type ≠ MoveType.RESIGN) (hclock : state.movesWithoutCaptures < 100)
    (hlen : state.positions.length = 100) :
    (updateGameStatus state isCheck).1.positions.getD state.movesWithoutCaptures []
        = encodePosition (recorded state)
    ∧ (∀ i, i < state.movesWithoutCaptures →
        (updateGameStatus state isCheck).1.positions.getD i [] = state.positions.getD i [])
    ∧ ((updateGameStatus state isCheck).1.status = GameStatus.DRAWBYREPETITION ↔
        2 ≤ repetitions state.positions state.movesWithoutCaptures
          (encodePosition (recorded state))) := by
  obtain ⟨hpos, hmwc⟩ := convertBoardPosition_recorded state hclock
  have hcur : (state.positions.set state.movesWithoutCaptures
      (encodePosition (recorded state))).getD state.movesWithoutCaptures []
        = encodePosition (recorded state) := by
    rw [List.getD_eq_getElem?_getD, List.getElem?_set_self (by omega)]
    rfl
  have hres := updateGameStatus_play state isCheck hmate hdraw hclock hresign
  rw [hpos, hmwc, hcur] at hres
  have hn : (((state.movesWithoutCaptures + 1 : Nat) : Int) - 1).toNat
      = state.movesWithoutCaptures := by omega
  rw [hn] at hres
  simp only [countLoop_three, repetitions_set] at hres
  rw [hres]
  refine ⟨?_, ?_, ?_⟩
  · split_ifs <;> (simp only [hpos]; exact hcur)
  · intro i hi
    have : (state.positions.set state.movesWithoutCaptures
        (encodePosition (recorded state))).getD i [] = state.positions.getD i [] := by
      simp only [List.getD_eq_getElem?_getD]
      rw [List.getElem?_set_ne (by omega)]
    split_ifs <;> (simp only [hpos]; exact this)
  · by_cases h2 : 2 ≤ repetitions state.positions state.movesWithoutCaptures
        (encodePosition (recorded state))
    · simp [h2]
    · simp only [h2, if_false, iff_false]
      split_ifs <;> simp

/-- C11 (witness): the rook ending whose two history entries hold the encoding of the
position on the board; the third occurrence is a draw. -/
theorem threefold_repetition_witness :
    (mateTest rookEndingRepeated).1 = false
    ∧ rookEndingRepeated.move.type ≠ MoveType.PLAYERDRAW
    ∧ rookEndingRepeated.move.type ≠ MoveType.RESIGN
    ∧ rookEndingRepeated.movesWithoutCaptures < 100
    ∧ rookEndingRepeated.positions.length = 100
    ∧ 2 ≤ repetitions rookEndingRepeated.positions rookEndingRepeated.movesWithoutCaptures
        (encodePosition (recorded rookEndingRepeated))
    ∧ (updateGameStatus rookEndingRepeated false).1.status = GameStatus.DRAWBYREPETITION :=
  ⟨by decide!, by decide!, by decide!, by decide!, by decide!, by decide!,
    (threefold_repetition rookEndingRepeated false (by decide!) (by decide!) (by decide!)
      (by decide!) (by decide!)).2.2.2 (by decide!)⟩

/-- C12 (counterexample): after 1. Nf3 b6 2. g3 Bb7 3. Nh4 Bxh1 White still holds the
short castling flag, and the state that differs from it only in that flag has the same
encoding, h1 holding no white rook. -/
theorem castling_flag_not_encoded_without_rook :
    (withoutWhiteShort rookTaken).board = rookTaken.board
      ∧ (withoutWhiteShort rookTaken).whiteKing.canCastleShort
          ≠ rookTaken.whiteKing.canCastleShort
      ∧ epStatus (withoutWhiteShort rookTaken) = epStatus rookTaken
      ∧ compareBoardPositions (encodePosition rookTaken)
          (encodePosition (withoutWhiteShort rookTaken)) = true := by
  decide!

/-- C12 (amended): for two game states with the same board, in each of which a last move
of kind double pawn move has its destination on a pawn: if they differ in a castling
flag whose corner holds that side's rook (h1 and a1 a white rook, h8 and a8 a black
rook), or in en-passant status (one last move is a double pawn move and the other is not,
or both are, with different destinations), `compareBoardPositions` reports the encodings
of `convertBoardPosition` unequal; if all four flags and the en-passant status agree, it
reports them equal. -/
theorem encoding_distinguishes (a b : GameState) (hboard : a.board = b.board)
    (ha : doublePushOnPawn a) (hb : doublePushOnPawn b) :
    (((boardAt a.board ⟨7, 7⟩ = 82
          ∧ a.whiteKing.canCastleShort ≠ b.whiteKing.canCastleShort)
        ∨ (boardAt a.board ⟨7, 0⟩ = 82
          ∧ a.whiteKing.canCastleLong ≠ b.whiteKing.canCastleLong)
        ∨ (boardAt a.board ⟨0, 7⟩ = 114
          ∧ a.blackKing.canCastleShort ≠ b.blackKing.canCastleShort)
        ∨ (boardAt a.board ⟨0, 0⟩ = 114
          ∧ a.blackKing.canCastleLong ≠ b.blackKing.canCastleLong)
        ∨ epStatus a ≠ epStatus b) →
      compareBoardPositions (encodePosition a) (encodePosition b) = false)
    ∧ ((a.whiteKing.canCastleShort = b.whiteKing.canCastleShort
        ∧ a.whiteKing.canCastleLong = b.whiteKing.canCastleLong
        ∧ a.blackKing.canCastleShort = b.blackKing.canCastleShort
        ∧ a.blackKing.canCastleLong = b.blackKing.canCastleLong
        ∧ epStatus a = epStatus b) →
      compareBoardPositions (encodePosition a) (encodePosition b) = true) := by
  have hcorner : ∀ (s : GameState), doublePushOnPawn s → ∀ (p : Position) (c : Nat),
      boardAt s.board p = c → toupper c ≠ PAWN →
      encodeSquare s p = encodeChar c % 16 := by
    intro s hs p c hc hnp
    rw [encodeSquare_unmarked s p, hc]
    intro hm
    have := epStatus_pawn s hs p hm
    rw [hc] at this
    exact hnp this
  have hmark : ∀ (s t : GameState), s.board = t.board → doublePushOnPawn s →
      ∀ p, epStatus s = some p → epStatus t ≠ some p →
      compareBoardPositions (encodePosition s) (encodePosition t) = false
        ∧ compareBoardPositions (encodePosition t) (encodePosition s) = false := by
    intro s t hst hs p hsp htp
    have hpawn := epStatus_pawn s hs p hsp
    have hin : inBoard p.row p.col = true :=
      boardGet_inBoard s.board p.row p.col (piece_ne_zero _ _ hpawn (by decide))
    have hlt : 8 * p.row.toNat + p.col.toNat < 64 := by
      rw [inBoard_iff] at hin; omega
    have e1 : encodeSquare s p = 15 := encodeSquare_marked s p hsp
    have e2 : encodeSquare t p = 1 ∨ encodeSquare t p = 2 := by
      rw [encodeSquare_unmarked t p htp, ← hst]
      exact encodeChar_pawn _ hpawn
    have g1 := encodePosition_getD_plain s p hin (by rw [e1]; decide) (by rw [e1]; decide)
    have g2 := encodePosition_getD_plain t p hin (by rcases e2 with h | h <;> rw [h] <;> decide)
      (by rcases e2 with h | h <;> rw [h] <;> decide)
    have hne : (encodePosition s).getD (8 * p.row.toNat + p.col.toNat) 0
        ≠ (encodePosition t).getD (8 * p.row.toNat + p.col.toNat) 0 := by
      rw [g1, g2, e1]
      rcases e2 with h | h <;> rw [h] <;> decide
    exact ⟨compareBoardPositions_false _ _ _ hlt hne,
      compareBoardPositions_false _ _ _ hlt (fun h => hne h.symm)⟩
  constructor
  · rintro (⟨hr, hf⟩ | ⟨hr, hf⟩ | ⟨hr, hf⟩ | ⟨hr, hf⟩ | hep)
    · have ea := hcorner a ha ⟨7, 7⟩ 82 hr (by decide)
      have eb := hcorner b hb ⟨7, 7⟩ 82 (hboard ▸ hr) (by decide)
      apply compareBoardPositions_false _ _ 63 (by decide)
      rw [encodePosition_getD_h1 a ea, encodePosition_getD_h1 b eb]
      revert hf
      cases a.whiteKing.canCastleShort <;> cases b.whiteKing.canCastleShort <;> simp
    · have ea := hcorner a ha ⟨7, 0⟩ 82 hr (by decide)
      have eb := hcorner b hb ⟨7, 0⟩ 82 (hboard ▸ hr) (by decide)
      apply compareBoardPositions_false _ _ 56 (by decide)
      rw [encodePosition_getD_a1 a ea, encodePosition_getD_a1 b eb]
      revert hf
      cases a.whiteKing.canCastleLong <;> cases b.whiteKing.canCastleLong <;> simp
    · have ea := hcorner a ha ⟨0, 7⟩ 114 hr (by decide)
      have eb := hcorner b hb ⟨0, 7⟩ 114 (hboard ▸ hr) (by decide)
      apply compareBoardPositions_false _ _ 7 (by decide)
      rw [encodePosition_getD_h8 a ea, encodePosition_getD_h8 b eb]
      revert hf
      cases a.blackKing.canCastleShort <;> cases b.blackKing.canCastleShort <;> simp
    · have ea := hcorner a ha ⟨0, 0⟩ 114 hr (by decide)
      have eb := hcorner b hb ⟨0, 0⟩ 114 (hboard ▸ hr) (by decide)
      apply compareBoardPositions_false _ _ 0 (by decide)
      rw [encodePosition_getD_a8 a ea, encodePosition_getD_a8 b eb]
      revert hf
      cases a.blackKing.canCastleLong <;> cases b.blackKing.canCastleLong <;> simp
    · cases hea : epStatus a with
      | some p =>
        exact (hmark a b hboard ha p hea (fun h => hep (hea.trans h.symm))).1
      | none =>
        cases heb : epStatus b with
        | none => exact absurd (hea.trans heb.symm) hep
        | some q =>
          exact (hmark b a hboard.symm hb q heb (by rw [hea]; simp)).2
  · rintro ⟨h1, h2, h3, h4, hep⟩
    have hsq : ∀ p, encodeSquare a p = encodeSquare b p := by
      intro p
      by_cases hm : epStatus a = some p
      · rw [encodeSquare_marked a p hm, encodeSquare_marked b p (hep ▸ hm)]
      · rw [encodeSquare_unmarked a p hm, encodeSquare_unmarked b p (hep ▸ hm), hboard]
    have : encodePosition a = encodePosition b := by
      unfold encodePosition
      rw [h1, h2, h3, h4, funext hsq]
    rw [this]
    exact compareBoardPositions_refl _

/-- C12 (witness): the state after 1. e4 a6 2. e5 f5, whose last move is a double pawn
move onto the pawn on f5, against the same state without White's short castling flag;
h1 holds the white rook. -/
theorem encoding_distinguishes_witness :
    stateE5F5.board = (withoutWhiteShort stateE5F5).board
    ∧ doublePushOnPawn stateE5F5 ∧ doublePushOnPawn (withoutWhiteShort stateE5F5)
    ∧ compareBoardPositions (encodePosition stateE5F5)
        (encodePosition (withoutWhiteShort stateE5F5)) = false :=
  ⟨rfl, fun _ => by decide, fun _ => by decide,
    (encoding_distinguishes stateE5F5 (withoutWhiteShort stateE5F5) rfl (fun _ => by decide)
      (fun _ => by decide)).1 (Or.inl ⟨by decide, by decide⟩)⟩

/-- The test of the 50-move rule and the clock, as far as they hold for every input.
(1) For a half-move that is not reported as checkmate and is not a draw offer,
`updateGameStatus` sets the status to draw-by-50-move-rule if and only if
`movesWithoutCaptures` is at least 100 on entry. (2) Along a run of accepted half-moves
that record no capture and no pawn move, started with the clock at `m`, the status is not
that draw while `m` plus the number of half-moves is at most 100, the clock then being
`m` plus that number, and the half-move that makes the sum 101 ends the game by that draw
(or by the checkmate or draw offer that are tested first). (3) An accepted half-move
after which the game goes on never leaves the clock at another value than the old one
plus one, or 1 with a capture or a pawn move recorded; that a capture or a pawn move does
restart the clock is not among these facts, and fails for the tokens accepted at line
980. (4) The clock is 1 when the first move is asked for. (5) Whenever
`updateGameStatus` records a position, the index it writes, the clock on entry, is below
100. -/
theorem fifty_move_rule :
    (∀ (state : GameState) (isCheck : Bool), (mateTest state).1 = false →
        state.move.type ≠ MoveType.PLAYERDRAW →
        ((updateGameStatus state isCheck).1.status = GameStatus.DRAWBY50MOVERULE ↔
          100 ≤ state.movesWithoutCaptures))
    ∧ (∀ (s0 s : GameState) (toks : List (List Nat)), playQuiet s0 toks = some s → toks ≠ [] →
        (s0.movesWithoutCaptures + toks.length ≤ 100 →
          s.status ≠ GameStatus.DRAWBY50MOVERULE
            ∧ ((s.status = GameStatus.WHITE ∨ s.status = GameStatus.BLACK) →
              s.movesWithoutCaptures = s0.movesWithoutCaptures + toks.length))
        ∧ (s0.movesWithoutCaptures + toks.length = 101 →
          s.status = GameStatus.DRAWBY50MOVERULE ∨ s.status = GameStatus.WHITE_WON
            ∨ s.status = GameStatus.BLACK_WON ∨ s.status = GameStatus.DRAWBYPLAYER))
    ∧ (∀ (state : GameState) (t : List Nat) (r : GameState × Bool), playMove state t = some r →
        (r.1.status = GameStatus.WHITE ∨ r.1.status = GameStatus.BLACK) →
        r.1.movesWithoutCaptures = state.movesWithoutCaptures + 1
          ∨ (r.1.movesWithoutCaptures = 1
            ∧ (r.1.move.captures = true ∨ toupper r.1.move.pieceMoved = PAWN)))
    ∧ initialState.movesWithoutCaptures = 1
    ∧ (∀ (state : GameState) (isCheck : Bool),
        ((updateGameStatus state isCheck).1.positions = state.positions
          ∧ (updateGameStatus state isCheck).1.movesWithoutCaptures
              = state.movesWithoutCaptures)
        ∨ (state.movesWithoutCaptures < 100
          ∧ (updateGameStatus state isCheck).1.positions
              = state.positions.set state.movesWithoutCaptures
                  (encodePosition (recorded state))
          ∧ (updateGameStatus state isCheck).1.movesWithoutCaptures
              = state.movesWithoutCaptures + 1)) := by
  refine ⟨?_, ?_, ?_, rfl, ?_⟩
  · intro state isCheck hm hd
    by_cases hc : 100 ≤ state.movesWithoutCaptures
    · rw [updateGameStatus_fifty state isCheck hm hd hc]
      simp [hc]
    · rcases updateGameStatus_history state isCheck with ⟨_, h2, _, _⟩ | ⟨_, _, _, h4⟩
      · by_cases hr : state.move.type = MoveType.RESIGN
        · rw [updateGameStatus_resign state isCheck hm (by omega) hr]
          simp only [hc, iff_false]
          split_ifs <;> simp
        · exfalso
          rw [updateGameStatus_play state isCheck hm hd (by omega) hr] at h2
          have hmod : (state.movesWithoutCaptures + 1) % 65536
              = state.movesWithoutCaptures + 1 := by omega
          revert h2
          split_ifs <;> simp [convertBoardPosition, recorded, hmod] <;> split_ifs
            <;> simp [hmod]
      · simp [h4, hc]
  · intro s0 s toks h hne
    exact playQuiet_clock toks s0 s h hne
  · intro state t r h hrun
    obtain ⟨v, _, hf, hr⟩ := playMove_spec state t r h
    obtain ⟨_, _, _, _, _, hclock⟩ := hf
    have hmv : r.1.move = v.state.move := by rw [hr, updateGameStatus_move]
    subst hr
    rcases updateGameStatus_history
        { v.state with board := makeMove v.state.board v.state.move } false
      with ⟨_, _, h3, h4⟩ | ⟨_, _, h3, _⟩
    · rcases hrun with hrun | hrun
      · exact absurd hrun h3
      · exact absurd hrun h4
    · rw [h3, hmv]
      rcases hclock with h1 | ⟨_, h2, h5⟩
      · left
        simp only
        rw [h1]
      · right
        simp only
        rw [h2]
        exact ⟨rfl, h5⟩
  · intro state isCheck
    rcases updateGameStatus_history state isCheck with ⟨h1, h2, _, _⟩ | ⟨h1, h2, h3, _⟩
    · exact Or.inl ⟨h1, h2⟩
    · exact Or.inr ⟨h1, h2, h3⟩

/-- The rook ending entered with the clock at 100 is drawn by the 50-move rule, entered
with the clock at 99 it is not. -/
theorem fifty_move_rule_witness :
    (mateTest (rookEnding 100)).1 = false
    ∧ (rookEnding 100).move.type ≠ MoveType.PLAYERDRAW
    ∧ (updateGameStatus (rookEnding 100) false).1.status = GameStatus.DRAWBY50MOVERULE
    ∧ (updateGameStatus (rookEnding 99) false).1.status ≠ GameStatus.DRAWBY50MOVERULE :=
  ⟨by decide!, by decide!,
    (fifty_move_rule.1 (rookEnding 100) false (by decide!) (by decide!)).2 (by decide!),
    fun h => absurd ((fifty_move_rule.1 (rookEnding 99) false (by decide!) (by decide!)).1 h)
      (by decide!)⟩

/-- C14: for every board, `hasSufficientMaterial` returns true if and only if the board
holds a pawn, rook or queen of either colour, or two knights (on different squares), or
a bishop on a light square and a bishop on a dark square, or a bishop and a knight; it
is the value of the double loop of the source run from a8 with all counts 0; and it
returns false for bare kings, for a lone knight beside the kings, and for any number of
bishops beside the kings that all stand on light squares or all on dark squares. -/
theorem hasSufficientMaterial_iff (board : Board) :
    (hasSufficientMaterial board = true ↔
      (∃ p, toupper (boardAt board p) = ROOK ∨ toupper (boardAt board p) = QUEEN
          ∨ toupper (boardAt board p) = PAWN)
      ∨ (∃ p q, p ≠ q ∧ toupper (boardAt board p) = KNIGHT
          ∧ toupper (boardAt board q) = KNIGHT)
      ∨ (∃ p q, toupper (boardAt board p) = BISHOP ∧ lightSquare p
          ∧ toupper (boardAt board q) = BISHOP ∧ ¬ lightSquare q)
      ∨ (∃ p q, toupper (boardAt board p) = BISHOP ∧ toupper (boardAt board q) = KNIGHT))
    ∧ hasSufficientMaterial board = materialLoop board allSquares 0 0 0
    ∧ ((∀ p ∈ allSquares, boardAt board p = SPACE ∨ toupper (boardAt board p) = KING) →
        hasSufficientMaterial board = false)
    ∧ (∀ k, toupper (boardAt board k) = KNIGHT →
        (∀ p ∈ allSquares, p ≠ k →
          boardAt board p = SPACE ∨ toupper (boardAt board p) = KING) →
        hasSufficientMaterial board = false)
    ∧ ((∀ p ∈ allSquares, boardAt board p = SPACE ∨ toupper (boardAt board p) = KING
          ∨ toupper (boardAt board p) = BISHOP) →
        ((∀ p, toupper (boardAt board p) = BISHOP → lightSquare p)
          ∨ (∀ p, toupper (boardAt board p) = BISHOP → ¬ lightSquare p)) →
        hasSufficientMaterial board = false) := by
  have hmem : ∀ (p : Position) (k : Nat), toupper (boardAt board p) = k → k ≠ 0 →
      p ∈ allSquares := fun p k h hk =>
    mem_allSquares_of_piece board p (piece_ne_zero _ k h hk)
  have key := sufficient_iff board
  have hno : ∀ (p : Position) (k : Nat),
      (boardAt board p = SPACE ∨ toupper (boardAt board p) = KING) →
      k ≠ SPACE → k ≠ KING → toupper (boardAt board p) ≠ k := by
    intro p k h h1 h2 hk
    rcases h with h | h
    · rw [h] at hk
      exact h1 (hk.symm.trans (by decide))
    · exact h2 (hk.symm.trans h)
  refine ⟨key, hasSufficientMaterial_eq_loop board, ?_, ?_, ?_⟩
  · intro hall
    by_contra hne
    have ht : hasSufficientMaterial board = true := by simpa using hne
    rcases key.1 ht with ⟨p, hp⟩ | ⟨p, q, _, hp, _⟩ | ⟨p, q, hp, _⟩ | ⟨p, q, hp, _⟩
    · rcases hp with h | h | h
      · exact hno p _ (hall p (hmem p _ h (by decide))) (by decide) (by decide) h
      · exact hno p _ (hall p (hmem p _ h (by decide))) (by decide) (by decide) h
      · exact hno p _ (hall p (hmem p _ h (by decide))) (by decide) (by decide) h
    · exact hno p _ (hall p (hmem p _ hp (by decide))) (by decide) (by decide) hp
    · exact hno p _ (hall p (hmem p _ hp (by decide))) (by decide) (by decide) hp
    · exact hno p _ (hall p (hmem p _ hp (by decide))) (by decide) (by decide) hp
  · intro k hk hall
    have hone : ∀ (p : Position) (c : Nat), toupper (boardAt board p) = c → c ≠ 0 →
        c ≠ SPACE → c ≠ KING → p = k := by
      intro p c hp h0 h1 h2
      by_contra hpk
      exact hno p c (hall p (hmem p c hp h0) hpk) h1 h2 hp
    by_contra hne
    have ht : hasSufficientMaterial board = true := by simpa using hne
    rcases key.1 ht with ⟨p, hp⟩ | ⟨p, q, hpq, hp, hq⟩ | ⟨p, q, hp, _⟩ | ⟨p, q, hp, _⟩
    · rcases hp with h | h | h
      · have := hone p _ h (by decide) (by decide) (by decide)
        rw [this, hk] at h
        exact absurd h (by decide)
      · have := hone p _ h (by decide) (by decide) (by decide)
        rw [this, hk] at h
        exact absurd h (by decide)
      · have := hone p _ h (by decide) (by decide) (by decide)
        rw [this, hk] at h
        exact absurd h (by decide)
    · exact hpq ((hone p _ hp (by decide) (by decide) (by decide)).trans
        (hone q _ hq (by decide) (by decide) (by decide)).symm)
    · have := hone p _ hp (by decide) (by decide) (by decide)
      rw [this, hk] at hp
      exact absurd hp (by decide)
    · have := hone p _ hp (by decide) (by decide) (by decide)
      rw [this, hk] at hp
      exact absurd hp (by decide)
  · intro hall hcol
    have hnb : ∀ (p : Position) (c : Nat), toupper (boardAt board p) = c → c ≠ 0 →
        c ≠ SPACE → c ≠ KING → c ≠ BISHOP → False := by
      intro p c hp h0 h1 h2 h3
      rcases hall p (hmem p c hp h0) with h | h | h
      · exact hno p c (Or.inl h) h1 h2 hp
      · exact hno p c (Or.inr h) h1 h2 hp
      · exact h3 (hp.symm.trans h)
    by_contra hne
    have ht : hasSufficientMaterial board = true := by simpa using hne
    rcases key.1 ht with ⟨p, hp⟩ | ⟨p, q, _, hp, _⟩ | ⟨p, q, hp, hp2, hq, hq2⟩ | ⟨p, q, _, hq⟩
    · rcases hp with h | h | h
      · exact hnb p _ h (by decide) (by decide) (by decide) (by decide)
      · exact hnb p _ h (by decide) (by decide) (by decide) (by decide)
      · exact hnb p _ h (by decide) (by decide) (by decide) (by decide)
    · exact hnb p _ hp (by decide) (by decide) (by decide) (by decide)
    · rcases hcol with h | h
      · exact hq2 (h q hq)
      · exact h p hp hp2
    · exact hnb q _ hq (by decide) (by decide) (by decide) (by decide)

/-- C15 (counterexample): in the position `k7/2n5/1K6/8/5B2/8/8/8 w - - 0 60` the move
Bxc7 leaves exactly the two kings and a bishop, it is no draw offer and no resignation,
the clock is 0, and `updateGameStatus` sets the status to stalemate: Black's king on a8
has no move. -/
theorem bishop_ending_is_stalemate :
    kingsAndBishop bishopStalemateBoard
    ∧ (some (entryAfter beforeBxc7 (token "Bxc7"))).map (fun s => decide
        (s.move.type ≠ MoveType.PLAYERDRAW ∧ s.move.type ≠ MoveType.RESIGN
          ∧ s.movesWithoutCaptures < 100 ∧ s.board = bishopStalemateBoard
          ∧ (updateGameStatus s false).1.status = GameStatus.STALEMATE)) = some true :=
  ⟨⟨⟨2, 1⟩, ⟨0, 0⟩, ⟨1, 2⟩, by decide!, by decide!, by decide!, by decide!⟩, by decide!⟩

/-- C15 (amended): for every state on entry to `updateGameStatus` whose last move is no
draw offer and no resignation, whose clock is below 100, whose board holds exactly the
two kings and one bishop, whose record of the opponent's king stands on a king, and for
which neither checkmate is reported nor the new position stands twice in the history
window (both are tested first): the status is set to stalemate when `isStalemate` finds
no legal move for the side to move, and to draw-by-insufficient-material otherwise. -/
theorem insufficient_material_or_stalemate (state : GameState) (isCheck : Bool)
    (hdraw : state.move.type ≠ MoveType.PLAYERDRAW)
    (hresign : state.move.type ≠ MoveType.RESIGN)
    (hclock : state.movesWithoutCaptures < 100)
    (hlen : state.positions.length = 100)
    (hboard : kingsAndBishop state.board)
    (hking : toupper (boardAt state.board (getRegPos (oppKing state))) = KING)
    (hmate : (mateTest state).1 = false)
    (hrep : repetitions state.positions state.movesWithoutCaptures
      (encodePosition (recorded state)) < 2) :
    ((isStalemate state.board (oppKing state)).1 = true →
      (updateGameStatus state isCheck).1.status = GameStatus.STALEMATE)
    ∧ ((isStalemate state.board (oppKing state)).1 = false →
      (updateGameStatus state isCheck).1.status = GameStatus.DRAWBYMATERIAL) := by
  obtain ⟨hpos, hmwc⟩ := convertBoardPosition_recorded state hclock
  have hcur : (state.positions.set state.movesWithoutCaptures
      (encodePosition (recorded state))).getD state.movesWithoutCaptures []
        = encodePosition (recorded state) := by
    rw [List.getD_eq_getElem?_getD, List.getElem?_set_self (by omega)]
    rfl
  have hres := updateGameStatus_play state isCheck hmate hdraw hclock hresign
  rw [hpos, hmwc, hcur] at hres
  have hn : (((state.movesWithoutCaptures + 1 : Nat) : Int) - 1).toNat
      = state.movesWithoutCaptures := by omega
  rw [hn] at hres
  have hcount : ¬ countLoop (state.positions.set state.movesWithoutCaptures
      (encodePosition (recorded state))) state.movesWithoutCaptures
      (encodePosition (recorded state)) = 3 := by
    rw [countLoop_three, repetitions_set]
    omega
  rw [if_neg hcount, mateTest_board state hking,
    kingsAndBishop_insufficient state.board hboard] at hres
  rw [hres]
  constructor
  · intro hs
    simp [hs]
  · intro hs
    simp [hs]

/-- C15 (witness): king on b6 and bishop on c7 against the king on h8, which has a
move. -/
theorem insufficient_material_or_stalemate_witness :
    kingsAndBishop bishopEnding.board
    ∧ bishopEnding.move.type ≠ MoveType.PLAYERDRAW
    ∧ bishopEnding.move.type ≠ MoveType.RESIGN
    ∧ bishopEnding.movesWithoutCaptures < 100
    ∧ bishopEnding.positions.length = 100
    ∧ toupper (boardAt bishopEnding.board (getRegPos (oppKing bishopEnding))) = KING
    ∧ repetitions bishopEnding.positions bishopEnding.movesWithoutCaptures
        (encodePosition (recorded bishopEnding)) < 2
    ∧ (mateTest bishopEnding).1 = false
    ∧ (isStalemate bishopEnding.board (oppKing bishopEnding)).1 = false
    ∧ (updateGameStatus bishopEnding false).1.status = GameStatus.DRAWBYMATERIAL :=
  ⟨⟨⟨2, 1⟩, ⟨0, 7⟩, ⟨1, 2⟩, by decide!, by decide!, by decide!, by decide!⟩, by decide!,
    by decide!, by decide!, by decide!, by decide!, by decide!, by decide!, by decide!,
    (insufficient_material_or_stalemate bishopEnding false (by decide!) (by decide!)
      (by decide!) (by decide!)
      ⟨⟨2, 1⟩, ⟨0, 7⟩, ⟨1, 2⟩, by decide!, by decide!, by decide!, by decide!⟩
      (by decide!) (by decide!) (by decide!)).2 (by decide!)⟩

/-- C16: status transitions. When the last move is no resignation, `updateGameStatus`
takes the status white-to-move to black-to-move, white-won, one of the four draws or
stalemate, and the status black-to-move to white-to-move, black-won, one of the four
draws or stalemate; so it never leaves the mover's own to-move value and never sets the
opponent's win. -/
theorem updateGameStatus_status_transitions (state : GameState) (isCheck : Bool)
    (hres : state.move.type ≠ MoveType.RESIGN) :
    (state.status = GameStatus.WHITE →
      (updateGameStatus state isCheck).1.status ∈
        [GameStatus.BLACK, GameStatus.WHITE_WON, GameStatus.DRAWBYPLAYER,
          GameStatus.DRAWBYREPETITION, GameStatus.DRAWBY50MOVERULE, GameStatus.DRAWBYMATERIAL,
          GameStatus.STALEMATE])
    ∧ (state.status = GameStatus.BLACK →
      (updateGameStatus state isCheck).1.status ∈
        [GameStatus.WHITE, GameStatus.BLACK_WON, GameStatus.DRAWBYPLAYER,
          GameStatus.DRAWBYREPETITION, GameStatus.DRAWBY50MOVERULE, GameStatus.DRAWBYMATERIAL,
          GameStatus.STALEMATE]) := by
  by_cases hm : (mateTest state).1 = true
  · rw [updateGameStatus_mate state isCheck hm]
    constructor <;> intro hs <;> simp [hs]
  have hm1 : (mateTest state).1 = false := by simpa using hm
  by_cases hd : state.move.type = MoveType.PLAYERDRAW
  · rw [updateGameStatus_draw state isCheck hm1 hd]
    constructor <;> intro hs <;> simp
  by_cases hc : 100 ≤ state.movesWithoutCaptures
  · rw [updateGameStatus_fifty state isCheck hm1 hd hc]
    constructor <;> intro hs <;> simp
  rw [updateGameStatus_play state isCheck hm1 hd (by omega) hres]
  constructor <;> intro hs <;> split_ifs <;> simp_all

/-- C16 (witness): the rook ending after White's Ra1-a2. -/
theorem updateGameStatus_status_transitions_witness :
    (rookEnding 5).move.type ≠ MoveType.RESIGN
    ∧ (rookEnding 5).status = GameStatus.WHITE
    ∧ (updateGameStatus (rookEnding 5) false).1.status ∈
        [GameStatus.BLACK, GameStatus.WHITE_WON, GameStatus.DRAWBYPLAYER,
          GameStatus.DRAWBYREPETITION, GameStatus.DRAWBY50MOVERULE, GameStatus.DRAWBYMATERIAL,
          GameStatus.STALEMATE] :=
  ⟨by decide!, by decide!,
    (updateGameStatus_status_transitions (rookEnding 5) false (by decide!)).1 (by decide!)⟩

/-- C17 (counterexample): White, to move in a rook ending with the clock at 100, resigns;
Black's king is not reported checkmated, and `updateGameStatus` sets the status to
draw-by-50-move-rule, not to black-won. -/
theorem resign_at_clock_100_is_a_draw :
    (some (resignEntry (whiteToMoveAt 100))).map (fun s => decide
      (s.status = GameStatus.WHITE ∧ s.move.type = MoveType.RESIGN
        ∧ (mateTest s).1 = false
        ∧ (updateGameStatus s false).1.status = GameStatus.DRAWBY50MOVERULE)) = some true := by
  decide!

/-- C17 (amended): for every state whose last move has kind resign, for which no
checkmate of the opponent's king is reported and whose clock is below 100,
`updateGameStatus` sets the status to the win of the other side: black-won when White
was to move, white-won when Black was to move. -/
theorem updateGameStatus_resign_below_100 (state : GameState) (isCheck : Bool)
    (hr : state.move.type = MoveType.RESIGN) (hm : (mateTest state).1 = false)
    (hc : state.movesWithoutCaptures < 100) :
    (state.status = GameStatus.WHITE →
      (updateGameStatus state isCheck).1.status = GameStatus.BLACK_WON)
    ∧ (state.status = GameStatus.BLACK →
      (updateGameStatus state isCheck).1.status = GameStatus.WHITE_WON) := by
  rw [updateGameStatus_resign state isCheck hm hc hr]
  constructor <;> intro hs <;> simp [hs]

/-- C17 (witness): White resigns the rook ending with the clock at 57. -/
theorem updateGameStatus_resign_below_100_witness :
    (resignEntry (whiteToMoveAt 57)).move.type = MoveType.RESIGN
    ∧ (mateTest (resignEntry (whiteToMoveAt 57))).1 = false
    ∧ (resignEntry (whiteToMoveAt 57)).movesWithoutCaptures < 100
    ∧ (updateGameStatus (resignEntry (whiteToMoveAt 57)) false).1.status
        = GameStatus.BLACK_WON :=
  ⟨by decide!, by decide!, by decide!,
    (updateGameStatus_resign_below_100 (resignEntry (whiteToMoveAt 57)) false (by decide!)
      (by decide!) (by decide!)).1 (by decide!)⟩

/-- C18: castling rights are never regained. Each of the four flags (white short, white
long, black short, black long) after `updateGameStatus` implies the same flag before
it; `validateMove` leaves both king records, flags included, as they were, whatever it
returns; `makeMove` writes to the board only; and so the flags after a whole turn of the
loop of `main` imply the flags before it. -/
theorem castling_rights_never_regained (state : GameState) (isCheck : Bool)
    (tok : List Nat) (specifyRow specifyCol : Bool) :
    (((updateGameStatus state isCheck).1.whiteKing.canCastleShort = true →
          state.whiteKing.canCastleShort = true)
      ∧ ((updateGameStatus state isCheck).1.whiteKing.canCastleLong = true →
          state.whiteKing.canCastleLong = true)
      ∧ ((updateGameStatus state isCheck).1.blackKing.canCastleShort = true →
          state.blackKing.canCastleShort = true)
      ∧ ((updateGameStatus state isCheck).1.blackKing.canCastleLong = true →
          state.blackKing.canCastleLong = true))
    ∧ ((validateMove tok state specifyRow specifyCol).state.whiteKing = state.whiteKing
      ∧ (validateMove tok state specifyRow specifyCol).state.blackKing = state.blackKing)
    ∧ (({ state with board := makeMove state.board state.move } : GameState).whiteKing
          = state.whiteKing
      ∧ ({ state with board := makeMove state.board state.move } : GameState).blackKing
          = state.blackKing)
    ∧ (∀ r : GameState × Bool, playMove state tok = some r →
        (r.1.whiteKing.canCastleShort = true → state.whiteKing.canCastleShort = true)
        ∧ (r.1.whiteKing.canCastleLong = true → state.whiteKing.canCastleLong = true)
        ∧ (r.1.blackKing.canCastleShort = true → state.blackKing.canCastleShort = true)
        ∧ (r.1.blackKing.canCastleLong = true → state.blackKing.canCastleLong = true)) := by
  refine ⟨updateGameStatus_flags state isCheck, ?_, ⟨rfl, rfl⟩, ?_⟩
  · obtain ⟨h1, h2, _⟩ := validateMove_framed tok state specifyRow specifyCol
    exact ⟨h1, h2⟩
  · intro r h
    obtain ⟨v, _, hf, hr⟩ := playMove_spec state tok r h
    obtain ⟨h1, h2, _⟩ := hf
    have hfl := updateGameStatus_flags
      { v.state with board := makeMove v.state.board v.state.move } false
    rw [← hr] at hfl
    simp only [h1, h2] at hfl
    exact hfl

/-- C19 (failing input): after 1. Nf3 b6 2. g3 Bb7 3. Nh4 the white rook stands on h1
and White holds the short castling flag; Black's Bxh1 captures that rook on its home
corner, and the turn ends in the state `rookTaken`, in which White still holds the
flag. -/
theorem rook_captured_on_h1_keeps_flag :
    beforeBxh1.map (fun s => decide
      (boardAt s.board ⟨7, 7⟩ = 82 ∧ s.whiteKing.canCastleShort = true
        ∧ (playMove s (token "Bxh1")).map (fun r => decide
            (r.1.move = rookTaken.move ∧ r.1.board = rookTaken.board
              ∧ r.1.status = rookTaken.status ∧ r.1.blackKing = rookTaken.blackKing
              ∧ r.1.whiteKing = rookTaken.whiteKing
              ∧ r.1.whiteKing.canCastleShort = true)) = some true)) = some true := by
  decide!

/-- C20 (failing input): in the position `r3k2r/8/8/8/8/8/8/R3K2R b KQkq - 0 1`, Black
to move, `validateMove` accepts `O-O` and commits a move of kind castle-short whose
origin is e1 and whose piece is the white king: `setMoveToCastle` takes the colour from
the piece of the last move, which is NUL after a load. `makeMove` then castles White's
king and leaves Black's on e8. -/
theorem black_castle_moves_white_king :
    (some (validateMove (token "O-O") castleLoaded false false)).map (fun v => decide
      (castleLoaded.status = GameStatus.BLACK ∧ v.ok = true
        ∧ v.state.move.type = MoveType.CASTLESHORT
        ∧ v.state.move.origin = ⟨7, 4⟩ ∧ v.state.move.destination = ⟨7, 6⟩
        ∧ v.state.move.pieceMoved = 75
        ∧ boardAt (makeMove v.state.board v.state.move) ⟨7, 6⟩ = 75
        ∧ boardAt (makeMove v.state.board v.state.move) ⟨7, 5⟩ = 82
        ∧ boardAt (makeMove v.state.board v.state.move) ⟨0, 4⟩ = 107
        ∧ boardAt (makeMove v.state.board v.state.move) ⟨0, 7⟩ = 114)) = some true := by
  decide!

/-- C21 (counterexample): after loading `4r3/8/8/3k4/8/2N1N3/8/4K3 w - - 0 1` the token
`Nxd5` has no disambiguation character, the knights on c3 and e3 both reach d5 and only
the move from c3 passes `isPossibleMove` (the knight on e3 is pinned by the rook on e8),
yet `validateMove` returns false: d5 holds a king. -/
theorem validateMove_rejects_move_onto_king :
    ((loadGame (token "4r3/8/8/3k4/8/2N1N3/8/4K3 w - - 0 1\n")).map atPrompt).map (fun s =>
      decide (findDestination (token "Nxd5") = some (⟨3, 3⟩, 2)
        ∧ tolower (boardAt s.board ⟨3, 3⟩) = 107
        ∧ (reaching s (token "Nxd5") ⟨3, 3⟩).length = 2
        ∧ legalOrigins s (token "Nxd5") ⟨3, 3⟩ = [⟨5, 2⟩]
        ∧ (validateMove (token "Nxd5") s false false).ok = false)) = some true := by
  decide!

/-- C21 (amended): for every game state and every token that names a piece K, N, R, B or
Q, whose destination `findDestination` reads and whose capture mark passes the capture
loop: if the destination square does not hold a king, two or more pieces of the named
kind and the mover's colour reach the destination, and exactly one of those candidate
moves passes `isPossibleMove`, then `validateMove` returns true and the origin of the
committed move is that one legal candidate. -/
theorem validateMove_single_legal_candidate (move : List Nat) (state : GameState)
    (specifyRow specifyCol : Bool) (dest : Position) (destinationIndex : Nat)
    (captures : Bool) (captureIndex : Nat) (c : Position)
    (hpiece : tokAt move 0 = 75 ∨ tokAt move 0 = 78 ∨ tokAt move 0 = 82 ∨ tokAt move 0 = 66
      ∨ tokAt move 0 = 81)
    (hdest : findDestination move = some (dest, destinationIndex))
    (hcap : captureScan move dest = some (captures, captureIndex))
    (hking : tolower (boardAt state.board dest) ≠ 107)
    (hreach : 2 ≤ (reaching state move dest).length)
    (hlegal : legalOrigins state move dest = [c]) :
    (validateMove move state specifyRow specifyCol).ok = true
      ∧ (validateMove move state specifyRow specifyCol).state.move.origin = c :=
  validateMove_unique move state specifyRow specifyCol dest destinationIndex captures
    captureIndex c hpiece hdest hcap hking hreach hlegal

/-- C21 (witness): in `pinnedKnight` the knights on c3 and e3 both reach d5, only the one
on c3 may move, and `Nxd5` is accepted with origin c3. -/
theorem validateMove_single_legal_candidate_witness :
    (tokAt (token "Nxd5") 0 = 78
      ∧ findDestination (token "Nxd5") = some (⟨3, 3⟩, 2)
      ∧ captureScan (token "Nxd5") ⟨3, 3⟩ = some (true, 1)
      ∧ tolower (boardAt pinnedKnight.board ⟨3, 3⟩) ≠ 107
      ∧ 2 ≤ (reaching pinnedKnight (token "Nxd5") ⟨3, 3⟩).length
      ∧ legalOrigins pinnedKnight (token "Nxd5") ⟨3, 3⟩ = [⟨5, 2⟩])
    ∧ (validateMove (token "Nxd5") pinnedKnight false false).ok = true
    ∧ (validateMove (token "Nxd5") pinnedKnight false false).state.move.origin = ⟨5, 2⟩ :=
  have h1 : tokAt (token "Nxd5") 0 = 78 := by decide
  have h2 : findDestination (token "Nxd5") = some (⟨3, 3⟩, 2) := by decide!
  have h3 : captureScan (token "Nxd5") ⟨3, 3⟩ = some (true, 1) := by decide!
  have h4 : tolower (boardAt pinnedKnight.board ⟨3, 3⟩) ≠ 107 := by decide!
  have h5 : 2 ≤ (reaching pinnedKnight (token "Nxd5") ⟨3, 3⟩).length := by decide!
  have h6 : legalOrigins pinnedKnight (token "Nxd5") ⟨3, 3⟩ = [⟨5, 2⟩] := by decide!
  ⟨⟨h1, h2, h3, h4, h5, h6⟩,
    validateMove_single_legal_candidate (token "Nxd5") pinnedKnight false false ⟨3, 3⟩ 2 true 1
      ⟨5, 2⟩ (Or.inr (Or.inl h1)) h2 h3 h4 h5 h6⟩

/-- C22: for every game state and every token that names a piece K, N, R, B or Q and
whose destination `findDestination` reads: if two or more pieces of the named kind can
legally (per `isPossibleMove`) move to the destination, then `validateMove` returns false
when no disambiguation character stands between the piece letter and the destination
(the destination starts at index 1, or the byte at index 1 is neither a file nor a rank),
and also when the byte at index 1 is a file on which two or more of those legal
candidates stand and no rank follows it. -/
theorem validateMove_rejects_ambiguous (move : List Nat) (state : GameState)
    (specifyRow specifyCol : Bool) (dest : Position) (destinationIndex : Nat)
    (hpiece : tokAt move 0 = 75 ∨ tokAt move 0 = 78 ∨ tokAt move 0 = 82 ∨ tokAt move 0 = 66
      ∨ tokAt move 0 = 81)
    (hdest : findDestination move = some (dest, destinationIndex))
    (hlegal : 2 ≤ (legalOrigins state move dest).length)
    (hplain : destinationIndex ≤ 1
      ∨ (isCol (tokAt move 1 : Nat) = false ∧ isRow (tokAt move 1 : Nat) = false)
      ∨ (isCol (tokAt move 1 : Nat) = true ∧ isRow (tokAt move 2 : Nat) = false
        ∧ 2 ≤ ((legalOrigins state move dest).filter
            (fun c => decide (c.col = (tokAt move 1 : Int) - 97))).length)) :
    (validateMove move state specifyRow specifyCol).ok = false :=
  validateMove_ambiguous move state specifyRow specifyCol dest destinationIndex hpiece hdest
    hlegal hplain

/-- C22 (witness): in `threeKnights` the knights on b3, f3 and b1 can all move to d2:
`Nd2` is rejected, and so is `Nbd2`, since two of them stand on the b-file. -/
theorem validateMove_rejects_ambiguous_witness :
    (2 ≤ (legalOrigins threeKnights (token "Nd2") ⟨6, 3⟩).length
      ∧ (isCol (tokAt (token "Nbd2") 1 : Nat) = true
        ∧ isRow (tokAt (token "Nbd2") 2 : Nat) = false
        ∧ 2 ≤ ((legalOrigins threeKnights (token "Nbd2") ⟨6, 3⟩).filter
            (fun c => decide (c.col = (tokAt (token "Nbd2") 1 : Int) - 97))).length))
    ∧ (validateMove (token "Nd2") threeKnights false false).ok = false
    ∧ (validateMove (token "Nbd2") threeKnights false false).ok = false :=
  have h1 : 2 ≤ (legalOrigins threeKnights (token "Nd2") ⟨6, 3⟩).length := by decide!
  have h2 : isCol (tokAt (token "Nbd2") 1 : Nat) = true
      ∧ isRow (tokAt (token "Nbd2") 2 : Nat) = false
      ∧ 2 ≤ ((legalOrigins threeKnights (token "Nbd2") ⟨6, 3⟩).filter
          (fun c => decide (c.col = (tokAt (token "Nbd2") 1 : Int) - 97))).length := by
    decide!
  ⟨⟨h1, h2⟩,
    validateMove_rejects_ambiguous (token "Nd2") threeKnights false false ⟨6, 3⟩ 1
      (by decide) (by decide!) h1 (Or.inl (by decide)),
    validateMove_rejects_ambiguous (token "Nbd2") threeKnights false false ⟨6, 3⟩ 2
      (by decide) (by decide!)
      (le_trans h2.2.2 (List.length_filter_le _ _)) (Or.inr (Or.inr h2))⟩

/-- C23 (failing input): after loading `4k3/R7/8/8/8/8/R7/4K3 w - - 0 1` the rooks on a7
and a2 can both legally move to a4. `validateMove` accepts `R2a4` and commits the move of
the rook on a7 (row 1): the digit 2 is compared with the row as `row == digit - 49`, so it
selects the seventh rank, not the rook on the second rank (row 6). -/
theorem validateMove_R2a4_moves_the_a7_rook :
    ((loadGame (token "4k3/R7/8/8/8/8/R7/4K3 w - - 0 1\n")).map atPrompt).map (fun s =>
      decide (findDestination (token "R2a4") = some (⟨4, 0⟩, 2)
        ∧ legalOrigins s (token "R2a4") ⟨4, 0⟩ = [⟨1, 0⟩, ⟨6, 0⟩]
        ∧ (some (validateMove (token "R2a4") s false false)).map (fun v =>
            decide (v.ok = true ∧ v.state.move.origin = ⟨1, 0⟩)) = some true))
      = some true := by
  decide!

/-- C24 (failing input): after loading `7k/4P3/8/8/8/8/8/4K3 w - - 0 1` the pawn on e7
can move to e8. `validateMove` returns true for `e8=Q` without committing a move: the
state's last move is left as `loadPosition` set it, of kind normal and not promotion.
The suffix is looked for at index 1, where the rank digit is. -/
theorem validateMove_e8Q_commits_no_promotion :
    ((loadGame (token "7k/4P3/8/8/8/8/8/4K3 w - - 0 1\n")).map atPrompt).map (fun s =>
      decide (boardGet s.board 1 4 = 80 ∧ boardGet s.board 0 4 = SPACE
        ∧ s.move.type = MoveType.NORMALMOVE
        ∧ (some (validateMove (token "e8=Q") s false false)).map (fun v =>
            decide (v.ok = true ∧ v.state.move = s.move)) = some true)) = some true := by
  decide!

/-- C25 (failing input): after loading `7k/4P3/8/8/8/8/8/4K3 w - - 5 40` the half-move
clock is 6 (the loaded 5 and the position `main` records). `validateMove` returns true
for the pawn move `e8` and the clock is still 6 on return, not 0. -/
theorem validateMove_e8_keeps_the_clock :
    ((loadGame (token "7k/4P3/8/8/8/8/8/4K3 w - - 5 40\n")).map atPrompt).map (fun s =>
      decide (s.movesWithoutCaptures = 6
        ∧ boardGet s.board 1 4 = 80
        ∧ (some (validateMove (token "e8") s false false)).map (fun v =>
            decide (v.ok = true ∧ v.state.movesWithoutCaptures = 6)) = some true))
      = some true := by
  decide!

/-- C26 (failing input): `parseFEN` returns true for `4k2/8/8/8/8/8/8/4K3 w - - 0 1`,
whose first rank has only seven squares; the square h8 keeps the rook of the board
`loadPosition` started from. -/
theorem parseFEN_accepts_a_short_rank :
    (some (parseFEN (token "4k2/8/8/8/8/8/8/4K3 w - - 0 1\n") loadedState)).map (fun r =>
      decide (r.1 = true ∧ boardGet r.2.board 0 7 = 114)) = some true := by
  decide!

/-- C27 (failing input): `parseFEN` returns false for the well-formed line
`4k3/8/8/8/8/8/8/4K3 w - - 10 20`, whose half-move clock is 10, while it accepts the same
line with the clock 9: the clock loop skips the byte after every digit. -/
theorem parseFEN_rejects_clock_10 :
    (parseFEN (token "4k3/8/8/8/8/8/8/4K3 w - - 10 20\n") loadedState).1 = false
    ∧ (parseFEN (token "4k3/8/8/8/8/8/8/4K3 w - - 9 20\n") loadedState).1 = true := by
  decide!

/-- C28 (failing input): in the state loaded from
`rnbqkbnr/pppppppp/8/8/8/8/PPPPPPPP/RNBQKBNR w Qkq - 0 1` White can castle long and not
short. The castling field `exportPosition` writes is `kq`, without `Q`, and `parseFEN`
applied to the exported line yields a state in which White cannot castle long. -/
theorem exportPosition_drops_white_long :
    ((loadGame (token "rnbqkbnr/pppppppp/8/8/8/8/PPPPPPPP/RNBQKBNR w Qkq - 0 1\n")).map
        atPrompt).map (fun s =>
      decide (s.whiteKing.canCastleShort = false ∧ s.whiteKing.canCastleLong = true
        ∧ exportCastling s = [107, 113]
        ∧ exportLine s = token "rnbqkbnr/pppppppp/8/8/8/8/PPPPPPPP/RNBQKBNR w kq - 0 1\n"
        ∧ (parseFEN (exportLine s) loadedState).1 = true
        ∧ (parseFEN (exportLine s) loadedState).2.whiteKing.canCastleLong = false))
      = some true := by
  decide!

/-- C29 (failing input): in `stateE5F5` the last move is the double pawn push f7-f5 and
`exf6` is accepted. The line `exportPosition` writes for it names the target f6; after
`parseFEN` succeeds on that line the last move has kind normal and destination row 6
(not the pawn's square, row 3), and `exf6` is rejected. -/
theorem en_passant_lost_on_import :
    (validateMove (token "exf6") (atPrompt stateE5F5) false false).ok = true
    ∧ exportLine (atPrompt stateE5F5)
        = token "rnbqkbnr/1pppp1pp/p7/4Pp2/8/8/PPPP1PPP/RNBQKBNR w KQkq f6 0 3\n"
    ∧ ((loadGame (exportLine (atPrompt stateE5F5))).map atPrompt).map (fun s =>
        decide (s.board = stateE5F5.board
          ∧ s.move.type = MoveType.NORMALMOVE
          ∧ s.move.destination = ⟨6, 5⟩
          ∧ (validateMove (token "exf6") s false false).ok = false)) = some true := by
  decide!

/-- C30: for every board of 64 squares and every castling move built by `setMoveToCastle`
(its origin is the e-file square of back rank r, row 7 with the white king and row 0 with
the black king): `makeMove` with kind castle-short leaves (r,e) and (r,h) empty, the king
on (r,g) and a rook of the king's colour on (r,f); with kind castle-long it leaves (r,e)
and (r,a) empty, the king on (r,c) and a rook of the king's colour on (r,d); every other
square of the board is unchanged. -/
theorem makeMove_castle (b : Board) (prev : Move) (type : MoveType) (k : KingPosition)
    (hb : b.length = 64) (hbuilt : (setMoveToCastle prev type k).1 = true) :
    ((setMoveToCastle prev type k).2.origin.row = 7
        ∧ (setMoveToCastle prev type k).2.pieceMoved = 75
      ∨ (setMoveToCastle prev type k).2.origin.row = 0
        ∧ (setMoveToCastle prev type k).2.pieceMoved = 107)
    ∧ (setMoveToCastle prev type k).2.origin.col = 4
    ∧ (type = MoveType.CASTLESHORT ∨ type = MoveType.CASTLELONG)
    ∧ (type = MoveType.CASTLESHORT →
        boardGet (makeMove b (setMoveToCastle prev type k).2)
          (setMoveToCastle prev type k).2.origin.row 4 = SPACE
        ∧ boardGet (makeMove b (setMoveToCastle prev type k).2)
          (setMoveToCastle prev type k).2.origin.row 7 = SPACE
        ∧ boardGet (makeMove b (setMoveToCastle prev type k).2)
          (setMoveToCastle prev type k).2.origin.row 6 = (setMoveToCastle prev type k).2.pieceMoved
        ∧ boardGet (makeMove b (setMoveToCastle prev type k).2)
          (setMoveToCastle prev type k).2.origin.row 5
            = (if (setMoveToCastle prev type k).2.pieceMoved = 75 then 82 else 114)
        ∧ ∀ p : Position, ¬ (p.row = (setMoveToCastle prev type k).2.origin.row
              ∧ (p.col = 4 ∨ p.col = 5 ∨ p.col = 6 ∨ p.col = 7)) →
            boardAt (makeMove b (setMoveToCastle prev type k).2) p = boardAt b p)
    ∧ (type = MoveType.CASTLELONG →
        boardGet (makeMove b (setMoveToCastle prev type k).2)
          (setMoveToCastle prev type k).2.origin.row 4 = SPACE
        ∧ boardGet (makeMove b (setMoveToCastle prev type k).2)
          (setMoveToCastle prev type k).2.origin.row 0 = SPACE
        ∧ boardGet (makeMove b (setMoveToCastle prev type k).2)
          (setMoveToCastle prev type k).2.origin.row 2 = (setMoveToCastle prev type k).2.pieceMoved
        ∧ boardGet (makeMove b (setMoveToCastle prev type k).2)
          (setMoveToCastle prev type k).2.origin.row 3
            = (if (setMoveToCastle prev type k).2.pieceMoved = 75 then 82 else 114)
        ∧ ∀ p : Position, ¬ (p.row = (setMoveToCastle prev type k).2.origin.row
              ∧ (p.col = 4 ∨ p.col = 0 ∨ p.col = 2 ∨ p.col = 3)) →
            boardAt (makeMove b (setMoveToCastle prev type k).2) p = boardAt b p) := by
  have hty : type = MoveType.CASTLESHORT ∨ type = MoveType.CASTLELONG := by
    by_contra hn
    unfold setMoveToCastle at hbuilt
    rw [if_pos (by tauto)] at hbuilt
    exact absurd hbuilt (by simp)
  have hm : (setMoveToCastle prev type k).2
      = ⟨type, ⟨if hasSameColor prev.pieceMoved false = true then 7 else 0, 4⟩,
          ⟨if hasSameColor prev.pieceMoved false = true then 7 else 0,
            if type = MoveType.CASTLESHORT then 6 else 2⟩,
          107 - b2n (hasSameColor prev.pieceMoved false) * 32, false, SPACE⟩ := by
    unfold setMoveToCastle at hbuilt ⊢
    dsimp only at hbuilt ⊢
    split_ifs at hbuilt ⊢
    all_goals rfl
  rw [hm]
  cases hw : hasSameColor prev.pieceMoved false <;> rcases hty with ht | ht <;> subst ht <;>
    simp only [makeMove, setAt, boardAt, boardGet_boardSet, boardSet_length, hb, b2n]
  all_goals simp [inBoard, SPACE]
  all_goals
    intro p hp
    rw [if_neg (by omega), if_neg (by omega), if_neg (by omega), if_neg (by omega)]

/-- C30 (witness): short castling built for White on the board of `castleLoaded`. -/
theorem makeMove_castle_witness :
    (castleLoaded.board.length = 64
      ∧ (setMoveToCastle initialState.move MoveType.CASTLESHORT castleLoaded.whiteKing).1 = true)
    ∧ boardGet (makeMove castleLoaded.board (setMoveToCastle initialState.move
        MoveType.CASTLESHORT castleLoaded.whiteKing).2) 7 6 = 75
    ∧ boardGet (makeMove castleLoaded.board (setMoveToCastle initialState.move
        MoveType.CASTLESHORT castleLoaded.whiteKing).2) 7 5 = 82 :=
  have h := makeMove_castle castleLoaded.board initialState.move MoveType.CASTLESHORT
    castleLoaded.whiteKing (by decide) (by decide)
  ⟨by decide, by simpa using (h.2.2.2.1 rfl).2.2.1, by simpa using (h.2.2.2.1 rfl).2.2.2.1⟩

/-- C31 (failing input): `isPossibleMove` called with White's short castling on the
board `r3k2r/8/8/8/8/8/8/R3K2R` (king on e1, rook on h1, f1 and g1 empty) returns true
and leaves e1, h1 and f1 holding the byte of the uninitialised entries of `pieces`, not
the king, the rook and an empty square; only g1 is restored. The same happens with Black's
long castling on a8, d8 and e8. -/
theorem isPossibleMove_castle_not_restored :
    (some (isPossibleMove castleLoaded.board
        ⟨MoveType.CASTLESHORT, ⟨7, 4⟩, ⟨7, 6⟩, 75, false, SPACE⟩ castleLoaded.whiteKing)).map
      (fun r => decide (r.1 = true
        ∧ boardGet castleLoaded.board 7 4 = 75 ∧ boardGet r.2 7 4 = UNINIT
        ∧ boardGet castleLoaded.board 7 7 = 82 ∧ boardGet r.2 7 7 = UNINIT
        ∧ boardGet castleLoaded.board 7 5 = SPACE ∧ boardGet r.2 7 5 = UNINIT
        ∧ boardGet castleLoaded.board 7 6 = SPACE ∧ boardGet r.2 7 6 = SPACE)) = some true
    ∧ (some (isPossibleMove castleLoaded.board
        ⟨MoveType.CASTLELONG, ⟨0, 4⟩, ⟨0, 2⟩, 107, false, SPACE⟩ castleLoaded.blackKing)).map
      (fun r => decide (r.1 = true
        ∧ boardGet castleLoaded.board 0 4 = 107 ∧ boardGet r.2 0 4 = UNINIT
        ∧ boardGet castleLoaded.board 0 0 = 114 ∧ boardGet r.2 0 0 = UNINIT
        ∧ boardGet castleLoaded.board 0 3 = SPACE ∧ boardGet r.2 0 3 = UNINIT
        ∧ boardGet castleLoaded.board 0 2 = SPACE ∧ boardGet r.2 0 2 = SPACE)) = some true := by
  decide!

/-- C32 (failing input): after 1. e4 a6 the white pawn stands on e4 (row 4, not its
starting row 6) with e5 and e6 empty, and `search` in `ISLEGALMOVE` mode reports the
destination e6, two rows ahead, as a legal move; so does `searchBoard`, which tries that
destination first. -/
theorem search_double_step_from_e4 :
    (playMoves initialState [token "e4", token "a6"]).map (fun s =>
      decide (boardGet s.board 4 4 = 80 ∧ boardGet s.board 3 4 = SPACE
        ∧ boardGet s.board 2 4 = SPACE
        ∧ (search PAWN SearchType.ISLEGALMOVE ⟨4, 4⟩ ⟨2, 4⟩ 80 (s.board, []) s.whiteKing).1
            = true
        ∧ (pawnDests ⟨4, 4⟩ true).head? = some ⟨2, 4⟩
        ∧ (searchBoard PAWN SearchType.ISLEGALMOVE ⟨4, 4⟩ 80 (s.board, []) s.whiteKing).1
            = true)) = some true := by
  decide!

/-- C33 (failing input): in the position loaded from `7k/bp6/8/P7/8/8/6PP/5BKB b - - 0 1`
Black plays the double push b7-b5. The bishop on a7 attacks the king on g1 along
b6-f2; the white pawn on a5 can legally capture en passant onto b6 (`isPossibleMove`
accepts it), which is the square the pushed pawn passed over. `canMoveTo` returns false for
b6, and the turn ends with White declared checkmated. -/
theorem canMoveTo_misses_en_passant :
    ((loadGame (token "7k/bp6/8/P7/8/8/6PP/5BKB b - - 0 1\n")).bind
        (fun s => playMove s (token "b5"))).map (fun r =>
      decide (r.1.move.type = MoveType.DOUBLEPAWNMOVE
        ∧ r.1.move.origin = ⟨1, 1⟩ ∧ r.1.move.destination = ⟨3, 1⟩
        ∧ boardGet r.1.board 3 0 = 80
        ∧ (isPossibleMove r.1.board ⟨MoveType.ENPEASANT, ⟨3, 0⟩, ⟨2, 1⟩, 80, true, SPACE⟩
            r.1.whiteKing).1 = true
        ∧ (canMoveTo r.1.board ⟨2, 1⟩ true r.1.whiteKing r.1.move).1 = false
        ∧ r.1.status = GameStatus.BLACK_WON)) = some true := by
  decide!

/-- C34: for all in-range squares `pos1` and `pos2` and an empty list, `getLineOfSight`
returns true iff the squares share a row, a column or a diagonal; the list then holds
exactly the squares strictly between them, each once, at most 6 of them, and none when the
squares are adjacent or equal; when it returns false the list is left empty.
`hasClearSight` returns true iff `getLineOfSight` succeeds and every listed square is
empty, and it gives the same result with the two squares exchanged. -/
theorem getLineOfSight_spec (board : Board) (pos1 pos2 : Position)
    (h1 : inBoard pos1.row pos1.col = true) (h2 : inBoard pos2.row pos2.col = true) :
    ((getLineOfSight pos1 pos2 []).1 = true ↔ collinear pos1 pos2)
    ∧ (collinear pos1 pos2 →
        (∀ t, t ∈ (getLineOfSight pos1 pos2 []).2 ↔ strictlyBetween pos1 pos2 t)
        ∧ (getLineOfSight pos1 pos2 []).2.Nodup
        ∧ (getLineOfSight pos1 pos2 []).2.length ≤ 6)
    ∧ ((pos1.row - pos2.row).natAbs ≤ 1 ∧ (pos1.col - pos2.col).natAbs ≤ 1 →
        (getLineOfSight pos1 pos2 []).2 = [])
    ∧ ((getLineOfSight pos1 pos2 []).1 = false → (getLineOfSight pos1 pos2 []).2 = [])
    ∧ (hasClearSight board pos1 pos2 = true ↔
        (getLineOfSight pos1 pos2 []).1 = true
          ∧ ∀ t ∈ (getLineOfSight pos1 pos2 []).2, boardAt board t = SPACE)
    ∧ hasClearSight board pos1 pos2 = hasClearSight board pos2 pos1 :=
  ⟨getLineOfSight_fst pos1 pos2 [],
    fun hc => ⟨fun t => mem_getLineOfSight pos1 pos2 t hc, getLineOfSight_nodup pos1 pos2,
      getLineOfSight_length pos1 pos2 h1 h2⟩,
    getLineOfSight_near pos1 pos2,
    getLineOfSight_false pos1 pos2 [],
    hasClearSight_list board pos1 pos2,
    hasClearSight_symm board pos1 pos2⟩

/-- C34 (witness): the squares a1 and h8 on the initial board: the line of sight from a1
to h8 is b2, c3, d4, e5, f6, g7, and it is not clear. -/
theorem getLineOfSight_spec_witness :
    (inBoard 7 0 = true ∧ inBoard 0 7 = true)
    ∧ (getLineOfSight ⟨7, 0⟩ ⟨0, 7⟩ []).2
        = [⟨1, 6⟩, ⟨2, 5⟩, ⟨3, 4⟩, ⟨4, 3⟩, ⟨5, 2⟩, ⟨6, 1⟩]
    ∧ ((getLineOfSight ⟨7, 0⟩ ⟨0, 7⟩ []).1 = true ↔ collinear ⟨7, 0⟩ ⟨0, 7⟩)
    ∧ hasClearSight initializeBoard ⟨7, 0⟩ ⟨0, 7⟩ = hasClearSight initializeBoard ⟨0, 7⟩ ⟨7, 0⟩ :=
  have h := getLineOfSight_spec initializeBoard ⟨7, 0⟩ ⟨0, 7⟩ (by decide) (by decide)
  ⟨⟨by decide, by decide⟩, by decide, h.1, h.2.2.2.2.2⟩

/-- C35 (failing input): after loading `4k3/8/8/8/8/8/8/r6K w - - 0 1` the rook on a1
attacks the king on h1. For the checker's square a1 (row 7, column 0) and the colour Black
the pawn scan of `isInCheck` reads the square in row 8, column 1; for the first square b1
of the line between rook and king (row 7, column 1) and the colour White the pawn-advance
scan of `canMoveTo` reads the square in row 8, column 1. Row 8 is not on the board. -/
theorem pawn_scans_read_row_8 :
    (loadGame (token "4k3/8/8/8/8/8/8/r6K w - - 0 1\n")).map (fun s =>
      decide ((isInCheck s.board (getRegPos s.whiteKing) true s.move []).2 = [⟨7, 0⟩]
        ∧ inBoard 7 0 = true
        ∧ pawnScanReads ⟨7, 0⟩ false 1 = [⟨8, 1⟩]
        ∧ (getLineOfSight ⟨7, 0⟩ (getRegPos s.whiteKing) []).2.head? = some ⟨7, 1⟩
        ∧ inBoard 7 1 = true
        ∧ advanceReads ⟨7, 1⟩ true = [⟨8, 1⟩]
        ∧ inBoard 8 1 = false)) = some true := by
  decide!

/-- C36 (failing input): in `rookTaken` Black's bishop has captured the rook on h1. After
4. Bh3 a6 the squares f1 and g1 are empty, h1 holds the black bishop and there are three
rooks on the board. `validateMove` accepts `O-O`, and `makeMove` with the committed move
puts a white rook on f1 and empties h1: there are four rooks on the board. -/
theorem castling_without_rook_adds_a_rook :
    ((playMoves rookTaken [token "Bh3", token "a6"]).map atPrompt).map (fun s =>
      decide (s.status = GameStatus.WHITE
        ∧ boardGet s.board 7 4 = 75 ∧ boardGet s.board 7 7 = 98
        ∧ countRooks s.board = 3
        ∧ (some (validateMove (token "O-O") s false false)).map (fun v =>
            decide (v.ok = true
              ∧ countRooks (makeMove v.state.board v.state.move) = 4
              ∧ boardGet (makeMove v.state.board v.state.move) 7 5 = 82
              ∧ boardGet (makeMove v.state.board v.state.move) 7 7 = SPACE)) = some true))
      = some true := by
  decide!

/-- C37 (failing input): after loading `4k3/8/8/8/8/8/4p3/K7 b - - 0 1` the black pawn
stands on e2. `validateMove` returns true for the pawn token `e1`, which has no promotion
suffix and whose destination e1 is on the first rank, and it leaves the state's last move
as it was, with destination a8 and not e1; after the turn the pawn is still on e2 and it
is White's move. -/
theorem validateMove_accepts_e1_without_suffix :
    (loadGame (token "4k3/8/8/8/8/8/4p3/K7 b - - 0 1\n")).map (fun s =>
      decide (findDestination (token "e1") = some (⟨7, 4⟩, 0)
        ∧ boardGet s.board 6 4 = 112
        ∧ (some (validateMove (token "e1") (atPrompt s) false false)).map (fun v =>
            decide (v.ok = true ∧ v.state.move = s.move
              ∧ v.state.move.destination = ⟨0, 0⟩)) = some true
        ∧ (playMove s (token "e1")).map (fun r =>
            decide (r.1.status = GameStatus.WHITE ∧ boardGet r.1.board 6 4 = 112
              ∧ boardGet r.1.board 7 4 = SPACE)) = some true)) = some true := by
  decide!

end TerminalChess
